import Mathlib

/-!
# Poker clients: bot policies and browser-client reconciliation core

A shallow embedding of the three clients of the repository:

* `bot_conservative.js` (`ConservativeBot`), `bot_aggressive.ts` (`AggressiveBot`):
  the `decideAction` policies;
* `poker-ui/game.js` (`Game`): the session state, the stale-response guard of
  `updateGameState`, the snapshot reconciler `renderGameState` / `renderPlayers`,
  the winner-overlay sequencer and `getPlayerLastAction`.

JavaScript numbers that carry chip counts and bets are natural numbers (jetons);
the two binary64 products of the policies (`x * 0.1`, `x * 0.15`) are modelled
exactly, with round-to-nearest-even, as multiples of `2 ^ -55`.
-/

set_option linter.unusedVariables false

namespace Poker

/-! ## Binary64 products -/

/-- Number of low bits dropped when `m` is brought to a 53-bit significand
(`fuel` bounds the search; 64 covers every product below `2 ^ 117`). -/
def sigShift : Nat → Nat → Nat
  | 0, _ => 0
  | fuel + 1, m => if m < 2 ^ 53 then 0 else sigShift fuel (m / 2) + 1

/-- Round the natural number `m` to 53 significant bits, to nearest, ties to even. -/
def roundSig53 (m : Nat) : Nat :=
  let k := 2 ^ sigShift 64 m
  let q := m / k
  let r := m % k
  if k < 2 * r ∨ (2 * r = k ∧ q % 2 = 1) then (q + 1) * k else q * k

/-- The binary64 product `n * 0.1`, in units of `2 ^ -55`:
the literal `0.1` is the double `3602879701896397 / 2 ^ 55`. -/
def mulTenth (n : Nat) : Nat := roundSig53 (n * 3602879701896397)

/-- The binary64 product `n * 0.15`, in units of `2 ^ -55`:
the literal `0.15` is the double `5404319552844595 / 2 ^ 55`. -/
def mulFifteen (n : Nat) : Nat := roundSig53 (n * 5404319552844595)

/-- The literal `0.6` of `Math.random() < 0.6`: the double `5404319552844595 / 2 ^ 53`. -/
def double_0_6 : ℚ := 5404319552844595 / 9007199254740992

/-- An action as posted to the server: `{ type, amount? }`. -/
structure Action where
  type : String
  amount : Option Nat
  deriving DecidableEq, Repr

/-! ## `bot_conservative.js` -/

namespace ConservativeBot

/-- The fields of an entry of `state.players` that the bot reads. -/
structure PlayerEntry where
  id : String
  current_bet : Option Nat
  deriving DecidableEq, Repr

/-- The fields of the polled snapshot that the bot reads; a field the
source guards with `|| default` or `?.` is optional. -/
structure GameState where
  valid_actions : Option (List String)
  players : Option (List PlayerEntry)
  current_bet : Option Nat
  your_chips : Option Nat
  current_player_id : Option String
  game_finished : Bool
  deriving DecidableEq, Repr

/-- The method `decideAction(state)` of `ConservativeBot`, with `this.playerId` as
`playerId` (`null` until the bot has joined). `callAmount <= maxCall` compares the
integer `callAmount` with the double `your_chips * 0.1`. -/
def decideAction (playerId : Option String) (state : GameState) : Option Action :=
  let validActions := state.valid_actions.getD []
  if validActions.length = 0 then none
  else if validActions.contains "check" then some { type := "check", amount := none }
  else
    let callsNow : Bool :=
      if validActions.contains "call" then
        let currentBet : Nat :=
          ((state.players.bind fun ps => ps.find? fun p => some p.id == playerId).bind
            fun p => p.current_bet).getD 0
        let totalRequired : Nat := state.current_bet.getD 0
        let callAmount : Int := (totalRequired : Int) - (currentBet : Int)
        let maxCall : Nat := mulTenth (state.your_chips.getD 0)
        decide (callAmount * 2 ^ 55 ≤ (maxCall : Int))
      else false
    if callsNow then some { type := "call", amount := none }
    else some { type := "fold", amount := none }

end ConservativeBot

/-! ## `bot_aggressive.ts` -/

namespace AggressiveBot

/-- The interface `GameState` of `bot_aggressive.ts`, with the untyped field
`game_finished` that `play` reads through `(state as any)`. The key `valid_actions` may be
missing from the JSON body (`decideAction` reads it as `state.valid_actions || []`), so it
is optional. -/
structure GameState where
  game_id : String
  phase : String
  pot : Nat
  current_bet : Nat
  community_cards : List String
  current_player_id : Option String
  your_player_id : String
  your_chips : Nat
  your_cards : List String
  valid_actions : Option (List String)
  game_finished : Bool
  deriving DecidableEq, Repr

/-- The method `decideAction(state)` of `AggressiveBot`; `random` is the value that
`Math.random()` returns when it is called. -/
def decideAction (random : ℚ) (state : GameState) : Option Action :=
  let validActions := state.valid_actions.getD []
  if validActions.length = 0 then none
  else if validActions.contains "raise" && decide (random < double_0_6) then
    let raiseAmount := max (state.current_bet + 20) (mulFifteen state.your_chips / 2 ^ 55)
    some { type := "raise", amount := some raiseAmount }
  else if validActions.contains "check" then some { type := "check", amount := none }
  else if validActions.contains "call" then some { type := "call", amount := none }
  else some { type := "fold", amount := none }

end AggressiveBot

/-! ## JavaScript string primitives

Strings are sequences of characters; the functions below are the `String.prototype`
methods that `game.js` calls, on `List Char`. -/

namespace Js

/-- `s.indexOf(pattern)`: position of the first occurrence; `none` stands for `-1`. -/
def indexOf (pattern : List Char) : List Char → Option Nat
  | [] => if pattern.isPrefixOf [] then some 0 else none
  | c :: s =>
    if pattern.isPrefixOf (c :: s) then some 0 else (indexOf pattern s).map (· + 1)

/-- `s.includes(pattern)`. -/
def includes (s pattern : List Char) : Bool := (indexOf pattern s).isSome

/-- `s.substring(start)`. -/
def substring (s : List Char) (start : Nat) : List Char := s.drop start

/-- `s.startsWith(pattern)`. -/
def startsWith (s pattern : List Char) : Bool := pattern.isPrefixOf s

/-- `s.endsWith(pattern)`. -/
def endsWith (s pattern : List Char) : Bool := pattern.isSuffixOf s

/-- `s.split(' ')[0]`: the text before the first space. -/
def splitSpaceHead (s : List Char) : List Char := s.takeWhile (fun c => c != ' ')

/-- `s.slice(0, -1)`. -/
def sliceInit (s : List Char) : List Char := s.dropLast

/-- The upper-case form of one character under `String.prototype.toUpperCase`, exact for
the characters up to U+00FF: `a`-`z` and the Latin-1 letters U+00E0-U+00FE (without the
division sign U+00F7) move down by 32, `ß` (U+00DF) becomes `SS`, `µ` (U+00B5) becomes
U+039C, `ÿ` (U+00FF) becomes U+0178, and every other character is kept. Characters from
U+0100 on are kept as they are, which is exact only for those without an upper-case form. -/
def upperChar (c : Char) : List Char :=
  if c.toNat = 0xDF then ['S', 'S']
  else if c.toNat = 0xB5 then [Char.ofNat 0x39C]
  else if c.toNat = 0xFF then [Char.ofNat 0x178]
  else if 0xE0 ≤ c.toNat ∧ c.toNat ≤ 0xFE ∧ c.toNat ≠ 0xF7 then [Char.ofNat (c.toNat - 32)]
  else [c.toUpper]

/-- `s.toUpperCase()`, character by character with `upperChar`. -/
def toUpperCase (s : List Char) : List Char := s.flatMap upperChar

/-- Whether the text of `id` stands for itself inside the quoted value of the selector
`[data-player-id="${id}"]`: no backslash (U+005C, an escape), no double quote (U+0022, the end
of the value), no line feed, carriage return or form feed (a syntax error) and no NUL
(replaced by U+FFFD). -/
def selectorSafe (id : String) : Bool :=
  id.toList.all fun c =>
    c.toNat != 92 && c.toNat != 34 && c.toNat != 10 && c.toNat != 13 && c.toNat != 12 &&
      c.toNat != 0

/-- Truthiness of a string-or-null value: `null`, `undefined` and `''` are falsy. -/
def truthy (v : Option String) : Bool :=
  match v with
  | none => false
  | some s => s != ""

end Js

/-! ## Last-action extraction as the specification words it -/

namespace Js

/-- Last-action extraction by the arrow rule alone: scan the log from the most recent entry
backward, stop at the first entry that contains `" {name} -> "`, and take the first of
FOLD, CHECK, CALL, RAISE, ALL-IN that occurs in the text after the arrow. -/
def lastArrowLabel (playerName : String) (actionLog : List String) : Option String :=
  let pattern := " ".toList ++ playerName.toList ++ " -> ".toList
  match (actionLog.reverse.map String.toList).find? fun e => includes e pattern with
  | none => none
  | some e =>
    let after := substring e ((indexOf pattern e).getD 0 + pattern.length)
    ["FOLD", "CHECK", "CALL", "RAISE", "ALL-IN"].find? fun label => includes after label.toList

end Js

/-! ## `poker-ui/game.js`: data -/

namespace Game

/-- An entry of `state.players`. -/
structure Player where
  id : String
  name : String
  chips : Nat
  current_bet : Option Nat
  status : String
  cards : Option (List String)
  deriving DecidableEq, Repr

/-- The snapshot returned by `GET /games/{id}/state`, with the fields `game.js` reads;
a field the source tests for presence is optional. -/
structure GameState where
  game_id : Option String
  phase : String
  pot : Nat
  current_bet : Nat
  community_cards : List String
  players : List Player
  current_player_id : Option String
  action_log : Option (List String)
  game_finished : Bool
  winner_name : Option String
  winner_id : Option String
  last_hand_winner : Option String
  last_hand_winner_name : Option String
  last_hand_amount : Nat
  last_hand_description : Option String
  last_hand_cards : Option (List String)
  your_cards : Option (List String)
  your_chips : Option Nat
  valid_actions : Option (List String)
  deriving DecidableEq, Repr

/-- Which of the two overlays an element is: the game overlay is the one created with
`id = 'gameWinnerOverlay'`. -/
inductive OverlayKind
  | hand
  | game
  deriving DecidableEq, Repr

/-- A `div.winner-overlay` appended to `#gameView`. `node` is the identity of the element,
`countdown` the text of its `span#countdown`, `buttonsDisabled` the `disabled` flag of the
buttons of its `div.action-buttons`. -/
structure Overlay where
  node : Nat
  kind : OverlayKind
  innerHTML : String
  countdown : String
  buttonsDisabled : Bool
  deriving DecidableEq, Repr

/-- A `div.player` of `#playersContainer`. `node` is the identity of the element,
`playerId` its `dataset.playerId`, `lastHtml` its expando `_lastHtml`. -/
structure PlayerNode where
  node : Nat
  playerId : Option String
  className : String
  innerHTML : String
  lastHtml : Option String
  deriving DecidableEq, Repr

/-- A `div.log-entry` of `#actionLog`. -/
structure LogEntry where
  className : String
  textContent : String
  deriving DecidableEq, Repr

/-- A write to the document, as recorded in `State.trace`. -/
inductive DomWrite
  | gamePhase
  | gamePot
  | potDisplay
  | currentBet
  | communityCards
  | playersCleared
  | playerAppended (node : Nat)
  | playerClass (node : Nat)
  | playerHtml (node : Nat)
  | startBtn
  | actionLog
  | overlayAppended (node : Nat) (kind : OverlayKind)
  | overlayRemoved (node : Nat)
  | overlayCountdown (node : Nat)
  | overlayButtons (node : Nat)
  | humanControls (element : String)
  | pageSection (element : String)
  | sidebar
  deriving DecidableEq, Repr

/-- The part of the document that `game.js` writes. -/
structure View where
  lobbyDisplay : String
  gameViewDisplay : String
  headerControlsDisplay : String
  gameInfoBarDisplay : String
  gamePhase : String
  gamePot : String
  potDisplay : String
  currentBet : String
  communityCards : String
  playersContainer : List PlayerNode
  startBtnDisabled : Bool
  startBtnText : String
  actionLog : List LogEntry
  overlays : List Overlay
  sidebarCollapsed : Bool
  toggleIcon : String
  humanPlayerControlsDisplay : String
  humanPlayerCards : String
  humanPlayerChips : String
  actionMessage : String
  actionMessageColor : String
  checkBtnDisplay : String
  checkBtnDisabled : Bool
  callBtnDisplay : String
  callBtnDisabled : Bool
  callAmount : String
  raiseControlsDisplay : String
  raiseAmountMin : String
  raiseAmountPlaceholder : String
  raiseBtnDisabled : Bool
  foldBtnDisabled : Bool
  allinBtnDisabled : Bool
  /-- Static markup of `index.html`, which the script does not write: whether `#raiseBtn`
  lies inside a `.action-buttons` element, and likewise for the four buttons below. -/
  raiseBtnInActionButtons : Bool
  foldBtnInActionButtons : Bool
  checkBtnInActionButtons : Bool
  callBtnInActionButtons : Bool
  allinBtnInActionButtons : Bool
  deriving DecidableEq, Repr

/-- A state request that has been sent and not yet answered: the `expectedGameId`
captured by `updateGameState` and the `player_id` of the query. -/
structure Fetch where
  expectedGameId : String
  playerId : String
  deriving DecidableEq, Repr

/-- The closure of the `setInterval` callback of `showHandWinner`. -/
structure Countdown where
  interval : Nat
  countdown : Int
  countdownEl : Option Nat
  overlay : Nat
  deriving DecidableEq, Repr

/-- The module-level variables of `game.js`, the document, the live timers, the requests
in flight, the next fresh identity (elements and timer handles) and the log of writes to
the document (most recent first). Timer handles are positive integers. -/
structure State where
  currentGameId : Option String
  pollInterval : Option Nat
  humanPlayerId : Option String
  humanAuthToken : Option String
  isHumanPlayer : Bool
  lastGameState : Option GameState
  isShowingWinner : Bool
  hasDismissedWinnerPopup : Bool
  view : View
  pollTimers : List Nat
  countdowns : List Countdown
  inFlight : List Fetch
  nextId : Nat
  trace : List DomWrite
  deriving DecidableEq, Repr

/-- The answer to a state request: a 2xx response with its JSON body, another status,
or a rejected promise. -/
inductive Response
  | ok (gameState : GameState)
  | error (status : Nat)
  | failed
  deriving DecidableEq, Repr

/-- The document as loaded, before any script has written to it. The markup is that of a
page whose fold, check, call and all-in buttons lie inside `.action-buttons` and whose raise
button lies in `.raise-controls` outside it; the statements about every state cover every
other markup. -/
def View.initial : View :=
  { lobbyDisplay := "block", gameViewDisplay := "none", headerControlsDisplay := "none",
    gameInfoBarDisplay := "none", gamePhase := "", gamePot := "", potDisplay := "",
    currentBet := "", communityCards := "", playersContainer := [],
    startBtnDisabled := false, startBtnText := "", actionLog := [], overlays := [],
    sidebarCollapsed := false, toggleIcon := "", humanPlayerControlsDisplay := "none",
    humanPlayerCards := "", humanPlayerChips := "", actionMessage := "",
    actionMessageColor := "", checkBtnDisplay := "", checkBtnDisabled := false,
    callBtnDisplay := "", callBtnDisabled := false, callAmount := "",
    raiseControlsDisplay := "", raiseAmountMin := "", raiseAmountPlaceholder := "",
    raiseBtnDisabled := false, foldBtnDisabled := false, allinBtnDisabled := false,
    raiseBtnInActionButtons := false, foldBtnInActionButtons := true,
    checkBtnInActionButtons := true, callBtnInActionButtons := true,
    allinBtnInActionButtons := true }

/-- The state after the script has been loaded. -/
def State.initial : State :=
  { currentGameId := none, pollInterval := none, humanPlayerId := none,
    humanAuthToken := none, isHumanPlayer := false, lastGameState := none,
    isShowingWinner := false, hasDismissedWinnerPopup := false, view := View.initial,
    pollTimers := [], countdowns := [], inFlight := [], nextId := 1, trace := [] }

/-- Record a write to the document. -/
def State.emit (st : State) (w : DomWrite) : State := { st with trace := w :: st.trace }

end Game

/-! ## `poker-ui/game.js`: operations -/

namespace Game

/-- The function `isRedCard(card)`. -/
def isRedCard (card : String) : Bool :=
  Js.includes card.toList "♥".toList || Js.includes card.toList "♦".toList

/-- The markup of one card face. -/
def cardHtml (card : String) : String :=
  let color := if isRedCard card then "red" else "black"
  "<div class=\"card " ++ color ++ "\">" ++ card ++ "</div>"

/-- The pattern that marks a current-format entry of a player. -/
def arrowPattern (playerName : List Char) : List Char :=
  " ".toList ++ playerName ++ " -> ".toList

/-- The label chosen from the text after the arrow (the chain of `includes` tests of
`getPlayerLastAction` and its fallback). -/
def arrowAction (actionPart : List Char) : List Char :=
  if Js.includes actionPart "FOLD".toList then "FOLD".toList
  else if Js.includes actionPart "CHECK".toList then "CHECK".toList
  else if Js.includes actionPart "CALL".toList then "CALL".toList
  else if Js.includes actionPart "RAISE".toList then "RAISE".toList
  else if Js.includes actionPart "ALL-IN".toList then "ALL-IN".toList
  else Js.splitSpaceHead actionPart

/-- The label of a legacy entry (the branch `log.startsWith(playerName + ' ')`). -/
def legacyAction (playerName log : List Char) : List Char :=
  let parts0 := Js.splitSpaceHead (Js.substring log (playerName.length + 1))
  let action := if Js.endsWith parts0 "s".toList then Js.sliceInit parts0 else parts0
  Js.toUpperCase action

/-- The loop of `getPlayerLastAction`, on the entries from the most recent to the oldest. -/
def scanLog (playerName : List Char) : List (List Char) → List Char
  | [] => []
  | log :: older =>
    let pattern := arrowPattern playerName
    match Js.indexOf pattern log with
    | some index => arrowAction (Js.substring log (index + pattern.length))
    | none =>
      if Js.startsWith log (playerName ++ " ".toList) then legacyAction playerName log
      else scanLog playerName older

/-- The function `getPlayerLastAction(playerName, actionLog)`. -/
def getPlayerLastAction (playerName : String) (actionLog : Option (List String)) : String :=
  match actionLog with
  | none => ""
  | some entries =>
    if playerName = "" then ""
    else String.mk (scanLog playerName.toList (entries.reverse.map String.toList))

/-- The value `newHtml` that `updatePlayerElement` computes. -/
def playerHtml (player : Player) (actionLog : Option (List String)) : String :=
  let isFolded := player.status == "Folded"
  let cardsHtml :=
    match player.cards with
    | some (c :: cs) =>
      "\n            <div class=\"player-cards\">\n                " ++
        String.join ((c :: cs).map cardHtml) ++ "\n            </div>\n        "
    | _ =>
      if !isFolded && player.status != "SittingOut" then
        "\n            <div class=\"player-cards\">\n" ++
          "                <div class=\"card-back\">🂠</div>\n" ++
          "                <div class=\"card-back\">🂠</div>\n" ++
          "            </div>\n        "
      else ""
  let lastAction := getPlayerLastAction player.name actionLog
  let bet :=
    match player.current_bet with
    | some b => if b > 0 then "<div class=\"player-bet\">📊 Mise: " ++ toString b ++ "</div>" else ""
    | none => ""
  "\n        <div class=\"player-last-action\">" ++ lastAction ++ "</div>" ++
  "\n        <div class=\"player-name\">" ++ player.name ++ "</div>" ++
  "\n        <div class=\"player-chips\">💰 " ++ toString player.chips ++ " jetons</div>" ++
  "\n        " ++ bet ++
  "\n        <div class=\"player-status " ++ (if isFolded then "status-folded" else "") ++
    "\">" ++ player.status ++ "</div>" ++
  "\n        " ++ cardsHtml ++ "\n    "

/-- The value of `playerDiv.className` after the class updates of `updatePlayerElement`. -/
def playerClassName (player : Player) (currentPlayerId : Option String) : String :=
  let isActive := some player.id == currentPlayerId
  let isFolded := player.status == "Folded"
  "player" ++ (if isActive then " active" else "") ++ (if isFolded then " folded" else "")

/-- The function `updatePlayerElement(playerDiv, player, currentPlayerId, actionLog)`:
the element afterwards and the writes performed (most recent first). The class name is
always assigned; the markup only when it differs from `_lastHtml`. -/
def updatePlayerElement (playerDiv : PlayerNode) (player : Player)
    (currentPlayerId : Option String) (actionLog : Option (List String)) :
    PlayerNode × List DomWrite :=
  let playerDiv := { playerDiv with className := playerClassName player currentPlayerId }
  let newHtml := playerHtml player actionLog
  if playerDiv.lastHtml ≠ some newHtml then
    ({ playerDiv with innerHTML := newHtml, lastHtml := some newHtml },
      [DomWrite.playerHtml playerDiv.node, DomWrite.playerClass playerDiv.node])
  else (playerDiv, [DomWrite.playerClass playerDiv.node])

/-- The function `createPlayerElement(player, currentPlayerId, actionLog)`, creating the
element of identity `node`. -/
def createPlayerElement (node : Nat) (player : Player) (currentPlayerId : Option String)
    (actionLog : Option (List String)) : PlayerNode × List DomWrite :=
  let div : PlayerNode :=
    { node := node, playerId := none, className := "player", innerHTML := "", lastHtml := none }
  updatePlayerElement div player currentPlayerId actionLog

/-- Create the element of a player, set its `dataset.playerId` and append it to the
container (the three statements shared by both branches of `renderPlayers`). -/
def appendPlayer (st : State) (player : Player) (currentPlayerId : Option String)
    (actionLog : Option (List String)) : State :=
  let created := createPlayerElement st.nextId player currentPlayerId actionLog
  let playerDiv := { created.1 with playerId := some player.id }
  { st with
    view := { st.view with playersContainer := st.view.playersContainer ++ [playerDiv] },
    nextId := st.nextId + 1,
    trace := DomWrite.playerAppended playerDiv.node :: (created.2 ++ st.trace) }

/-- Replace the first element that satisfies `p` by its image under `f`: the in-place
mutation of the element that `querySelector` returned. -/
def updateFirst (p : PlayerNode → Bool) (f : PlayerNode → PlayerNode) :
    List PlayerNode → List PlayerNode
  | [] => []
  | n :: ns => if p n then f n :: ns else n :: updateFirst p f ns

/-- One iteration of the second loop of `renderPlayers`. The element is looked up with
`container.querySelector('[data-player-id="' + player.id + '"]')`; for an id that is
`Js.selectorSafe` this selector is the test `data-player-id = player.id`, and the result is
the first element with that id, as here. For another id the interpolated text is a
different selector (an escape sequence) or none at all (`querySelector` throws): such ids
are outside this definition, and the statements that depend on the lookup assume
`Js.selectorSafe`. -/
def patchPlayer (currentPlayerId : Option String) (actionLog : Option (List String))
    (st : State) (player : Player) : State :=
  match st.view.playersContainer.find? (fun n => n.playerId == some player.id) with
  | none => appendPlayer st player currentPlayerId actionLog
  | some playerDiv =>
    let updated := updatePlayerElement playerDiv player currentPlayerId actionLog
    { st with
      view := { st.view with
        playersContainer :=
          updateFirst (fun n => n.playerId == some player.id) (fun _ => updated.1)
            st.view.playersContainer },
      trace := updated.2 ++ st.trace }

/-- The function `renderPlayers(players, currentPlayerId, actionLog)`. -/
def renderPlayers (st : State) (players : List Player) (currentPlayerId : Option String)
    (actionLog : Option (List String)) : State :=
  if st.view.playersContainer.length ≠ players.length then
    let cleared : State :=
      { st with view := { st.view with playersContainer := [] },
                trace := DomWrite.playersCleared :: st.trace }
    players.foldl (fun s player => appendPlayer s player currentPlayerId actionLog) cleared
  else
    players.foldl (patchPlayer currentPlayerId actionLog) st

/-- The function `renderCommunityCards(cards)`. -/
def renderCommunityCards (st : State) (cards : List String) : State :=
  let html :=
    if cards.length = 0 then "<div style=\"color: rgba(255,255,255,0.5);\">En attente...</div>"
    else String.join (cards.map cardHtml)
  { st with view := { st.view with communityCards := html },
            trace := DomWrite.communityCards :: st.trace }

/-- The loop of `addLogEntry` that removes the last child while there are more than 50. -/
def trimLog : Nat → List LogEntry → List LogEntry
  | 0, entries => entries
  | fuel + 1, entries => if entries.length > 50 then trimLog fuel entries.dropLast else entries

/-- The function `addLogEntry(message, type)`; `timestamp` is the formatted clock time. -/
def addLogEntry (st : State) (timestamp message type : String) : State :=
  let entry : LogEntry :=
    { className := "log-entry " ++ type, textContent := "[" ++ timestamp ++ "] " ++ message }
  let entries := entry :: st.view.actionLog
  { st with view := { st.view with actionLog := trimLog entries.length entries },
            trace := DomWrite.actionLog :: st.trace }

/-- The function `toggleSidebar()`. -/
def toggleSidebar (st : State) : State :=
  let collapsed := !st.view.sidebarCollapsed
  { st with
    view := { st.view with sidebarCollapsed := collapsed,
                           toggleIcon := if collapsed then "◀" else "▶" },
    trace := DomWrite.sidebar :: st.trace }

end Game

namespace Game

/-- One iteration of `state.valid_actions.forEach` in `updateHumanPlayerUI`. -/
def showValidAction (state : GameState) (st : State) (action : String) : State :=
  if action = "check" then
    { st with view := { st.view with checkBtnDisplay := "inline-block", checkBtnDisabled := false },
              trace := DomWrite.humanControls "checkBtn" :: st.trace }
  else if action = "call" then
    let committed : Nat :=
      ((state.players.find? fun p => some p.id == st.humanPlayerId).bind
        fun p => p.current_bet).getD 0
    let callAmount : Int := (state.current_bet : Int) - (committed : Int)
    { st with view := { st.view with callAmount := toString callAmount,
                                     callBtnDisplay := "inline-block", callBtnDisabled := false },
              trace := DomWrite.humanControls "callBtn" ::
                DomWrite.humanControls "callAmount" :: st.trace }
  else if action = "raise" then
    let minRaise : Nat := if state.current_bet = 0 then 20 else state.current_bet
    { st with view := { st.view with raiseControlsDisplay := "flex",
                                     raiseAmountMin := toString minRaise,
                                     raiseAmountPlaceholder := "Min: " ++ toString minRaise,
                                     raiseBtnDisabled := false },
              trace := DomWrite.humanControls "raiseBtn" ::
                DomWrite.humanControls "raiseAmount" ::
                DomWrite.humanControls "raiseControls" :: st.trace }
  else st

/-- First block of `updateHumanPlayerUI`: make the controls visible. -/
def showHumanControls (st : State) : State :=
  if st.view.humanPlayerControlsDisplay ≠ "grid" then
    { st with view := { st.view with humanPlayerControlsDisplay := "grid" },
              trace := DomWrite.pageSection "humanPlayerControls" :: st.trace }
  else st

/-- Second block of `updateHumanPlayerUI`: the hole cards, rewritten only when the markup
differs, or emptied. -/
def showHumanCards (st : State) (state : GameState) : State :=
  match state.your_cards with
  | some (c :: cs) =>
    let newCardsHtml := String.join ((c :: cs).map cardHtml)
    if st.view.humanPlayerCards ≠ newCardsHtml then
      { st with view := { st.view with humanPlayerCards := newCardsHtml },
                trace := DomWrite.humanControls "humanPlayerCards" :: st.trace }
    else st
  | _ =>
    { st with view := { st.view with humanPlayerCards := "" },
              trace := DomWrite.humanControls "humanPlayerCards" :: st.trace }

/-- Third block of `updateHumanPlayerUI`: the chip count. -/
def showHumanChips (st : State) (state : GameState) : State :=
  { st with
    view := { st.view with
      humanPlayerChips := "💰 " ++ toString (state.your_chips.getD 0) ++ " jetons" },
    trace := DomWrite.humanControls "humanPlayerChips" :: st.trace }

/-- The human's turn, before the loop over the valid actions: the message, and the check,
call and raise controls hidden. -/
def announceTurn (st : State) : State :=
  { st with
    view := { st.view with actionMessage := "🎯 C'est votre tour !",
                           actionMessageColor := "#4CAF50",
                           checkBtnDisplay := "none", callBtnDisplay := "none",
                           raiseControlsDisplay := "none" },
    trace := DomWrite.humanControls "raiseControls" :: DomWrite.humanControls "callBtn" ::
      DomWrite.humanControls "checkBtn" :: DomWrite.humanControls "actionMessage" ::
      st.trace }

/-- The human's turn, after the loop: fold and all-in are always available. -/
def enableFoldAllin (st : State) : State :=
  { st with
    view := { st.view with foldBtnDisabled := false, allinBtnDisabled := false },
    trace := DomWrite.humanControls "allinBtn" :: DomWrite.humanControls "foldBtn" ::
      st.trace }

/-- Not the human's turn: the waiting message, and `disabled = true` on every `BUTTON`
that the selector `.action-buttons button, .raise-controls` matches. Which of the five
action buttons of the page lie inside `.action-buttons` is the markup of `index.html`, a
parameter of the view; a button outside it keeps its state. The two buttons of a game
overlay lie inside the `.action-buttons` element that `showGameWinner` writes. -/
def disableActionButtons (st : State) : State :=
  { st with
    view := { st.view with
      actionMessage := if st.isHumanPlayer then "⏳ En attente de votre tour..." else "",
      actionMessageColor := "#999",
      foldBtnDisabled := st.view.foldBtnInActionButtons || st.view.foldBtnDisabled,
      checkBtnDisabled := st.view.checkBtnInActionButtons || st.view.checkBtnDisabled,
      callBtnDisabled := st.view.callBtnInActionButtons || st.view.callBtnDisabled,
      allinBtnDisabled := st.view.allinBtnInActionButtons || st.view.allinBtnDisabled,
      raiseBtnDisabled := st.view.raiseBtnInActionButtons || st.view.raiseBtnDisabled,
      overlays := st.view.overlays.map fun o =>
        if o.kind = OverlayKind.game then { o with buttonsDisabled := true } else o },
    trace :=
      ((st.view.overlays.filter fun o => o.kind = OverlayKind.game).map
        fun o => DomWrite.overlayButtons o.node) ++
      DomWrite.humanControls "actionButtons" :: DomWrite.humanControls "actionMessage" ::
      st.trace }

/-- Last block of `updateHumanPlayerUI`: the action buttons. -/
def updateActionButtons (st : State) (state : GameState) : State :=
  let isMyTurn := state.current_player_id == st.humanPlayerId
  match isMyTurn, state.valid_actions with
  | true, some validActions =>
    enableFoldAllin (validActions.foldl (showValidAction state) (announceTurn st))
  | _, _ => disableActionButtons st

/-- The function `updateHumanPlayerUI(state)`: its blocks in source order. -/
def updateHumanPlayerUI (st : State) (state : GameState) : State :=
  let st := showHumanControls st
  let st := showHumanCards st state
  let st := showHumanChips st state
  updateActionButtons st state

/-- The function `showHandWinner(winnerName, amount, handDescription, cards)`. -/
def showHandWinner (st : State) (winnerName : Option String) (amount : Nat)
    (handDescription : Option String) (cards : Option (List String)) : State :=
  if !Js.truthy winnerName || st.isShowingWinner then st
  else
    let cardsHtml :=
      match cards with
      | some (c :: cs) =>
        "<div class=\"winner-cards\">" ++ String.join ((c :: cs).map cardHtml) ++ "</div>"
      | _ => ""
    let description := if Js.truthy handDescription then handDescription.getD "" else "Main gagnante"
    let overlay : Overlay :=
      { node := st.nextId, kind := OverlayKind.hand,
        innerHTML :=
          "\n        <div class=\"winner-card\">" ++
          "\n            <h2>🏆 Gagnant de la Main</h2>" ++
          "\n            <div class=\"winner-name\">" ++ winnerName.getD "" ++ "</div>" ++
          "\n            " ++ cardsHtml ++
          "\n            <div class=\"winner-amount\">+" ++ toString amount ++ " jetons</div>" ++
          "\n            <div class=\"winner-hand\">" ++ description ++ "</div>" ++
          "\n            <div class=\"countdown\">Reprise dans <span id=\"countdown\">5</span>s...</div>" ++
          "\n        </div>\n    ",
        countdown := "5", buttonsDisabled := false }
    let overlays := st.view.overlays ++ [overlay]
    let countdownEl := (overlays.find? fun o => o.kind = OverlayKind.hand).map fun o => o.node
    { st with
      isShowingWinner := true,
      view := { st.view with overlays := overlays },
      countdowns := st.countdowns ++
        [{ interval := st.nextId + 1, countdown := 5, countdownEl := countdownEl,
           overlay := overlay.node }],
      nextId := st.nextId + 2,
      trace := DomWrite.overlayAppended overlay.node OverlayKind.hand :: st.trace }

/-- The function `showGameWinner(winnerName, winnerId, potAmount)`. -/
def showGameWinner (st : State) (winnerName : Option String) (winnerId : Option String)
    (potAmount : Nat) : State :=
  if st.isShowingWinner then st
  else
    let name := if Js.truthy winnerName then winnerName.getD "" else "Inconnu"
    let overlay : Overlay :=
      { node := st.nextId, kind := OverlayKind.game,
        innerHTML :=
          "\n        <div class=\"winner-card\" style=\"border-color: #ff6b6b; " ++
            "box-shadow: 0 0 50px rgba(255, 107, 107, 0.3);\">" ++
          "\n            <h2>🏆 PARTIE TERMINÉE !</h2>" ++
          "\n            <div class=\"winner-name\">" ++ name ++ "</div>" ++
          "\n            <div class=\"winner-hand\">A remporté le tournoi !</div>" ++
          "\n            <div class=\"winner-amount\">Gains totaux: " ++ toString potAmount ++
            " jetons</div>" ++
          "\n            " ++
          "\n            <div class=\"action-buttons\" style=\"margin-top: 30px; " ++
            "justify-content: center; gap: 10px;\">" ++
          "\n                <button class=\"btn btn-primary\" onclick=\"backToLobby()\">" ++
            "Retour au Lobby</button>" ++
          "\n                <button class=\"btn btn-secondary\" onclick=\"dismissWinnerPopup()\">" ++
            "👀 Voir l'historique</button>" ++
          "\n            </div>" ++
          "\n        </div>\n    ",
        countdown := "", buttonsDisabled := false }
    { st with
      isShowingWinner := true,
      view := { st.view with overlays := st.view.overlays ++ [overlay] },
      nextId := st.nextId + 1,
      trace := DomWrite.overlayAppended overlay.node OverlayKind.game :: st.trace }

/-- One firing of the countdown callback that `showHandWinner` registered under the
handle `interval`; a cleared handle fires no more. -/
def countdownTick (st : State) (interval : Nat) : State :=
  match st.countdowns.find? fun c => c.interval = interval with
  | none => st
  | some c =>
    let countdown := c.countdown - 1
    let st : State :=
      { st with countdowns := st.countdowns.map fun d =>
          if d.interval = interval then { d with countdown := countdown } else d }
    let st : State :=
      match c.countdownEl with
      | some el =>
        { st with
          view := { st.view with overlays := st.view.overlays.map fun o =>
            if o.node = el then { o with countdown := toString countdown } else o },
          trace := DomWrite.overlayCountdown el :: st.trace }
      | none => st
    if countdown ≤ 0 then
      { st with
        countdowns := st.countdowns.filter fun d => d.interval ≠ interval,
        view := { st.view with overlays := st.view.overlays.filter fun o => o.node ≠ c.overlay },
        isShowingWinner := false,
        trace := DomWrite.overlayRemoved c.overlay :: st.trace }
    else st

/-- First statement of `dismissWinnerPopup`: remove the element of id
`gameWinnerOverlay`, if there is one. -/
def removeGameOverlay (st : State) : State :=
  match st.view.overlays.find? fun o => o.kind = OverlayKind.game with
  | some overlay =>
    { st with
      view := { st.view with overlays := st.view.overlays.filter fun o => o.node ≠ overlay.node },
      trace := DomWrite.overlayRemoved overlay.node :: st.trace }
  | none => st

/-- The function `dismissWinnerPopup()`. -/
def dismissWinnerPopup (st : State) : State :=
  let st := removeGameOverlay st
  let st : State := { st with isShowingWinner := false, hasDismissedWinnerPopup := true }
  if st.view.sidebarCollapsed then toggleSidebar st else st

/-- The hand-winner block of `renderGameState`. -/
def announceHandWinner (st : State) (state : GameState) : State :=
  if Js.truthy state.last_hand_winner && !st.isShowingWinner then
    showHandWinner st state.last_hand_winner_name state.last_hand_amount
      state.last_hand_description state.last_hand_cards
  else st

/-- The game-finished block of `renderGameState`. -/
def announceGameWinner (st : State) (state : GameState) : State :=
  if state.game_finished && !st.isShowingWinner && !st.hasDismissedWinnerPopup then
    showGameWinner st state.winner_name state.winner_id state.pot
  else st

/-- The phase line of the header block of `renderGameState`. -/
def renderPhase (st : State) (state : GameState) : State :=
  if st.lastGameState.all (fun last => last.phase != state.phase) then
    { st with view := { st.view with gamePhase := state.phase },
              trace := DomWrite.gamePhase :: st.trace }
  else st

/-- The pot line of the header block of `renderGameState`. -/
def renderPot (st : State) (state : GameState) : State :=
  if st.lastGameState.all (fun last => last.pot != state.pot) then
    { st with view := { st.view with gamePot := toString state.pot,
                                     potDisplay := toString state.pot },
              trace := DomWrite.potDisplay :: DomWrite.gamePot :: st.trace }
  else st

/-- The current-bet line of the header block of `renderGameState`. -/
def renderCurrentBet (st : State) (state : GameState) : State :=
  if st.lastGameState.all (fun last => last.current_bet != state.current_bet) then
    { st with view := { st.view with currentBet := toString state.current_bet },
              trace := DomWrite.currentBet :: st.trace }
  else st

/-- The community-cards block of `renderGameState`. -/
def renderCommunity (st : State) (state : GameState) : State :=
  if st.lastGameState.all (fun last => last.community_cards != state.community_cards) then
    renderCommunityCards st state.community_cards
  else st

/-- The start-button block of `renderGameState`. -/
def renderStartBtn (st : State) (state : GameState) : State :=
  if state.phase != "preflop" || state.pot > 0 then
    { st with view := { st.view with startBtnDisabled := true,
                                     startBtnText := "✅ Partie en cours" },
              trace := DomWrite.startBtn :: st.trace }
  else st

/-- The action-log block of `renderGameState`. -/
def renderActionLog (st : State) (state : GameState) : State :=
  match state.action_log with
  | some (e :: es) =>
    if st.lastGameState.all (fun last => last.action_log != state.action_log) then
      { st with
        view := { st.view with
          actionLog := (e :: es).reverse.map fun entry =>
            { className := "log-entry action", textContent := entry } },
        trace := DomWrite.actionLog :: st.trace }
    else st
  | _ => st

/-- The function `renderGameState(state)`: its blocks in source order, then the deep copy
of `state` into `lastGameState`. -/
def renderGameState (st : State) (state : GameState) : State :=
  let st := if st.isHumanPlayer then updateHumanPlayerUI st state else st
  let st := announceHandWinner st state
  let st := announceGameWinner st state
  let st := renderPhase st state
  let st := renderPot st state
  let st := renderCurrentBet st state
  let st := renderCommunity st state
  let st := renderPlayers st state.players state.current_player_id state.action_log
  let st := renderStartBtn st state
  let st := renderActionLog st state
  { st with lastGameState := some state }

/-- The function `stopPolling()`. -/
def stopPolling (st : State) : State :=
  match st.pollInterval with
  | some handle =>
    { st with pollTimers := st.pollTimers.filter fun t => t ≠ handle, pollInterval := none }
  | none => st

/-- The synchronous part of `updateGameState()`, up to the `await fetch(...)`: the request
is sent unless `currentGameId` is falsy. The second component is the `expectedGameId`
that the rest of the function keeps. -/
def updateGameState (st : State) : State × Option String :=
  if !Js.truthy st.currentGameId then (st, none)
  else
    let expectedGameId := st.currentGameId.getD ""
    let playerId := if Js.truthy st.humanPlayerId then st.humanPlayerId.getD "" else "spectator"
    ({ st with inFlight := st.inFlight ++ [{ expectedGameId := expectedGameId,
                                             playerId := playerId }] },
      some expectedGameId)

/-- The function `startPolling()`. -/
def startPolling (st : State) : State :=
  let st := stopPolling st
  let st := (updateGameState st).1
  { st with pollInterval := some st.nextId, pollTimers := st.pollTimers ++ [st.nextId],
            nextId := st.nextId + 1 }

/-- The function `viewGame(gameId)`. -/
def viewGame (st : State) (gameId : String) : State :=
  let st : State :=
    { st with
      currentGameId := some gameId,
      view := { st.view with lobbyDisplay := "none", gameViewDisplay := "block",
                             headerControlsDisplay := "flex", gameInfoBarDisplay := "flex" },
      trace := DomWrite.pageSection "gameInfoBar" :: DomWrite.pageSection "headerControls" ::
        DomWrite.pageSection "gameView" :: DomWrite.pageSection "lobby" :: st.trace,
      lastGameState := none,
      isShowingWinner := false }
  startPolling st

/-- The function `backToLobby()`. Its last statement, `loadGames()`, sends the lobby
request, whose answer only rewrites the list of games of the lobby. -/
def backToLobby (st : State) : State :=
  let st := stopPolling st
  { st with
    currentGameId := none, humanPlayerId := none, humanAuthToken := none,
    isHumanPlayer := false, lastGameState := none, isShowingWinner := false,
    view := { st.view with humanPlayerControlsDisplay := "none", gameViewDisplay := "none",
                           lobbyDisplay := "block", headerControlsDisplay := "none",
                           gameInfoBarDisplay := "none" },
    trace := DomWrite.pageSection "gameInfoBar" :: DomWrite.pageSection "headerControls" ::
      DomWrite.pageSection "lobby" :: DomWrite.pageSection "gameView" ::
      DomWrite.pageSection "humanPlayerControls" :: st.trace }

/-- The rest of `updateGameState()`, from the point where `fetch` has settled with
`response`; `expectedGameId` is the id captured before the request and `timestamp` the
clock time used by `addLogEntry`. -/
def updateGameStateResume (st : State) (expectedGameId : String) (response : Response)
    (timestamp : String) : State :=
  match response with
  | Response.failed => st
  | Response.error status =>
    if status = 400 then
      if st.currentGameId = some expectedGameId then
        backToLobby (addLogEntry st timestamp "Partie terminée ou introuvable" "system")
      else st
    else st
  | Response.ok gameState =>
    if st.currentGameId ≠ some expectedGameId || gameState.game_id ≠ some expectedGameId then st
    else renderGameState st gameState

/-- The calls that drive the overlay sequencer. -/
inductive Event
  | renderGameState (state : GameState)
  | countdownTick (interval : Nat)
  | dismissWinnerPopup
  | backToLobby
  | viewGame (gameId : String)
  deriving DecidableEq, Repr

/-- The effect of one call. -/
def step (st : State) : Event → State
  | Event.renderGameState state => renderGameState st state
  | Event.countdownTick interval => countdownTick st interval
  | Event.dismissWinnerPopup => dismissWinnerPopup st
  | Event.backToLobby => backToLobby st
  | Event.viewGame gameId => viewGame st gameId

/-- The effect of a sequence of calls. -/
def run (st : State) (events : List Event) : State := events.foldl step st

end Game

/-! ## The turn loop of the bots -/

/-- How the `axios.get` of the state ended: a 2xx response with its body, no connection
(`ECONNREFUSED`), or a response with an error status and the message of the server. -/
inductive Fetched (σ : Type)
  | ok (data : σ)
  | connectionRefused
  | rejected (message : String)
  deriving DecidableEq, Repr

/-- What one pass through the body of `while (true)` in `play` does: the actions posted
with `submitAction`, the waits in milliseconds, in order, and the exit code when the pass
ends the process. -/
structure Iteration where
  submitted : List Action
  sleeps : List Nat
  exitCode : Option Nat
  deriving DecidableEq, Repr

namespace ConservativeBot

/-- The method `getGameState()`: `null` without a game or player id, and `null` again when
the request throws, whatever the error. -/
def getGameState (gameId playerId : Option String) (answer : Fetched GameState) :
    Option GameState :=
  if !Js.truthy gameId || !Js.truthy playerId then none
  else
    match answer with
    | Fetched.ok data => some data
    | _ => none

/-- One pass through the loop of `play()`; `answer` is how the request of `getGameState`
ends. Every optional field is read behind `|| default` or `?.` and `getGameState` and
`submitAction` catch their own errors, so no statement of the `try` block throws and the
`catch` block is not entered. -/
def playIteration (gameId playerId : Option String) (answer : Fetched GameState) : Iteration :=
  match getGameState gameId playerId answer with
  | none => { submitted := [], sleeps := [2000], exitCode := none }
  | some state =>
    if state.game_finished then { submitted := [], sleeps := [], exitCode := some 0 }
    else if state.current_player_id == playerId then
      match decideAction playerId state with
      | some action => { submitted := [action], sleeps := [1000, 2000], exitCode := none }
      | none => { submitted := [], sleeps := [1000, 2000], exitCode := none }
    else { submitted := [], sleeps := [2000], exitCode := none }

end ConservativeBot

namespace AggressiveBot

/-- The method `getGameState()`: `null` without a game or player id, and `null` again when
the request throws, whatever the error. -/
def getGameState (gameId playerId : Option String) (answer : Fetched GameState) :
    Option GameState :=
  if !Js.truthy gameId || !Js.truthy playerId then none
  else
    match answer with
    | Fetched.ok data => some data
    | _ => none

/-- One pass through the loop of `play()`; `answer` is how the request of `getGameState`
ends and `random` the value of `Math.random()` if `decideAction` draws. On the bot's own
turn the log line `state.valid_actions.join(', ')` comes before `decideAction`: when the
key `valid_actions` is missing it throws a `TypeError`, whose message does not contain
`ECONNREFUSED`, and the `catch` block waits 5000 ms. No other statement of the `try` block
throws. -/
def playIteration (gameId playerId : Option String) (answer : Fetched GameState)
    (random : ℚ) : Iteration :=
  match getGameState gameId playerId answer with
  | none => { submitted := [], sleeps := [2000], exitCode := none }
  | some state =>
    if state.game_finished then { submitted := [], sleeps := [], exitCode := some 0 }
    else if state.current_player_id == playerId then
      match state.valid_actions with
      | none => { submitted := [], sleeps := [5000], exitCode := none }
      | some _ =>
        match decideAction random state with
        | some action => { submitted := [action], sleeps := [1000, 2000], exitCode := none }
        | none => { submitted := [], sleeps := [1000, 2000], exitCode := none }
    else { submitted := [], sleeps := [2000], exitCode := none }

end AggressiveBot

/-! ## `poker-ui/game.js`: timers -/

namespace Game

/-- The two calls of the polling scheduler. -/
inductive PollCall
  | startPolling
  | stopPolling
  deriving DecidableEq, Repr

/-- The effect of one call of the polling scheduler. -/
def pollStep (st : State) : PollCall → State
  | PollCall.startPolling => startPolling st
  | PollCall.stopPolling => stopPolling st

/-- The effect of a sequence of calls of the polling scheduler. -/
def pollRun (st : State) (calls : List PollCall) : State := calls.foldl pollStep st

/-- One firing of the callback that `startPolling` registered with
`setInterval(updateGameState, 2000)` under `handle`; a cleared handle fires no more. -/
def pollTick (st : State) (handle : Nat) : State :=
  if handle ∈ st.pollTimers then (updateGameState st).1 else st

/-- The callback of `setTimeout(updateGameState, 200)` that `submitAction` and `submitRaise`
register after an accepted action. -/
def refreshAfterAction (st : State) : State := (updateGameState st).1

/-- The answer to the request `fetch` arrives: the request is no longer in flight and the
rest of `updateGameState` runs. -/
def deliver (st : State) (fetch : Fetch) (response : Response) (timestamp : String) : State :=
  updateGameStateResume { st with inFlight := st.inFlight.erase fetch } fetch.expectedGameId
    response timestamp

/-- The state after `count` firings of the countdown callback of handle `interval`. -/
def countdownTicks (st : State) (interval : Nat) : Nat → State
  | 0 => st
  | count + 1 => countdownTick (countdownTicks st interval count) interval

end Game

/-! ## Sample data for the concrete instances -/

namespace Game

/-- A snapshot of game `g1` before the first hand, with nobody seated. -/
def snapshotG1 : GameState :=
  { game_id := some "g1", phase := "preflop", pot := 0, current_bet := 0,
    community_cards := [], players := [], current_player_id := none, action_log := none,
    game_finished := false, winner_name := none, winner_id := none,
    last_hand_winner := none, last_hand_winner_name := none, last_hand_amount := 0,
    last_hand_description := none, last_hand_cards := none, your_cards := none,
    your_chips := none, valid_actions := none }

/-- A seated player with 1000 chips and no bet. -/
def seat (id name : String) : Player :=
  { id := id, name := name, chips := 1000, current_bet := none, status := "Active",
    cards := none }

end Game

/-! ## Vocabulary of the statements about `game.js` -/

namespace Game

/-- A write that the reconciler makes only on a change: a header field, the community
cards, the removal or creation of player elements, the markup of a player element, the
action log. -/
def DomWrite.gated : DomWrite → Bool
  | DomWrite.gamePhase => true
  | DomWrite.gamePot => true
  | DomWrite.potDisplay => true
  | DomWrite.currentBet => true
  | DomWrite.communityCards => true
  | DomWrite.playersCleared => true
  | DomWrite.playerAppended _ => true
  | DomWrite.playerHtml _ => true
  | DomWrite.actionLog => true
  | _ => false

/-- The write that puts a game-winner overlay into the view. -/
def DomWrite.createsGameOverlay : DomWrite → Bool
  | DomWrite.overlayAppended _ OverlayKind.game => true
  | _ => false

/-- The part of the view behind the gated writes: header fields, community cards, player
elements, action log. -/
def gatedView (st : State) :
    String × String × String × String × String × List PlayerNode × List LogEntry :=
  (st.view.gamePhase, st.view.gamePot, st.view.potDisplay, st.view.currentBet,
    st.view.communityCards, st.view.playersContainer, st.view.actionLog)

/-- The writes of `st'` are those of `st` followed by writes that all satisfy `K`. -/
def Extends (K : DomWrite → Prop) (st st' : State) : Prop :=
  ∃ new : List DomWrite, st'.trace = new ++ st.trace ∧ ∀ w ∈ new, K w

/-- A transition that makes only writes satisfying `K` and keeps the gated part of the
view, the baseline and the dismissal latch. -/
def Frame (K : DomWrite → Prop) (st st' : State) : Prop :=
  Extends K st st' ∧ gatedView st' = gatedView st ∧
    st'.lastGameState = st.lastGameState ∧
    st'.hasDismissedWinnerPopup = st.hasDismissedWinnerPopup

/-- A transition that creates no game overlay and keeps the player elements, the baseline
and the dismissal latch. -/
def Touch (st st' : State) : Prop :=
  Extends (fun w => w.createsGameOverlay = false) st st' ∧
    st'.view.playersContainer = st.view.playersContainer ∧
    st'.lastGameState = st.lastGameState ∧
    st'.hasDismissedWinnerPopup = st.hasDismissedWinnerPopup

/-- A transition that creates no game overlay and keeps the dismissal latch. -/
def KeepsLatch (st st' : State) : Prop :=
  Extends (fun w => w.createsGameOverlay = false) st st' ∧
    st'.hasDismissedWinnerPopup = st.hasDismissedWinnerPopup

/-- The element that `querySelector` finds for `player` shows `player`: its class name and
its `_lastHtml` are the ones `updatePlayerElement` would assign. -/
def Shows (container : List PlayerNode) (currentPlayerId : Option String)
    (actionLog : Option (List String)) (player : Player) : Prop :=
  ∃ n, container.find? (fun n => n.playerId == some player.id) = some n ∧
    n.className = playerClassName player currentPlayerId ∧
    n.lastHtml = some (playerHtml player actionLog)

end Game

namespace Game

/-- The countdown of handle `interval` is running in `st` with `remaining` seconds left for
the hand overlay `node`: the flag is set, the callback is registered with that count, and
the overlay is in the view. -/
def Ticking (interval node : Nat) (remaining : Int) (st : State) : Prop :=
  st.isShowingWinner = true ∧
  (∃ c, st.countdowns.find? (fun c => c.interval = interval) = some c ∧
    c.countdown = remaining ∧ c.overlay = node) ∧
  ∃ o ∈ st.view.overlays, o.node = node ∧ o.kind = OverlayKind.hand

end Game

namespace Game

/-- The block of the client that a write belongs to. -/
inductive WriteGroup
  | phase
  | pot
  | currentBet
  | communityCards
  | players
  | startBtn
  | actionLog
  | overlay
  | human
  | page
  | sidebar
  deriving DecidableEq, Repr

/-- The block that makes the write. -/
def DomWrite.group : DomWrite → WriteGroup
  | DomWrite.gamePhase => WriteGroup.phase
  | DomWrite.gamePot => WriteGroup.pot
  | DomWrite.potDisplay => WriteGroup.pot
  | DomWrite.currentBet => WriteGroup.currentBet
  | DomWrite.communityCards => WriteGroup.communityCards
  | DomWrite.playersCleared => WriteGroup.players
  | DomWrite.playerAppended _ => WriteGroup.players
  | DomWrite.playerClass _ => WriteGroup.players
  | DomWrite.playerHtml _ => WriteGroup.players
  | DomWrite.startBtn => WriteGroup.startBtn
  | DomWrite.actionLog => WriteGroup.actionLog
  | DomWrite.overlayAppended _ _ => WriteGroup.overlay
  | DomWrite.overlayRemoved _ => WriteGroup.overlay
  | DomWrite.overlayCountdown _ => WriteGroup.overlay
  | DomWrite.overlayButtons _ => WriteGroup.overlay
  | DomWrite.humanControls _ => WriteGroup.human
  | DomWrite.pageSection _ => WriteGroup.page
  | DomWrite.sidebar => WriteGroup.sidebar

/-- The value of `field` in the incoming snapshot is new: there is no baseline, or the
baseline has another value. -/
def Changed {α : Type} (st : State) (next : GameState) (field : GameState → α) : Prop :=
  st.lastGameState = none ∨ ∃ last, st.lastGameState = some last ∧ field last ≠ field next

/-- The guard `state.action_log && state.action_log.length > 0` of the action-log block. -/
def nonEmptyLog (actionLog : Option (List String)) : Bool :=
  match actionLog with
  | some (_ :: _) => true
  | _ => false

/-- The children that the action-log block gives `#actionLog` for the log `entries`: one
`div.log-entry.action` per entry, the most recent first. -/
def logEntries (entries : List String) : List LogEntry :=
  entries.reverse.map fun entry => { className := "log-entry action", textContent := entry }

end Game

/-! ## Properties of the binary64 products -/

theorem sigShift_spec (fuel : Nat) : ∀ m : Nat, m < 2 ^ (53 + fuel) →
    (sigShift fuel m = 0 ∧ m < 2 ^ 53) ∨
    (0 < sigShift fuel m ∧ 2 ^ (52 + sigShift fuel m) ≤ m ∧ m < 2 ^ (53 + sigShift fuel m)) := by
  induction fuel with
  | zero => intro m h; left; exact ⟨rfl, by simpa using h⟩
  | succ f ih =>
    intro m h
    by_cases hm : m < 2 ^ 53
    · left; exact ⟨by rw [sigShift, if_pos hm], hm⟩
    · right
      have hs : sigShift (f + 1) m = sigShift f (m / 2) + 1 := by rw [sigShift, if_neg hm]
      have h2 : m / 2 < 2 ^ (53 + f) := by
        have : 2 ^ (53 + (f + 1)) = 2 * 2 ^ (53 + f) := by ring
        omega
      rw [hs]
      rcases ih (m / 2) h2 with ⟨h0, h1⟩ | ⟨_, h1, h3⟩
      · rw [h0]
        refine ⟨by omega, ?_, ?_⟩
        · norm_num at hm ⊢; omega
        · norm_num at h1 ⊢; omega
      · refine ⟨by omega, ?_, ?_⟩
        · have : 2 ^ (52 + (sigShift f (m / 2) + 1)) = 2 * 2 ^ (52 + sigShift f (m / 2)) := by
            ring
          omega
        · have : 2 ^ (53 + (sigShift f (m / 2) + 1)) = 2 * 2 ^ (53 + sigShift f (m / 2)) := by
            ring
          omega

/-- Shape of the rounding: the weight `k` of the dropped bits divides `2 ^ 55`, and the
significand `m / k` has exactly 53 bits unless nothing is dropped. -/
theorem roundSig53_shape (m : Nat) (hm : m < 2 ^ 105) :
    ∃ k j : Nat, k * j = 2 ^ 55 ∧
      ((k = 1 ∧ m < 2 ^ 53) ∨ (k * 2 ^ 52 ≤ m ∧ m < k * 2 ^ 53)) ∧
      roundSig53 m =
        if k < 2 * (m % k) ∨ (2 * (m % k) = k ∧ (m / k) % 2 = 1) then (m / k + 1) * k
        else m / k * k := by
  have hspec := sigShift_spec 64 m
    (lt_of_lt_of_le hm (Nat.pow_le_pow_right (by norm_num) (by norm_num)))
  have hle : sigShift 64 m ≤ 55 := by
    rcases hspec with ⟨h0, _⟩ | ⟨_, h1, _⟩
    · omega
    · have : 2 ^ (52 + sigShift 64 m) < 2 ^ 105 := lt_of_le_of_lt h1 hm
      have := (Nat.pow_lt_pow_iff_right (by norm_num : 1 < 2)).1 this
      omega
  refine ⟨2 ^ sigShift 64 m, 2 ^ (55 - sigShift 64 m), ?_, ?_, rfl⟩
  · rw [← pow_add]; congr 1; omega
  · rcases hspec with ⟨h0, h0'⟩ | ⟨_, h1, h2⟩
    · left; rw [h0]; exact ⟨rfl, h0'⟩
    · right
      constructor
      · rw [← pow_add, Nat.add_comm]; exact h1
      · rw [← pow_add, Nat.add_comm]; exact h2

theorem le_of_dvd_of_lt_add {k a b : Nat} (ha : k ∣ a) (hb : k ∣ b) (h : a < b + k) :
    a ≤ b := by
  obtain ⟨x, rfl⟩ := ha
  obtain ⟨y, rfl⟩ := hb
  have h1 : k * x < k * (y + 1) := by rw [Nat.mul_add, Nat.mul_one]; exact h
  have h2 : x < y + 1 := Nat.lt_of_mul_lt_mul_left h1
  exact Nat.mul_le_mul_left k (Nat.lt_succ_iff.1 h2)

theorem add_le_of_dvd_of_lt {k a b : Nat} (ha : k ∣ a) (hb : k ∣ b) (h : a < b) :
    a + k ≤ b := by
  obtain ⟨x, rfl⟩ := ha
  obtain ⟨y, rfl⟩ := hb
  have h2 : x < y := Nat.lt_of_mul_lt_mul_left h
  have h3 : k * (x + 1) ≤ k * y := Nat.mul_le_mul_left k h2
  rw [Nat.mul_add, Nat.mul_one] at h3
  exact h3

/-- For chip counts below `2 ^ 52`, an integer is at most the double `n * 0.1`
exactly when it is at most a tenth of `n`. -/
theorem le_mulTenth_iff (n c : Nat) (hn : n < 2 ^ 52) :
    c * 2 ^ 55 ≤ mulTenth n ↔ 10 * c ≤ n := by
  unfold mulTenth
  obtain ⟨k, j, hkj, hk, hr⟩ := roundSig53_shape (n * 3602879701896397) (by omega)
  rw [hr]
  clear hr
  have hkpos : 0 < k := by
    rcases Nat.eq_zero_or_pos k with h | h
    · subst h; simp at hkj
    · exact h
  have hmod : n * 3602879701896397 % k < k := Nat.mod_lt _ hkpos
  have hdm : k * (n * 3602879701896397 / k) + n * 3602879701896397 % k
      = n * 3602879701896397 := Nat.div_add_mod _ k
  have hdvd : k ∣ c * 2 ^ 55 := ⟨c * j, by rw [← hkj]; ring⟩
  generalize n * 3602879701896397 / k = q at *
  generalize n * 3602879701896397 % k = r at *
  have e1 : (q + 1) * k = k * q + k := by ring
  have e2 : q * k = k * q := by ring
  rw [e1, e2]
  have key : c * 2 ^ 55 < k * q + k → c * 2 ^ 55 ≤ k * q :=
    le_of_dvd_of_lt_add hdvd ⟨q, rfl⟩
  clear e1 e2 hdvd hkj
  generalize k * q = p at *
  split_ifs with hc
  · constructor
    · intro h
      by_contra hcon
      rcases hk with ⟨h1, _⟩ | ⟨h1, h2⟩
      · omega
      · omega
    · intro h
      have := key (by omega)
      omega
  · constructor
    · intro h
      omega
    · intro h
      exact key (by omega)

/-- For chip counts up to `2 ^ 50`, `Math.floor(n * 0.15)` is the exact `⌊3 n / 20⌋`. -/
theorem mulFifteen_floor (n : Nat) (hn : n ≤ 2 ^ 50) :
    mulFifteen n / 2 ^ 55 = 3 * n / 20 := by
  unfold mulFifteen
  obtain ⟨k, j, hkj, hk, hr⟩ := roundSig53_shape (n * 5404319552844595) (by omega)
  rw [hr]
  clear hr
  have hkpos : 0 < k := by
    rcases Nat.eq_zero_or_pos k with h | h
    · subst h; simp at hkj
    · exact h
  have hmod : n * 5404319552844595 % k < k := Nat.mod_lt _ hkpos
  have hdm : k * (n * 5404319552844595 / k) + n * 5404319552844595 % k
      = n * 5404319552844595 := Nat.div_add_mod _ k
  have hlo : k ∣ 3 * n / 20 * 2 ^ 55 := ⟨3 * n / 20 * j, by rw [← hkj]; ring⟩
  have hhi : k ∣ (3 * n / 20 + 1) * 2 ^ 55 := ⟨(3 * n / 20 + 1) * j, by rw [← hkj]; ring⟩
  have hd1 : 20 * (3 * n / 20) ≤ 3 * n := Nat.mul_div_le _ _
  have hd2 : 3 * n < 20 * (3 * n / 20) + 20 := by omega
  generalize 3 * n / 20 = d at *
  generalize n * 5404319552844595 / k = q at *
  generalize n * 5404319552844595 % k = r at *
  have e1 : (q + 1) * k = k * q + k := by ring
  have e2 : q * k = k * q := by ring
  rw [e1, e2]
  have hp : k ∣ k * q := ⟨q, rfl⟩
  have hpk : k ∣ k * q + k := ⟨q + 1, by ring⟩
  clear e1 e2 hkj
  generalize k * q = p at *
  split_ifs with hc
  · have hc1 : k ≤ 2 * r := by omega
    have hc2 : k ≠ 1 := by omega
    clear hc
    apply Nat.div_eq_of_lt_le
    · by_contra h
      have := add_le_of_dvd_of_lt hpk hlo (by omega)
      clear hlo hhi hp hpk
      rcases hk with ⟨h1, h2⟩ | ⟨h1, h2⟩ <;> omega
    · by_contra h
      rcases Nat.lt_or_ge p ((d + 1) * 2 ^ 55) with h1 | h1
      · have := add_le_of_dvd_of_lt hp hhi h1
        clear hlo hhi hp hpk
        rcases hk with ⟨h1, h2⟩ | ⟨h1, h2⟩ <;> omega
      · clear hlo hhi hp hpk hk
        omega
  · have hc1 : 2 * r ≤ k := by omega
    clear hc
    apply Nat.div_eq_of_lt_le
    · by_contra h
      have := add_le_of_dvd_of_lt hp hlo (by omega)
      clear hlo hhi hp hpk
      rcases hk with ⟨h1, h2⟩ | ⟨h1, h2⟩ <;> omega
    · clear hlo hhi hp hpk hk
      omega

/-! ## The bot policies -/

/-- C1. `ConservativeBot.decideAction`, for every snapshot whose `valid_actions` is
non-empty (chip stack below `2 ^ 52`, where the double `your_chips * 0.1` compares with
integers as the exact tenth does): it returns check
if `check` is valid; otherwise call if and only if `call` is valid and `current_bet`
minus the bot's own committed bet (found in `players` by its id, missing values counted
as 0) is at most a tenth of `your_chips`; otherwise fold. -/
theorem conservative_decideAction_policy (playerId : Option String)
    (state : ConservativeBot.GameState)
    (hvalid : state.valid_actions.getD [] ≠ [])
    (hchips : state.your_chips.getD 0 < 2 ^ 52) :
    ConservativeBot.decideAction playerId state =
      if "check" ∈ state.valid_actions.getD [] then
        some { type := "check", amount := none }
      else if "call" ∈ state.valid_actions.getD [] ∧
          10 * ((state.current_bet.getD 0 : Int) -
            ((((state.players.bind fun ps => ps.find? fun p => some p.id == playerId).bind
              fun p => p.current_bet).getD 0 : Nat) : Int)) ≤ (state.your_chips.getD 0 : Int) then
        some { type := "call", amount := none }
      else some { type := "fold", amount := none } := by
  unfold ConservativeBot.decideAction
  have hlen : ¬ (state.valid_actions.getD []).length = 0 := by
    intro h; exact hvalid (List.length_eq_zero.1 h)
  simp only [hlen, if_false, List.contains, List.elem_eq_mem, decide_eq_true_eq]
  by_cases hcheck : "check" ∈ state.valid_actions.getD []
  · simp [hcheck]
  · simp only [hcheck, if_false]
    by_cases hcall : "call" ∈ state.valid_actions.getD []
    · simp only [hcall, if_true, true_and]
      generalize ((state.players.bind fun ps => ps.find? fun p => some p.id == playerId).bind
              fun p => p.current_bet).getD 0 = own
      generalize state.current_bet.getD 0 = total
      generalize state.your_chips.getD 0 = chips at hchips
      have hiff : ((total : Int) - (own : Int)) * 2 ^ 55 ≤ (mulTenth chips : Int) ↔
          10 * ((total : Int) - (own : Int)) ≤ (chips : Int) := by
        rcases Nat.lt_or_ge own total with hlt | hge
        · have h := le_mulTenth_iff chips (total - own) hchips
          have e : ((total : Int) - (own : Int)) = ((total - own : Nat) : Int) := by omega
          rw [e]
          constructor
          · intro h1
            have h2 : (total - own) * 2 ^ 55 ≤ mulTenth chips := by exact_mod_cast h1
            have := h.1 h2
            exact_mod_cast this
          · intro h1
            have h2 : 10 * (total - own) ≤ chips := by exact_mod_cast h1
            have := h.2 h2
            exact_mod_cast this
        · constructor
          · intro _; omega
          · intro _
            have h0 : ((total : Int) - (own : Int)) * 2 ^ 55 ≤ 0 :=
              Int.mul_nonpos_of_nonpos_of_nonneg (by omega) (by norm_num)
            omega
      simp only [decide_eq_true_eq, hiff]
    · simp [hcall]

/-- Witness for C1: `your_chips = 1000`, `current_bet = 150`, own committed bet 50 and only
call and fold valid; the bot calls. -/
theorem conservative_decideAction_policy_witness :
    ConservativeBot.decideAction (some "me")
      { valid_actions := some ["call", "fold"],
        players := some [{ id := "other", current_bet := some 150 },
                         { id := "me", current_bet := some 50 }],
        current_bet := some 150, your_chips := some 1000,
        current_player_id := some "me", game_finished := false } =
      some { type := "call", amount := none } := by
  rw [conservative_decideAction_policy (some "me") _ (by decide) (by decide)]
  decide

/-- C2. `AggressiveBot.decideAction`, with the random draw taken as an input, for every
snapshot whose `valid_actions` is non-empty (chip stack up to `2 ^ 50`, where
`Math.floor(your_chips * 0.15)` is the exact floor): if `raise` is valid and the draw is
below the literal `0.6` it returns raise with amount
`max (current_bet + 20) ⌊0.15 * your_chips⌋`; otherwise check if `check` is
valid, else call if `call` is valid, else fold. -/
theorem aggressive_decideAction_policy (random : ℚ) (state : AggressiveBot.GameState)
    (hvalid : state.valid_actions.getD [] ≠ [])
    (hchips : state.your_chips ≤ 2 ^ 50) :
    AggressiveBot.decideAction random state =
      if "raise" ∈ state.valid_actions.getD [] ∧ random < double_0_6 then
        some { type := "raise",
               amount := some (max (state.current_bet + 20) (3 * state.your_chips / 20)) }
      else if "check" ∈ state.valid_actions.getD [] then
        some { type := "check", amount := none }
      else if "call" ∈ state.valid_actions.getD [] then
        some { type := "call", amount := none }
      else some { type := "fold", amount := none } := by
  unfold AggressiveBot.decideAction
  have hlen : ¬ (state.valid_actions.getD []).length = 0 := by
    intro h; exact hvalid (List.length_eq_zero.1 h)
  simp only [hlen, if_false, List.contains, List.elem_eq_mem, mulFifteen_floor _ hchips,
    Bool.and_eq_true, decide_eq_true_eq]

/-- Witness for C2: a snapshot with raise valid and the draw 1/2: raise to
`max (100 + 20) ⌊0.15 * 1000⌋ = 150`. -/
theorem aggressive_decideAction_policy_witness :
    AggressiveBot.decideAction (1 / 2)
      { game_id := "g", phase := "flop", pot := 300, current_bet := 100,
        community_cards := [], current_player_id := some "me", your_player_id := "me",
        your_chips := 1000, your_cards := [],
        valid_actions := some ["fold", "call", "raise"],
        game_finished := false } =
      some { type := "raise", amount := some 150 } := by
  rw [aggressive_decideAction_policy (1 / 2) _ (by decide) (by decide)]
  rw [if_pos ⟨by decide, by norm_num [double_0_6]⟩]
  rfl

/-! ## The stale-response guard and the overlay sequencer -/

namespace Game

/-- C3. `updateGameState`, for every successful poll response: the snapshot is passed to
`renderGameState` if and only if the session id captured when the request was issued, the
session id active when the response arrives and the `game_id` of the response are all
equal; on any mismatch the state (the view and the `lastGameState` baseline included) is
left as it was when the response arrived. -/
theorem updateGameState_stale_guard (issuedIn arrivedIn : State) (expectedGameId : String)
    (gameState : GameState) (timestamp : String)
    (hissued : (updateGameState issuedIn).2 = some expectedGameId) :
    issuedIn.currentGameId = some expectedGameId ∧
    (arrivedIn.currentGameId = issuedIn.currentGameId ∧
        gameState.game_id = issuedIn.currentGameId →
      updateGameStateResume arrivedIn expectedGameId (Response.ok gameState) timestamp =
        renderGameState arrivedIn gameState) ∧
    (¬ (arrivedIn.currentGameId = issuedIn.currentGameId ∧
        gameState.game_id = issuedIn.currentGameId) →
      updateGameStateResume arrivedIn expectedGameId (Response.ok gameState) timestamp =
        arrivedIn) := by
  have hcur : issuedIn.currentGameId = some expectedGameId := by
    unfold updateGameState at hissued
    cases hc : issuedIn.currentGameId with
    | none => simp [hc, Js.truthy] at hissued
    | some g =>
      by_cases hg : g = ""
      · simp [hc, Js.truthy, hg] at hissued
      · simp [hc, Js.truthy, hg] at hissued
        rw [hissued]
  refine ⟨hcur, ?_, ?_⟩
  · rintro ⟨h1, h2⟩
    rw [hcur] at h1 h2
    simp [updateGameStateResume, h1, h2]
  · intro h
    rw [hcur] at h
    unfold updateGameStateResume
    by_cases h1 : arrivedIn.currentGameId = some expectedGameId
    · have h2 : gameState.game_id ≠ some expectedGameId := fun h2 => h ⟨h1, h2⟩
      simp [h1, h2]
    · simp [h1]

/-- Witness for C3: a request issued while viewing `g1`; the answer for `g1` arrives after
the user has switched to `g2` and is dropped. -/
theorem updateGameState_stale_guard_witness :
    updateGameStateResume { State.initial with currentGameId := some "g2" } "g1"
      (Response.ok snapshotG1) "12:00:00" =
      { State.initial with currentGameId := some "g2" } :=
  (updateGameState_stale_guard { State.initial with currentGameId := some "g1" }
    { State.initial with currentGameId := some "g2" } "g1" snapshotG1 "12:00:00" rfl).2.2
    (by decide)

/-- C5, the code at the failing input. `backToLobby` leaves `hasDismissedWinnerPopup` set:
after the overlay of `g1` has been dismissed, the user returns to the lobby and opens
`g2`, the first finished snapshot of `g2` creates no overlay. -/
theorem backToLobby_keeps_dismissal_latch :
    (∀ st : State, (backToLobby (dismissWinnerPopup st)).hasDismissedWinnerPopup = true) ∧
    (run State.initial
      [Event.viewGame "g1",
       Event.renderGameState { snapshotG1 with game_finished := true },
       Event.dismissWinnerPopup,
       Event.backToLobby,
       Event.viewGame "g2",
       Event.renderGameState
         { snapshotG1 with game_id := some "g2", game_finished := true }]).view.overlays
      = [] := by
  constructor
  · intro st
    unfold backToLobby dismissWinnerPopup stopPolling toggleSidebar
    dsimp only
    split <;> split <;> rfl
  · decide

/-- C6, the code at the failing input. `backToLobby` clears `isShowingWinner` without
removing the overlay: after the game overlay of `g1`, a return to the lobby and the first
finished snapshot of `g2`, two overlays are in the view. -/
theorem two_overlays_after_lobby_return :
    ((run State.initial
      [Event.viewGame "g1",
       Event.renderGameState { snapshotG1 with game_finished := true },
       Event.backToLobby,
       Event.viewGame "g2",
       Event.renderGameState
         { snapshotG1 with game_id := some "g2", game_finished := true }]).view.overlays.map
      fun o => (o.node, o.kind)) = [(2, OverlayKind.game), (4, OverlayKind.game)] := by
  decide

end Game

/-! ## Last-action extraction -/

namespace Js

theorem indexOf_of_first (pattern : List Char) :
    ∀ (before after : List Char),
      (∀ before' after', before ++ pattern ++ after = before' ++ pattern ++ after' →
        before.length ≤ before'.length) →
      indexOf pattern (before ++ pattern ++ after) = some before.length := by
  intro before
  induction before with
  | nil =>
    intro after _
    have hp : pattern.isPrefixOf ([] ++ pattern ++ after) = true := by
      rw [List.isPrefixOf_iff_prefix]; exact ⟨after, by simp⟩
    cases h : [] ++ pattern ++ after with
    | nil => rw [h] at hp; simp [indexOf, hp]
    | cons c s => rw [h] at hp; simp [indexOf, hp]
  | cons c before ih =>
    intro after hmin
    have hnp : pattern.isPrefixOf (c :: before ++ pattern ++ after) = false := by
      cases hb : pattern.isPrefixOf (c :: before ++ pattern ++ after) with
      | false => rfl
      | true =>
        rw [List.isPrefixOf_iff_prefix] at hb
        obtain ⟨t, ht⟩ := hb
        have := hmin [] t (by simpa using ht.symm)
        simp at this
    have hrec := ih after (by
      intro before' after' heq
      have := hmin (c :: before') after' (by simp [heq])
      simpa using this)
    have hcons : c :: before ++ pattern ++ after = c :: (before ++ pattern ++ after) := by simp
    rw [hcons] at hnp ⊢
    rw [indexOf, hnp, hrec]
    rfl

theorem indexOf_le_of_occurrence (pattern : List Char) :
    ∀ (before after : List Char),
      ∃ i, indexOf pattern (before ++ pattern ++ after) = some i ∧ i ≤ before.length := by
  intro before
  induction before with
  | nil =>
    intro after
    refine ⟨0, ?_, Nat.le_refl _⟩
    exact indexOf_of_first pattern [] after (fun _ _ _ => Nat.zero_le _)
  | cons c before ih =>
    intro after
    obtain ⟨i, hi, hle⟩ := ih after
    have hcons : c :: before ++ pattern ++ after = c :: (before ++ pattern ++ after) := by simp
    rw [hcons, indexOf]
    by_cases hb : pattern.isPrefixOf (c :: (before ++ pattern ++ after)) = true
    · exact ⟨0, by rw [if_pos hb], Nat.zero_le _⟩
    · refine ⟨i + 1, ?_, by simpa using hle⟩
      rw [if_neg hb, hi]
      rfl

theorem includes_iff_infix (s pattern : List Char) : includes s pattern = true ↔ pattern <:+: s := by
  unfold includes
  induction s with
  | nil =>
    by_cases hp : pattern = []
    · subst hp; simp [indexOf]
    · have : pattern.isPrefixOf [] = false := by
        cases pattern with
        | nil => exact absurd rfl hp
        | cons a l => rfl
      simp [indexOf, this, hp]
  | cons c s ih =>
    rw [List.infix_cons_iff, ← ih]
    by_cases hb : pattern.isPrefixOf (c :: s) = true
    · simp [indexOf, hb, List.isPrefixOf_iff_prefix.1 hb]
    · have hb' : ¬ pattern <+: c :: s := fun h => hb (List.isPrefixOf_iff_prefix.2 h)
      simp only [Bool.not_eq_true] at hb
      simp [indexOf, hb, hb']

theorem indexOf_eq_none_iff (s pattern : List Char) :
    indexOf pattern s = none ↔ ¬ pattern <:+: s := by
  rw [← includes_iff_infix]
  unfold includes
  cases indexOf pattern s <;> simp

theorem endsWith_s_iff (s : List Char) : endsWith s "s".toList = true ↔ s.getLast? = some 's' := by
  unfold endsWith
  rw [List.isSuffixOf_iff_suffix]
  constructor
  · rintro ⟨t, rfl⟩
    simp
  · intro h
    refine ⟨s.dropLast, ?_⟩
    have hne : s ≠ [] := by rintro rfl; simp at h
    have hl := List.dropLast_append_getLast hne
    rw [List.getLast?_eq_getLast _ hne] at h
    have : s.getLast hne = 's' := by simpa using h
    rw [this] at hl
    exact hl

end Js

namespace Game

theorem scanLog_skip (playerName : List Char) (rest : List (List Char)) :
    ∀ recent : List (List Char),
      (∀ e ∈ recent, ¬ arrowPattern playerName <:+: e ∧ ¬ (playerName ++ [' ']) <+: e) →
      scanLog playerName (recent ++ rest) = scanLog playerName rest := by
  intro recent
  induction recent with
  | nil => intro _; rfl
  | cons e recent ih =>
    intro h
    have he := h e (List.mem_cons_self _ _)
    have h1 : Js.indexOf (arrowPattern playerName) e = none :=
      (Js.indexOf_eq_none_iff _ _).2 he.1
    have h2 : Js.startsWith e (playerName ++ " ".toList) = false := by
      cases hb : Js.startsWith e (playerName ++ " ".toList) with
      | false => rfl
      | true =>
        unfold Js.startsWith at hb
        rw [List.isPrefixOf_iff_prefix] at hb
        exact absurd hb he.2
    simp only [List.cons_append, scanLog, h1, h2]
    exact ih (fun e' he' => h e' (List.mem_cons_of_mem _ he'))

theorem arrowAction_eq (after : List Char) :
    arrowAction after =
      if "FOLD".toList <:+: after then "FOLD".toList
      else if "CHECK".toList <:+: after then "CHECK".toList
      else if "CALL".toList <:+: after then "CALL".toList
      else if "RAISE".toList <:+: after then "RAISE".toList
      else if "ALL-IN".toList <:+: after then "ALL-IN".toList
      else after.takeWhile (fun c => c != ' ') := by
  unfold arrowAction
  simp only [Js.includes_iff_infix, Js.splitSpaceHead]

theorem toList_ne_nil_of_ne_empty (s : String) (h : s ≠ "") : s.toList ≠ [] := by
  intro hnil
  apply h
  cases s with
  | mk data =>
    have : data = [] := hnil
    subst this
    rfl

/-- C9 (amended). `getPlayerLastAction`, for every non-empty name and every log with an
entry that contains `" {name} -> "` and no more recent entry that matches either rule: the
result is the first of FOLD, CHECK, CALL, RAISE, ALL-IN (in that priority order) that
occurs in the text after the first arrow of that entry, or the first space-delimited
token of that text when none of them occurs. -/
theorem getPlayerLastAction_arrow_entry (playerName entry : String)
    (older newer : List String) (before after : List Char)
    (hname : playerName ≠ "")
    (hentry : entry.toList = before ++ arrowPattern playerName.toList ++ after)
    (hfirst : ∀ before' after' : List Char,
      entry.toList = before' ++ arrowPattern playerName.toList ++ after' →
        before.length ≤ before'.length)
    (hnewer : ∀ e ∈ newer, ¬ arrowPattern playerName.toList <:+: e.toList ∧
      ¬ (playerName.toList ++ [' ']) <+: e.toList) :
    getPlayerLastAction playerName (some (older ++ entry :: newer)) =
      String.mk
        (if "FOLD".toList <:+: after then "FOLD".toList
         else if "CHECK".toList <:+: after then "CHECK".toList
         else if "CALL".toList <:+: after then "CALL".toList
         else if "RAISE".toList <:+: after then "RAISE".toList
         else if "ALL-IN".toList <:+: after then "ALL-IN".toList
         else after.takeWhile (fun c => c != ' ')) := by
  unfold getPlayerLastAction
  simp only [hname, if_false]
  congr 1
  have hrev : (older ++ entry :: newer).reverse.map String.toList =
      (newer.reverse.map String.toList) ++
        (entry.toList :: older.reverse.map String.toList) := by
    simp
  rw [hrev, scanLog_skip]
  · have hidx : Js.indexOf (arrowPattern playerName.toList) entry.toList = some before.length := by
      rw [hentry]
      apply Js.indexOf_of_first
      intro before' after' heq
      exact hfirst before' after' (hentry.trans heq)
    simp only [scanLog, hidx]
    rw [arrowAction_eq]
    have hsub : Js.substring entry.toList
        (before.length + (arrowPattern playerName.toList).length) = after := by
      unfold Js.substring
      rw [hentry, ← List.length_append, List.drop_left]
    rw [hsub]
  · intro e he
    simp only [List.mem_map, List.mem_reverse] at he
    obtain ⟨e', he', rfl⟩ := he
    exact hnewer e' he'

/-- Witness for C9: the log `["[flop] Alice -> RAISE (50)"]` and the name `"Alice"` give
`"RAISE"`. -/
theorem getPlayerLastAction_arrow_entry_witness :
    getPlayerLastAction "Alice" (some ["[flop] Alice -> RAISE (50)"]) = "RAISE" := by
  have h := getPlayerLastAction_arrow_entry "Alice" "[flop] Alice -> RAISE (50)" [] []
    "[flop]".toList "RAISE (50)".toList (by decide) (by decide)
    (by
      intro before' after' heq
      obtain ⟨i, hi, hle⟩ := Js.indexOf_le_of_occurrence (arrowPattern "Alice".toList) before' after'
      rw [← heq] at hi
      have hidx : Js.indexOf (arrowPattern "Alice".toList) "[flop] Alice -> RAISE (50)".toList
          = some 6 := by decide
      rw [hidx] at hi
      cases hi
      exact hle)
    (by simp)
  simpa using h

/-- C10. `getPlayerLastAction`, for every name and every log in which no entry contains
`" {name} -> "`: if the log is absent or the name empty the result is the empty string;
otherwise, if some entry starts with `"{name} "`, the result is, for the most recent such
entry, the first space-delimited token after that start with one trailing `s` removed,
upper-cased (the token within U+0000-U+00FF, where `Js.toUpperCase` is the exact
`toUpperCase`); and if no entry starts so, the result is the empty string. -/
theorem getPlayerLastAction_legacy (playerName : String) (actionLog : Option (List String))
    (hnoarrow : ∀ entries, actionLog = some entries →
      ∀ e ∈ entries, ¬ arrowPattern playerName.toList <:+: e.toList) :
    ((playerName = "" ∨ actionLog = none) → getPlayerLastAction playerName actionLog = "") ∧
    (playerName ≠ "" → ∀ (older : List String) (entry : String) (newer : List String),
      actionLog = some (older ++ entry :: newer) →
      (playerName.toList ++ [' ']) <+: entry.toList →
      (∀ e ∈ newer, ¬ (playerName.toList ++ [' ']) <+: e.toList) →
      (∀ c ∈ (entry.toList.drop (playerName.length + 1)).takeWhile (fun c => c != ' '),
        c.toNat < 256) →
      getPlayerLastAction playerName actionLog =
        String.mk (Js.toUpperCase
          (if ((entry.toList.drop (playerName.length + 1)).takeWhile
                (fun c => c != ' ')).getLast? = some 's' then
            ((entry.toList.drop (playerName.length + 1)).takeWhile (fun c => c != ' ')).dropLast
           else (entry.toList.drop (playerName.length + 1)).takeWhile (fun c => c != ' ')))) ∧
    (playerName ≠ "" → ∀ entries : List String, actionLog = some entries →
      (∀ e ∈ entries, ¬ (playerName.toList ++ [' ']) <+: e.toList) →
      getPlayerLastAction playerName actionLog = "") := by
  refine ⟨?_, ?_, ?_⟩
  · rintro (h | h)
    · subst h
      unfold getPlayerLastAction
      cases actionLog <;> simp
    · subst h
      rfl
  · intro hname older entry newer hlog hstart hnewer hlatin
    subst hlog
    have hno := hnoarrow _ rfl
    unfold getPlayerLastAction
    simp only [hname, if_false]
    congr 1
    have hrev : (older ++ entry :: newer).reverse.map String.toList =
        (newer.reverse.map String.toList) ++
          (entry.toList :: older.reverse.map String.toList) := by
      simp
    rw [hrev, scanLog_skip]
    · have hidx : Js.indexOf (arrowPattern playerName.toList) entry.toList = none :=
        (Js.indexOf_eq_none_iff _ _).2 (hno entry (by simp))
      have hsw : Js.startsWith entry.toList (playerName.toList ++ " ".toList) = true := by
        unfold Js.startsWith
        rw [List.isPrefixOf_iff_prefix]
        exact hstart
      simp only [scanLog, hidx, hsw, if_true, legacyAction, Js.endsWith_s_iff, Js.splitSpaceHead,
        Js.substring, Js.sliceInit]
      rfl
    · intro e he
      simp only [List.mem_map, List.mem_reverse] at he
      obtain ⟨e', he', rfl⟩ := he
      exact ⟨hno e' (by simp [he']), hnewer e' he'⟩
  · intro hname entries hlog hnone
    subst hlog
    have hno := hnoarrow _ rfl
    unfold getPlayerLastAction
    simp only [hname, if_false]
    have h := scanLog_skip playerName.toList [] (entries.reverse.map String.toList) (by
      intro e he
      simp only [List.mem_map, List.mem_reverse] at he
      obtain ⟨e', he', rfl⟩ := he
      exact ⟨hno e' he', hnone e' he'⟩)
    rw [List.append_nil] at h
    rw [h]
    rfl

/-- Witness for C10: the legacy entry `"Bob relancés 50"` and the name `"Bob"` give
`"RELANCÉ"`. -/
theorem getPlayerLastAction_legacy_witness :
    getPlayerLastAction "Bob" (some ["Alice checks", "Bob relancés 50", "Alice folds"]) =
      "RELANCÉ" := by
  have h := (getPlayerLastAction_legacy "Bob"
      (some ["Alice checks", "Bob relancés 50", "Alice folds"])
      (by
        intro entries he e hmem
        cases he
        simp only [List.mem_cons, List.mem_singleton, List.not_mem_nil, or_false] at hmem
        rcases hmem with rfl | rfl | rfl <;> decide)).2.1
    (by decide) ["Alice checks"] "Bob relancés 50" ["Alice folds"] rfl (by decide)
    (by
      intro e hmem
      simp only [List.mem_singleton] at hmem
      subst hmem
      decide)
    (by decide)
  rw [h]
  decide

/-- C9, counterexample. With the log `["[flop] Alice -> RAISE (50)", "Alice folds"]` the
most recent entry that contains `" Alice -> "` reads RAISE after the arrow, and the
function answers `"FOLD"`, taken from the more recent legacy entry. -/
theorem getPlayerLastAction_arrow_preempted :
    Js.lastArrowLabel "Alice" ["[flop] Alice -> RAISE (50)", "Alice folds"] = some "RAISE" ∧
    getPlayerLastAction "Alice" (some ["[flop] Alice -> RAISE (50)", "Alice folds"]) = "FOLD" := by
  decide

end Game

/-! ## Keyed reconciliation of the player list -/

namespace Game

theorem updatePlayerElement_node (d : PlayerNode) (p : Player) (cur : Option String)
    (log : Option (List String)) : (updatePlayerElement d p cur log).1.node = d.node := by
  unfold updatePlayerElement
  dsimp only
  split <;> rfl

theorem updatePlayerElement_playerId (d : PlayerNode) (p : Player) (cur : Option String)
    (log : Option (List String)) :
    (updatePlayerElement d p cur log).1.playerId = d.playerId := by
  unfold updatePlayerElement
  dsimp only
  split <;> rfl

theorem updatePlayerElement_className (d : PlayerNode) (p : Player) (cur : Option String)
    (log : Option (List String)) :
    (updatePlayerElement d p cur log).1.className = playerClassName p cur := by
  unfold updatePlayerElement
  dsimp only
  split <;> rfl

theorem updatePlayerElement_lastHtml (d : PlayerNode) (p : Player) (cur : Option String)
    (log : Option (List String)) :
    (updatePlayerElement d p cur log).1.lastHtml = some (playerHtml p log) := by
  unfold updatePlayerElement
  dsimp only
  split
  · rfl
  · rename_i h
    exact not_not.1 h

theorem find?_playerId_of_mem (id : String) :
    ∀ C : List PlayerNode, some id ∈ C.map (fun n => n.playerId) →
      ∃ d, C.find? (fun n => n.playerId == some id) = some d ∧ d.playerId = some id := by
  intro C
  induction C with
  | nil => intro h; simp at h
  | cons n ns ih =>
    intro h
    by_cases hn : n.playerId = some id
    · exact ⟨n, by simp [List.find?, hn], hn⟩
    · have h' : some id ∈ ns.map (fun n => n.playerId) := by
        simp only [List.map_cons, List.mem_cons] at h
        rcases h with h | h
        · exact absurd h.symm hn
        · exact h
      obtain ⟨d, hd, hid⟩ := ih h'
      refine ⟨d, ?_, hid⟩
      have hb : (n.playerId == some id) = false := by simpa using hn
      simp only [List.find?_cons, hb, hd]

theorem mem_of_find?_playerId (id : String) (C : List PlayerNode) (d : PlayerNode)
    (h : C.find? (fun n => n.playerId == some id) = some d) :
    d.playerId = some id ∧ some id ∈ C.map (fun n => n.playerId) := by
  have h1 := List.find?_some h
  have h2 := List.mem_of_find?_eq_some h
  have hid : d.playerId = some id := by simpa using h1
  exact ⟨hid, List.mem_map.2 ⟨d, h2, hid⟩⟩

theorem map_updateFirst {β : Type} (g : PlayerNode → β) (P : PlayerNode → Bool)
    (d' : PlayerNode) :
    ∀ (C : List PlayerNode) (d : PlayerNode), C.find? P = some d → g d' = g d →
      (updateFirst P (fun _ => d') C).map g = C.map g := by
  intro C
  induction C with
  | nil => intro d h; simp at h
  | cons n ns ih =>
    intro d h hg
    by_cases hn : P n = true
    · have : d = n := by
        rw [List.find?, hn] at h
        exact (Option.some.inj h).symm
      subst this
      simp [updateFirst, hn, hg]
    · simp only [Bool.not_eq_true] at hn
      rw [List.find?, hn] at h
      simp only [updateFirst, hn, Bool.false_eq_true, if_false, List.map_cons]
      rw [ih d h hg]

theorem length_updateFirst (P : PlayerNode → Bool) (f : PlayerNode → PlayerNode) :
    ∀ C : List PlayerNode, (updateFirst P f C).length = C.length := by
  intro C
  induction C with
  | nil => rfl
  | cons n ns ih =>
    by_cases hn : P n = true
    · simp [updateFirst, hn]
    · simp [updateFirst, hn, ih]

theorem patchPlayer_found (cur : Option String) (log : Option (List String)) (st : State)
    (p : Player) (d : PlayerNode)
    (h : st.view.playersContainer.find? (fun n => n.playerId == some p.id) = some d) :
    patchPlayer cur log st p =
      { st with
        view := { st.view with
          playersContainer :=
            updateFirst (fun n => n.playerId == some p.id)
              (fun _ => (updatePlayerElement d p cur log).1) st.view.playersContainer },
        trace := (updatePlayerElement d p cur log).2 ++ st.trace } := by
  unfold patchPlayer
  rw [h]

/-- When every incoming player has an element, the second loop of `renderPlayers` keeps the
elements of the container, their order and their player ids, and creates none. -/
theorem foldl_patchPlayer_stable (cur : Option String) (log : Option (List String)) :
    ∀ (players : List Player) (st : State),
      (∀ p ∈ players, some p.id ∈ st.view.playersContainer.map (fun n => n.playerId)) →
      ((players.foldl (patchPlayer cur log) st).view.playersContainer.map (fun n => n.node)
          = st.view.playersContainer.map (fun n => n.node)) ∧
      ((players.foldl (patchPlayer cur log) st).view.playersContainer.map (fun n => n.playerId)
          = st.view.playersContainer.map (fun n => n.playerId)) ∧
      (players.foldl (patchPlayer cur log) st).nextId = st.nextId := by
  intro players
  induction players with
  | nil => intro st _; exact ⟨rfl, rfl, rfl⟩
  | cons p ps ih =>
    intro st h
    obtain ⟨d, hd, hid⟩ := find?_playerId_of_mem p.id _ (h p (List.mem_cons_self _ _))
    have hstep := patchPlayer_found cur log st p d hd
    have hnode : (patchPlayer cur log st p).view.playersContainer.map (fun n => n.node)
        = st.view.playersContainer.map (fun n => n.node) := by
      rw [hstep]
      exact map_updateFirst _ _ _ _ d hd (updatePlayerElement_node d p cur log)
    have hpid : (patchPlayer cur log st p).view.playersContainer.map (fun n => n.playerId)
        = st.view.playersContainer.map (fun n => n.playerId) := by
      rw [hstep]
      exact map_updateFirst _ _ _ _ d hd (updatePlayerElement_playerId d p cur log)
    have hnext : (patchPlayer cur log st p).nextId = st.nextId := by rw [hstep]
    have hrest := ih (patchPlayer cur log st p) (by
      intro q hq
      rw [hpid]
      exact h q (List.mem_cons_of_mem _ hq))
    rw [List.foldl_cons]
    refine ⟨hrest.1.trans hnode, hrest.2.1.trans hpid, hrest.2.2.trans hnext⟩

/-- Keyed reconciliation on an aligned container: when the container holds exactly one
element per player of a list with distinct ids, `renderPlayers` on any permutation of that
list neither removes nor creates an element: the container holds the same elements (same
identity, same order, one per id) afterwards as before. A container with a stale element
is not aligned. -/
theorem renderPlayers_permutation_stable (st : State) (rendered players : List Player)
    (currentPlayerId : Option String) (actionLog : Option (List String))
    (hdistinct : (rendered.map fun p => p.id).Nodup)
    (hrendered : (st.view.playersContainer.map fun n => n.playerId).Perm
      (rendered.map fun p => some p.id))
    (hperm : players.Perm rendered) :
    ((renderPlayers st players currentPlayerId actionLog).view.playersContainer.map
        fun n => n.node) = st.view.playersContainer.map (fun n => n.node) ∧
    ((renderPlayers st players currentPlayerId actionLog).view.playersContainer.map
        fun n => n.playerId) = st.view.playersContainer.map (fun n => n.playerId) ∧
    ((renderPlayers st players currentPlayerId actionLog).view.playersContainer.map
        fun n => n.playerId).Nodup ∧
    (renderPlayers st players currentPlayerId actionLog).nextId = st.nextId := by
  have hlen : st.view.playersContainer.length = players.length := by
    have h1 := hrendered.length_eq
    have h2 := hperm.length_eq
    simp only [List.length_map] at h1
    omega
  have hmem : ∀ p ∈ players, some p.id ∈ st.view.playersContainer.map (fun n => n.playerId) := by
    intro p hp
    rw [hrendered.mem_iff]
    exact List.mem_map.2 ⟨p, hperm.mem_iff.1 hp, rfl⟩
  have hstable := foldl_patchPlayer_stable currentPlayerId actionLog players st hmem
  have hrp : renderPlayers st players currentPlayerId actionLog
      = players.foldl (patchPlayer currentPlayerId actionLog) st := by
    unfold renderPlayers
    rw [if_neg (by simpa using hlen)]
  rw [hrp]
  refine ⟨hstable.1, hstable.2.1, ?_, hstable.2.2⟩
  rw [hstable.2.1]
  apply hrendered.nodup_iff.2
  have hinj : Function.Injective (fun s : String => some s) := fun a b h => Option.some.inj h
  have : (rendered.map fun p => some p.id) = (rendered.map fun p => p.id).map some := by
    simp [List.map_map]
  rw [this]
  exact hdistinct.map hinj

/-- Alice and Bob rendered into the empty container, then the list arrives as Bob, Alice:
the two elements keep their identities. -/
theorem renderPlayers_permutation_stable_witness :
    ((renderPlayers (renderPlayers State.initial [seat "a" "Alice", seat "b" "Bob"] none none)
        [seat "b" "Bob", seat "a" "Alice"] (some "b") none).view.playersContainer.map
        fun n => n.node) = [1, 2] :=
  (renderPlayers_permutation_stable
    (renderPlayers State.initial [seat "a" "Alice", seat "b" "Bob"] none none)
    [seat "a" "Alice", seat "b" "Bob"] [seat "b" "Bob", seat "a" "Alice"] (some "b") none
    (by decide) (by decide) (by decide)).1.trans (by decide)

end Game

/-! ## What each block of the reconciler writes and keeps -/

namespace Game

theorem extends_refl (K : DomWrite → Prop) (st : State) : Extends K st st :=
  ⟨[], rfl, by simp⟩

theorem extends_trans {K : DomWrite → Prop} {a b c : State} (h1 : Extends K a b)
    (h2 : Extends K b c) : Extends K a c := by
  obtain ⟨n1, e1, k1⟩ := h1
  obtain ⟨n2, e2, k2⟩ := h2
  refine ⟨n2 ++ n1, by rw [e2, e1, List.append_assoc], ?_⟩
  intro w hw
  rcases List.mem_append.1 hw with h | h
  · exact k2 w h
  · exact k1 w h

theorem extends_mono {K K' : DomWrite → Prop} {a b : State} (hk : ∀ w, K w → K' w)
    (h : Extends K a b) : Extends K' a b := by
  obtain ⟨n, e, k⟩ := h
  exact ⟨n, e, fun w hw => hk w (k w hw)⟩

theorem extends_of_trace_eq {K : DomWrite → Prop} {a b c : State} (h : Extends K a b)
    (htr : c.trace = b.trace) : Extends K a c := by
  obtain ⟨n, e, k⟩ := h
  exact ⟨n, by rw [htr, e], k⟩

theorem frame_refl (K : DomWrite → Prop) (st : State) : Frame K st st :=
  ⟨extends_refl K st, rfl, rfl, rfl⟩

theorem frame_trans {K : DomWrite → Prop} {a b c : State} (h1 : Frame K a b)
    (h2 : Frame K b c) : Frame K a c :=
  ⟨extends_trans h1.1 h2.1, h2.2.1.trans h1.2.1, h2.2.2.1.trans h1.2.2.1, h2.2.2.2.trans h1.2.2.2⟩

theorem frame_mono {K K' : DomWrite → Prop} {a b : State} (hk : ∀ w, K w → K' w)
    (h : Frame K a b) : Frame K' a b :=
  ⟨extends_mono hk h.1, h.2⟩

theorem touch_refl (st : State) : Touch st st :=
  ⟨extends_refl _ st, rfl, rfl, rfl⟩

theorem touch_trans {a b c : State} (h1 : Touch a b) (h2 : Touch b c) : Touch a c :=
  ⟨extends_trans h1.1 h2.1, h2.2.1.trans h1.2.1, h2.2.2.1.trans h1.2.2.1, h2.2.2.2.trans h1.2.2.2⟩

theorem frame_touch {K : DomWrite → Prop} {a b : State}
    (hk : ∀ w, K w → w.createsGameOverlay = false) (h : Frame K a b) : Touch a b := by
  refine ⟨extends_mono hk h.1, ?_, h.2.2.1, h.2.2.2⟩
  have := h.2.1
  unfold gatedView at this
  simp only [Prod.mk.injEq] at this
  exact this.2.2.2.2.2.1

/-- The writes that are neither gated nor the creation of a game overlay. -/
theorem showValidAction_frame (state : GameState) (st : State) (action : String) :
    Frame (fun w => w.gated = false ∧ w.createsGameOverlay = false) st
      (showValidAction state st action) := by
  unfold showValidAction
  split
  · exact ⟨⟨[DomWrite.humanControls "checkBtn"], rfl, by simp [DomWrite.gated, DomWrite.createsGameOverlay]⟩, rfl, rfl, rfl⟩
  · split
    · exact ⟨⟨[DomWrite.humanControls "callBtn", DomWrite.humanControls "callAmount"], rfl,
        by simp [DomWrite.gated, DomWrite.createsGameOverlay]⟩, rfl, rfl, rfl⟩
    · split
      · exact ⟨⟨[DomWrite.humanControls "raiseBtn", DomWrite.humanControls "raiseAmount",
          DomWrite.humanControls "raiseControls"], rfl,
          by simp [DomWrite.gated, DomWrite.createsGameOverlay]⟩, rfl, rfl, rfl⟩
      · exact frame_refl _ _

theorem foldl_showValidAction_frame (state : GameState) :
    ∀ (actions : List String) (st : State),
      Frame (fun w => w.gated = false ∧ w.createsGameOverlay = false) st
        (actions.foldl (showValidAction state) st) := by
  intro actions
  induction actions with
  | nil => intro st; exact frame_refl _ _
  | cons a as ih =>
    intro st
    exact frame_trans (showValidAction_frame state st a) (ih _)

theorem showHumanControls_frame (st : State) :
    Frame (fun w => w.gated = false ∧ w.createsGameOverlay = false) st
      (showHumanControls st) := by
  unfold showHumanControls
  split
  · exact ⟨⟨[DomWrite.pageSection "humanPlayerControls"], rfl,
      by simp [DomWrite.gated, DomWrite.createsGameOverlay]⟩, rfl, rfl, rfl⟩
  · exact frame_refl _ _

theorem showHumanCards_frame (st : State) (state : GameState) :
    Frame (fun w => w.gated = false ∧ w.createsGameOverlay = false) st
      (showHumanCards st state) := by
  unfold showHumanCards
  split
  · dsimp only
    split
    · exact ⟨⟨[DomWrite.humanControls "humanPlayerCards"], rfl,
        by simp [DomWrite.gated, DomWrite.createsGameOverlay]⟩, rfl, rfl, rfl⟩
    · exact frame_refl _ _
  · exact ⟨⟨[DomWrite.humanControls "humanPlayerCards"], rfl,
      by simp [DomWrite.gated, DomWrite.createsGameOverlay]⟩, rfl, rfl, rfl⟩

theorem showHumanChips_frame (st : State) (state : GameState) :
    Frame (fun w => w.gated = false ∧ w.createsGameOverlay = false) st
      (showHumanChips st state) :=
  ⟨⟨[DomWrite.humanControls "humanPlayerChips"], rfl,
    by simp [DomWrite.gated, DomWrite.createsGameOverlay]⟩, rfl, rfl, rfl⟩

theorem announceTurn_frame (st : State) :
    Frame (fun w => w.gated = false ∧ w.createsGameOverlay = false) st (announceTurn st) :=
  ⟨⟨[DomWrite.humanControls "raiseControls", DomWrite.humanControls "callBtn",
      DomWrite.humanControls "checkBtn", DomWrite.humanControls "actionMessage"], rfl,
    by simp [DomWrite.gated, DomWrite.createsGameOverlay]⟩, rfl, rfl, rfl⟩

theorem enableFoldAllin_frame (st : State) :
    Frame (fun w => w.gated = false ∧ w.createsGameOverlay = false) st (enableFoldAllin st) :=
  ⟨⟨[DomWrite.humanControls "allinBtn", DomWrite.humanControls "foldBtn"], rfl,
    by simp [DomWrite.gated, DomWrite.createsGameOverlay]⟩, rfl, rfl, rfl⟩

theorem disableActionButtons_frame (st : State) :
    Frame (fun w => w.gated = false ∧ w.createsGameOverlay = false) st
      (disableActionButtons st) := by
  refine ⟨⟨((st.view.overlays.filter fun o => o.kind = OverlayKind.game).map
        fun o => DomWrite.overlayButtons o.node) ++
      [DomWrite.humanControls "actionButtons", DomWrite.humanControls "actionMessage"],
      by simp [disableActionButtons], ?_⟩, rfl, rfl, rfl⟩
  intro w hw
  simp only [List.mem_append, List.mem_map, List.mem_cons, List.mem_singleton,
    List.not_mem_nil, or_false] at hw
  rcases hw with ⟨o, _, rfl⟩ | rfl | rfl <;>
    simp [DomWrite.gated, DomWrite.createsGameOverlay]

theorem updateActionButtons_frame (st : State) (state : GameState) :
    Frame (fun w => w.gated = false ∧ w.createsGameOverlay = false) st
      (updateActionButtons st state) := by
  unfold updateActionButtons
  dsimp only
  split
  · rename_i validActions _ _
    exact frame_trans (announceTurn_frame st)
      (frame_trans (foldl_showValidAction_frame state validActions _) (enableFoldAllin_frame _))
  · exact disableActionButtons_frame st

theorem updateHumanPlayerUI_frame (st : State) (state : GameState) :
    Frame (fun w => w.gated = false ∧ w.createsGameOverlay = false) st
      (updateHumanPlayerUI st state) := by
  unfold updateHumanPlayerUI
  exact frame_trans (showHumanControls_frame st)
    (frame_trans (showHumanCards_frame _ state)
      (frame_trans (showHumanChips_frame _ state) (updateActionButtons_frame _ state)))

theorem showHandWinner_frame (st : State) (winnerName : Option String) (amount : Nat)
    (handDescription : Option String) (cards : Option (List String)) :
    Frame (fun w => w.gated = false ∧ w.createsGameOverlay = false) st
      (showHandWinner st winnerName amount handDescription cards) := by
  unfold showHandWinner
  split
  · exact frame_refl _ _
  · exact ⟨⟨[DomWrite.overlayAppended st.nextId OverlayKind.hand], rfl,
      by simp [DomWrite.gated, DomWrite.createsGameOverlay]⟩, rfl, rfl, rfl⟩

theorem announceHandWinner_frame (st : State) (state : GameState) :
    Frame (fun w => w.gated = false ∧ w.createsGameOverlay = false) st
      (announceHandWinner st state) := by
  unfold announceHandWinner
  split
  · exact showHandWinner_frame _ _ _ _ _
  · exact frame_refl _ _

theorem announceGameWinner_frame (st : State) (state : GameState) :
    Frame (fun w => w.gated = false) st (announceGameWinner st state) := by
  unfold announceGameWinner showGameWinner
  split
  · split
    · exact frame_refl _ _
    · exact ⟨⟨[DomWrite.overlayAppended st.nextId OverlayKind.game], rfl,
        by simp [DomWrite.gated]⟩, rfl, rfl, rfl⟩
  · exact frame_refl _ _

theorem announceGameWinner_latched (st : State) (state : GameState)
    (h : st.hasDismissedWinnerPopup = true) : announceGameWinner st state = st := by
  unfold announceGameWinner
  simp [h]

theorem renderStartBtn_frame (st : State) (state : GameState) :
    Frame (fun w => w.gated = false ∧ w.createsGameOverlay = false) st
      (renderStartBtn st state) := by
  unfold renderStartBtn
  split
  · exact ⟨⟨[DomWrite.startBtn], rfl,
      by simp [DomWrite.gated, DomWrite.createsGameOverlay]⟩, rfl, rfl, rfl⟩
  · exact frame_refl _ _

theorem renderPhase_touch (st : State) (state : GameState) : Touch st (renderPhase st state) := by
  unfold renderPhase
  split
  · exact ⟨⟨[DomWrite.gamePhase], rfl, by simp [DomWrite.createsGameOverlay]⟩, rfl, rfl, rfl⟩
  · exact touch_refl _

theorem renderPot_touch (st : State) (state : GameState) : Touch st (renderPot st state) := by
  unfold renderPot
  split
  · exact ⟨⟨[DomWrite.potDisplay, DomWrite.gamePot], rfl,
      by simp [DomWrite.createsGameOverlay]⟩, rfl, rfl, rfl⟩
  · exact touch_refl _

theorem renderCurrentBet_touch (st : State) (state : GameState) :
    Touch st (renderCurrentBet st state) := by
  unfold renderCurrentBet
  split
  · exact ⟨⟨[DomWrite.currentBet], rfl, by simp [DomWrite.createsGameOverlay]⟩, rfl, rfl, rfl⟩
  · exact touch_refl _

theorem renderCommunity_touch (st : State) (state : GameState) :
    Touch st (renderCommunity st state) := by
  unfold renderCommunity renderCommunityCards
  split
  · exact ⟨⟨[DomWrite.communityCards], rfl, by simp [DomWrite.createsGameOverlay]⟩,
      rfl, rfl, rfl⟩
  · exact touch_refl _

theorem renderActionLog_touch (st : State) (state : GameState) :
    Touch st (renderActionLog st state) := by
  unfold renderActionLog
  split
  · split
    · exact ⟨⟨[DomWrite.actionLog], rfl, by simp [DomWrite.createsGameOverlay]⟩, rfl, rfl, rfl⟩
    · exact touch_refl _
  · exact touch_refl _

/-- With the baseline equal to the incoming snapshot, the gated blocks do nothing. -/
theorem renderPhase_same (st : State) (state : GameState)
    (h : st.lastGameState = some state) : renderPhase st state = st := by
  unfold renderPhase
  simp [h]

theorem renderPot_same (st : State) (state : GameState)
    (h : st.lastGameState = some state) : renderPot st state = st := by
  unfold renderPot
  simp [h]

theorem renderCurrentBet_same (st : State) (state : GameState)
    (h : st.lastGameState = some state) : renderCurrentBet st state = st := by
  unfold renderCurrentBet
  simp [h]

theorem renderCommunity_same (st : State) (state : GameState)
    (h : st.lastGameState = some state) : renderCommunity st state = st := by
  unfold renderCommunity
  simp [h]

theorem renderActionLog_same (st : State) (state : GameState)
    (h : st.lastGameState = some state) : renderActionLog st state = st := by
  unfold renderActionLog
  split
  · simp [h]
  · rfl

end Game

/-! ## What `renderPlayers` leaves in the container -/

namespace Game

theorem updatePlayerElement_writes (d : PlayerNode) (p : Player) (cur : Option String)
    (log : Option (List String)) :
    ∀ w ∈ (updatePlayerElement d p cur log).2, w.createsGameOverlay = false := by
  unfold updatePlayerElement
  dsimp only
  split <;> simp [DomWrite.createsGameOverlay]

theorem updatePlayerElement_shown (n : PlayerNode) (p : Player) (cur : Option String)
    (log : Option (List String)) (hc : n.className = playerClassName p cur)
    (hh : n.lastHtml = some (playerHtml p log)) :
    updatePlayerElement n p cur log = (n, [DomWrite.playerClass n.node]) := by
  unfold updatePlayerElement
  dsimp only
  rw [if_neg (by simp [hh])]
  cases n
  simp only at hc
  subst hc
  rfl

theorem updateFirst_cons_of_pos (P : PlayerNode → Bool) (f : PlayerNode → PlayerNode)
    (n : PlayerNode) (ns : List PlayerNode) (h : P n = true) :
    updateFirst P f (n :: ns) = f n :: ns := by
  simp [updateFirst, h]

theorem updateFirst_cons_of_neg (P : PlayerNode → Bool) (f : PlayerNode → PlayerNode)
    (n : PlayerNode) (ns : List PlayerNode) (h : ¬ P n = true) :
    updateFirst P f (n :: ns) = n :: updateFirst P f ns := by
  simp [updateFirst, h]

theorem updateFirst_self (P : PlayerNode → Bool) :
    ∀ (C : List PlayerNode) (d : PlayerNode), C.find? P = some d →
      updateFirst P (fun _ => d) C = C := by
  intro C
  induction C with
  | nil => intro d h; simp at h
  | cons n ns ih =>
    intro d h
    by_cases hn : P n = true
    · rw [List.find?_cons_of_pos _ hn] at h
      cases h
      rw [updateFirst_cons_of_pos _ _ _ _ hn]
    · rw [List.find?_cons_of_neg _ hn] at h
      rw [updateFirst_cons_of_neg _ _ _ _ hn, ih d h]

theorem find?_updateFirst_same (P : PlayerNode → Bool) (d' : PlayerNode) (hd' : P d' = true) :
    ∀ (C : List PlayerNode) (d : PlayerNode), C.find? P = some d →
      (updateFirst P (fun _ => d') C).find? P = some d' := by
  intro C
  induction C with
  | nil => intro d h; simp at h
  | cons n ns ih =>
    intro d h
    by_cases hn : P n = true
    · rw [updateFirst_cons_of_pos _ _ _ _ hn]
      exact List.find?_cons_of_pos _ hd'
    · rw [List.find?_cons_of_neg _ hn] at h
      rw [updateFirst_cons_of_neg _ _ _ _ hn, List.find?_cons_of_neg _ hn]
      exact ih d h

theorem find?_updateFirst_other (P Q : PlayerNode → Bool) (d' : PlayerNode)
    (hPQ : ∀ n, P n = true → Q n = false) (hd' : Q d' = false) :
    ∀ C : List PlayerNode, (updateFirst P (fun _ => d') C).find? Q = C.find? Q := by
  intro C
  induction C with
  | nil => rfl
  | cons n ns ih =>
    by_cases hn : P n = true
    · rw [updateFirst_cons_of_pos _ _ _ _ hn]
      rw [List.find?_cons_of_neg _ (by simp [hd']), List.find?_cons_of_neg _ (by simp [hPQ n hn])]
    · rw [updateFirst_cons_of_neg _ _ _ _ hn]
      by_cases hq : Q n = true
      · rw [List.find?_cons_of_pos _ hq, List.find?_cons_of_pos _ hq]
      · rw [List.find?_cons_of_neg _ hq, List.find?_cons_of_neg _ hq, ih]

theorem appendPlayer_container (st : State) (p : Player) (cur : Option String)
    (log : Option (List String)) :
    ∃ n : PlayerNode, (appendPlayer st p cur log).view.playersContainer
        = st.view.playersContainer ++ [n] ∧
      n.playerId = some p.id ∧ n.className = playerClassName p cur ∧
      n.lastHtml = some (playerHtml p log) := by
  refine ⟨{ (createPlayerElement st.nextId p cur log).1 with playerId := some p.id }, rfl, rfl,
    ?_, ?_⟩
  · show (createPlayerElement st.nextId p cur log).1.className = _
    exact updatePlayerElement_className _ p cur log
  · show (createPlayerElement st.nextId p cur log).1.lastHtml = _
    exact updatePlayerElement_lastHtml _ p cur log

theorem mem_ids_iff_find? (id : String) (C : List PlayerNode) :
    some id ∉ C.map (fun n => n.playerId) ↔
      C.find? (fun n => n.playerId == some id) = none := by
  rw [List.find?_eq_none]
  simp only [List.mem_map, not_exists, not_and, beq_iff_eq]

/-- The first loop of `renderPlayers` gives every player of a list with distinct ids an
element that shows it. -/
theorem foldl_appendPlayer_shows (cur : Option String) (log : Option (List String)) :
    ∀ (players : List Player) (st : State),
      (players.map fun p => p.id).Nodup →
      (∀ p ∈ players, some p.id ∉ st.view.playersContainer.map (fun n => n.playerId)) →
      (∀ q, Shows st.view.playersContainer cur log q →
        Shows (players.foldl (fun s p => appendPlayer s p cur log) st).view.playersContainer
          cur log q) ∧
      (∀ p ∈ players,
        Shows (players.foldl (fun s p => appendPlayer s p cur log) st).view.playersContainer
          cur log p) ∧
      (players.foldl (fun s p => appendPlayer s p cur log) st).view.playersContainer.length
        = st.view.playersContainer.length + players.length := by
  intro players
  induction players with
  | nil => intro st _ _; exact ⟨fun q h => h, by simp, by simp⟩
  | cons p ps ih =>
    intro st hnd hfresh
    obtain ⟨n, hC, hid, hcls, hhtml⟩ := appendPlayer_container st p cur log
    have hnd' : (ps.map fun p => p.id).Nodup := (List.nodup_cons.1 hnd).2
    have hpnot : p.id ∉ ps.map fun p => p.id := (List.nodup_cons.1 hnd).1
    have hmono : ∀ q, Shows st.view.playersContainer cur log q →
        Shows (appendPlayer st p cur log).view.playersContainer cur log q := by
      rintro q ⟨d, hd, hrest⟩
      refine ⟨d, ?_, hrest⟩
      rw [hC, List.find?_append, hd]
      rfl
    have hp : Shows (appendPlayer st p cur log).view.playersContainer cur log p := by
      refine ⟨n, ?_, hcls, hhtml⟩
      have hnone := (mem_ids_iff_find? p.id _).1 (hfresh p (List.mem_cons_self _ _))
      rw [hC, List.find?_append, hnone]
      simp [hid]
    have hfresh' : ∀ q ∈ ps,
        some q.id ∉ (appendPlayer st p cur log).view.playersContainer.map
          (fun n => n.playerId) := by
      intro q hq
      rw [hC]
      simp only [List.map_append, List.map_cons, List.map_nil, List.mem_append,
        List.mem_singleton, not_or]
      refine ⟨hfresh q (List.mem_cons_of_mem _ hq), ?_⟩
      rw [hid]
      intro heq
      have : q.id = p.id := Option.some.inj heq
      exact hpnot (List.mem_map.2 ⟨q, hq, this⟩)
    obtain ⟨ihmono, ihall, ihlen⟩ := ih (appendPlayer st p cur log) hnd' hfresh'
    rw [List.foldl_cons]
    refine ⟨fun q hq => ihmono q (hmono q hq), ?_, ?_⟩
    · intro q hq
      rcases List.mem_cons.1 hq with rfl | hq
      · exact ihmono _ hp
      · exact ihall q hq
    · rw [ihlen, hC]
      simp only [List.length_append, List.length_cons, List.length_nil]
      omega

/-- The second loop of `renderPlayers`, when every player of a list with distinct ids has an
element: afterwards each of these elements shows its player. -/
theorem foldl_patchPlayer_shows (cur : Option String) (log : Option (List String)) :
    ∀ (players : List Player) (st : State),
      (players.map fun p => p.id).Nodup →
      (∀ p ∈ players, some p.id ∈ st.view.playersContainer.map (fun n => n.playerId)) →
      (∀ q, q.id ∉ (players.map fun p => p.id) → Shows st.view.playersContainer cur log q →
        Shows (players.foldl (patchPlayer cur log) st).view.playersContainer cur log q) ∧
      (∀ p ∈ players,
        Shows (players.foldl (patchPlayer cur log) st).view.playersContainer cur log p) := by
  intro players
  induction players with
  | nil => intro st _ _; exact ⟨fun q _ h => h, by simp⟩
  | cons p ps ih =>
    intro st hnd hmem
    obtain ⟨d, hd, hid⟩ := find?_playerId_of_mem p.id _ (hmem p (List.mem_cons_self _ _))
    have hstep := patchPlayer_found cur log st p d hd
    have hnd' : (ps.map fun p => p.id).Nodup := (List.nodup_cons.1 hnd).2
    have hpnot : p.id ∉ ps.map fun p => p.id := (List.nodup_cons.1 hnd).1
    have hupd : (updatePlayerElement d p cur log).1.playerId = some p.id := by
      rw [updatePlayerElement_playerId, hid]
    have hC : (patchPlayer cur log st p).view.playersContainer
        = updateFirst (fun n => n.playerId == some p.id)
            (fun _ => (updatePlayerElement d p cur log).1) st.view.playersContainer := by
      rw [hstep]
    have hp : Shows (patchPlayer cur log st p).view.playersContainer cur log p := by
      refine ⟨(updatePlayerElement d p cur log).1, ?_, updatePlayerElement_className _ _ _ _,
        updatePlayerElement_lastHtml _ _ _ _⟩
      rw [hC]
      exact find?_updateFirst_same _ _ (by simp [hupd]) _ d hd
    have hother : ∀ q, q.id ≠ p.id → Shows st.view.playersContainer cur log q →
        Shows (patchPlayer cur log st p).view.playersContainer cur log q := by
      rintro q hne ⟨e, he, hrest⟩
      refine ⟨e, ?_, hrest⟩
      rw [hC, find?_updateFirst_other _ _ _ _ _ _]
      · exact he
      · intro n hn
        have hn' : n.playerId = some p.id := by simpa using hn
        simp only [hn', beq_eq_false_iff_ne, ne_eq, Option.some.injEq]
        exact fun h => hne h.symm
      · simp only [hupd, beq_eq_false_iff_ne, ne_eq, Option.some.injEq]
        exact fun h => hne h.symm
    have hids := (foldl_patchPlayer_stable cur log [p] st (by
      intro q hq
      rw [List.mem_singleton.1 hq]
      exact hmem p (List.mem_cons_self _ _))).2.1
    simp only [List.foldl_cons, List.foldl_nil] at hids
    obtain ⟨ihother, ihall⟩ := ih (patchPlayer cur log st p) hnd' (by
      intro q hq
      rw [hids]
      exact hmem q (List.mem_cons_of_mem _ hq))
    rw [List.foldl_cons]
    constructor
    · intro q hq hs
      have hq1 : q.id ≠ p.id := fun h => hq (by simp [h])
      have hq2 : q.id ∉ ps.map fun p => p.id := fun h => hq (by
        simp only [List.map_cons, List.mem_cons]
        exact Or.inr h)
      exact ihother q hq2 (hother q hq1 hs)
    · intro q hq
      rcases List.mem_cons.1 hq with rfl | hq
      · exact ihother _ hpnot hp
      · exact ihall q hq

/-- After `renderPlayers` on a list with distinct ids, in a container that has another size
than the list or already an element for each of its players, every player has an element
that shows it and the container has the size of the list. -/
theorem renderPlayers_shows (st : State) (players : List Player) (cur : Option String)
    (log : Option (List String))
    (hdistinct : (players.map fun p => p.id).Nodup)
    (haligned : st.view.playersContainer.length = players.length →
      ∀ p ∈ players, some p.id ∈ st.view.playersContainer.map (fun n => n.playerId)) :
    (∀ p ∈ players, Shows (renderPlayers st players cur log).view.playersContainer cur log p) ∧
    (renderPlayers st players cur log).view.playersContainer.length = players.length := by
  unfold renderPlayers
  by_cases hlen : st.view.playersContainer.length = players.length
  · rw [if_neg (by simpa using hlen)]
    have h := foldl_patchPlayer_shows cur log players st hdistinct (haligned hlen)
    have hs := foldl_patchPlayer_stable cur log players st (haligned hlen)
    refine ⟨h.2, ?_⟩
    have := congrArg List.length hs.2.1
    simp only [List.length_map] at this
    omega
  · rw [if_pos (by simpa using hlen)]
    have h := foldl_appendPlayer_shows cur log players
      { st with view := { st.view with playersContainer := [] },
                trace := DomWrite.playersCleared :: st.trace } hdistinct (by simp)
    refine ⟨h.2.1, ?_⟩
    rw [h.2.2]
    simp

/-- The second loop of `renderPlayers`, when every player has an element that shows it:
nothing but class names is assigned and the state is otherwise the same. -/
theorem foldl_patchPlayer_shown (cur : Option String) (log : Option (List String)) :
    ∀ (players : List Player) (st : State),
      (∀ p ∈ players, Shows st.view.playersContainer cur log p) →
      ∃ new : List DomWrite,
        players.foldl (patchPlayer cur log) st = { st with trace := new ++ st.trace } ∧
        ∀ w ∈ new, ∃ n, w = DomWrite.playerClass n := by
  intro players
  induction players with
  | nil => intro st _; exact ⟨[], rfl, by simp⟩
  | cons p ps ih =>
    intro st h
    obtain ⟨n, hn, hcls, hhtml⟩ := h p (List.mem_cons_self _ _)
    have hstep : patchPlayer cur log st p
        = { st with trace := [DomWrite.playerClass n.node] ++ st.trace } := by
      rw [patchPlayer_found cur log st p n hn, updatePlayerElement_shown n p cur log hcls hhtml]
      dsimp only
      rw [updateFirst_self _ _ n hn]
    obtain ⟨new, hfold, hnew⟩ := ih (patchPlayer cur log st p) (by
      intro q hq
      rw [hstep]
      exact h q (List.mem_cons_of_mem _ hq))
    refine ⟨new ++ [DomWrite.playerClass n.node], ?_, ?_⟩
    · rw [List.foldl_cons, hfold, hstep]
      simp
    · intro w hw
      rcases List.mem_append.1 hw with hw | hw
      · exact hnew w hw
      · exact ⟨n.node, List.mem_singleton.1 hw⟩

end Game

/-! ## Reconciling the same snapshot twice -/

namespace Game

theorem renderGameState_eq (st : State) (state : GameState) :
    renderGameState st state =
      { renderActionLog (renderStartBtn (renderPlayers (renderCommunity (renderCurrentBet
          (renderPot (renderPhase (announceGameWinner (announceHandWinner
            (if st.isHumanPlayer then updateHumanPlayerUI st state else st) state) state)
              state) state) state) state) state.players state.current_player_id
                state.action_log) state) state with lastGameState := some state } := rfl

theorem frame_container {K : DomWrite → Prop} {a b : State} (h : Frame K a b) :
    b.view.playersContainer = a.view.playersContainer := by
  have := h.2.1
  unfold gatedView at this
  simp only [Prod.mk.injEq] at this
  exact this.2.2.2.2.2.1

theorem humanBlock_frame (st : State) (state : GameState) :
    Frame (fun w => w.gated = false ∧ w.createsGameOverlay = false) st
      (if st.isHumanPlayer then updateHumanPlayerUI st state else st) := by
  split
  · exact updateHumanPlayerUI_frame st state
  · exact frame_refl _ _

/-- The blocks of `renderGameState` that precede `renderPlayers` keep the player elements. -/
theorem beforePlayers_container (st : State) (state : GameState) :
    (renderCommunity (renderCurrentBet (renderPot (renderPhase (announceGameWinner
      (announceHandWinner (if st.isHumanPlayer then updateHumanPlayerUI st state else st)
        state) state) state) state) state) state).view.playersContainer
      = st.view.playersContainer := by
  rw [(renderCommunity_touch _ state).2.1, (renderCurrentBet_touch _ state).2.1,
    (renderPot_touch _ state).2.1, (renderPhase_touch _ state).2.1,
    frame_container (announceGameWinner_frame _ state),
    frame_container (announceHandWinner_frame _ state),
    frame_container (humanBlock_frame st state)]

/-- After `renderGameState` on a snapshot with distinct player ids, in a container that has
another size than the player list or already an element for each player, the baseline is
the snapshot, every player has an element that shows it and the container has the size of
the list. -/
theorem renderGameState_leaves (st : State) (state : GameState)
    (hdistinct : (state.players.map fun p => p.id).Nodup)
    (haligned : st.view.playersContainer.length = state.players.length →
      ∀ p ∈ state.players, some p.id ∈ st.view.playersContainer.map (fun n => n.playerId)) :
    (renderGameState st state).lastGameState = some state ∧
    (∀ p ∈ state.players,
      Shows (renderGameState st state).view.playersContainer state.current_player_id
        state.action_log p) ∧
    (renderGameState st state).view.playersContainer.length = state.players.length := by
  rw [renderGameState_eq]
  have hc := beforePlayers_container st state
  generalize (renderCommunity (renderCurrentBet (renderPot (renderPhase (announceGameWinner
      (announceHandWinner (if st.isHumanPlayer then updateHumanPlayerUI st state else st)
        state) state) state) state) state) state) = s7 at hc
  have hshows := renderPlayers_shows s7 state.players state.current_player_id state.action_log
    hdistinct (by rw [hc]; exact haligned)
  generalize renderPlayers s7 state.players state.current_player_id state.action_log = s8
    at hshows
  have h9 := frame_container (renderStartBtn_frame s8 state)
  have h10 := (renderActionLog_touch (renderStartBtn s8 state) state).2.1
  refine ⟨rfl, ?_, ?_⟩
  · intro p hp
    show Shows (renderActionLog (renderStartBtn s8 state) state).view.playersContainer _ _ p
    rw [h10, h9]
    exact hshows.1 p hp
  · show (renderActionLog (renderStartBtn s8 state) state).view.playersContainer.length = _
    rw [h10, h9]
    exact hshows.2

/-- `renderPlayers` on a container in which every incoming player is shown: only class
names are assigned. -/
theorem renderPlayers_shown (st : State) (players : List Player) (cur : Option String)
    (log : Option (List String))
    (hshows : ∀ p ∈ players, Shows st.view.playersContainer cur log p)
    (hlen : st.view.playersContainer.length = players.length) :
    Frame (fun w => w.gated = false) st (renderPlayers st players cur log) := by
  unfold renderPlayers
  rw [if_neg (by simpa using hlen)]
  obtain ⟨new, hfold, hnew⟩ := foldl_patchPlayer_shown cur log players st hshows
  rw [hfold]
  refine ⟨⟨new, rfl, ?_⟩, rfl, rfl, rfl⟩
  intro w hw
  obtain ⟨n, rfl⟩ := hnew w hw
  rfl

/-- C7 (amended). Idempotent diffing: for every snapshot whose player ids are distinct and
stand for themselves in the selector `[data-player-id="..."]`, rendered in a state whose
player container has another size than the player list or already holds an element for
each of its players, a second `renderGameState` of the same snapshot right after the first
makes no write to the header fields, the community cards or the action log, removes or
creates no player element and rewrites no player markup, and leaves those parts of the view
as they were. -/
theorem renderGameState_second_pass (st : State) (state : GameState)
    (hdistinct : (state.players.map fun p => p.id).Nodup)
    (hsafe : ∀ p ∈ state.players, Js.selectorSafe p.id = true)
    (haligned : st.view.playersContainer.length = state.players.length →
      ∀ p ∈ state.players, some p.id ∈ st.view.playersContainer.map (fun n => n.playerId)) :
    (∀ w ∈ (renderGameState { renderGameState st state with trace := [] } state).trace,
      w.gated = false) ∧
    gatedView (renderGameState { renderGameState st state with trace := [] } state)
      = gatedView (renderGameState st state) := by
  obtain ⟨hbase, hshows, hlen⟩ := renderGameState_leaves st state hdistinct haligned
  generalize renderGameState st state = first at hbase hshows hlen
  have hgv : gatedView { first with trace := [] } = gatedView first := rfl
  have hbase0 : ({ first with trace := [] } : State).lastGameState = some state := hbase
  have htr0 : ({ first with trace := [] } : State).trace = [] := rfl
  generalize ({ first with trace := [] } : State) = t0 at hgv hbase0 htr0
  have hplain : ∀ w : DomWrite, (w.gated = false ∧ w.createsGameOverlay = false) →
      w.gated = false := fun w h => h.1
  have f1 : Frame (fun w => w.gated = false) t0
      (if t0.isHumanPlayer then updateHumanPlayerUI t0 state else t0) :=
    frame_mono hplain (humanBlock_frame t0 state)
  have f2 := frame_trans f1 (frame_mono hplain (announceHandWinner_frame _ state))
  have f3 := frame_trans f2 (announceGameWinner_frame _ state)
  obtain ⟨t3, ht3⟩ : ∃ t3, t3 = announceGameWinner (announceHandWinner
      (if t0.isHumanPlayer then updateHumanPlayerUI t0 state else t0) state) state := ⟨_, rfl⟩
  rw [← ht3] at f3
  have hb3 : t3.lastGameState = some state := f3.2.2.1.trans hbase0
  have hc3 : t3.view.playersContainer = first.view.playersContainer := by
    have h1 := frame_container f3
    have h2 := congrArg (fun g => g.2.2.2.2.2.1) hgv
    simp only [gatedView] at h2
    rw [h1, h2]
  have f8 := frame_trans f3 (renderPlayers_shown t3 state.players state.current_player_id
    state.action_log (by rw [hc3]; exact hshows) (by rw [hc3]; exact hlen))
  have f9 := frame_trans f8 (frame_mono hplain (renderStartBtn_frame _ state))
  obtain ⟨t9, ht9⟩ : ∃ t9, t9 = renderStartBtn (renderPlayers t3 state.players
      state.current_player_id state.action_log) state := ⟨_, rfl⟩
  rw [← ht9] at f9
  have hb9 : t9.lastGameState = some state := f9.2.2.1.trans hbase0
  have hfinal : renderGameState t0 state = { t9 with lastGameState := some state } := by
    rw [renderGameState_eq, ← ht3, renderPhase_same t3 state hb3, renderPot_same t3 state hb3,
      renderCurrentBet_same t3 state hb3, renderCommunity_same t3 state hb3, ← ht9,
      renderActionLog_same t9 state hb9]
  rw [hfinal]
  constructor
  · intro w hw
    obtain ⟨new, hnew, hk⟩ := f9.1
    have hw' : w ∈ t9.trace := hw
    rw [hnew, htr0, List.append_nil] at hw'
    exact hk w hw'
  · have h9 : gatedView ({ t9 with lastGameState := some state } : State) = gatedView t9 := rfl
    rw [h9, f9.2.1, hgv]

/-- Witness for C7: Alice and Bob on the flop, rendered twice from the initial state. -/
theorem renderGameState_second_pass_witness :
    gatedView (renderGameState
        { renderGameState State.initial
            { snapshotG1 with phase := "flop", pot := 60,
                              players := [seat "a" "Alice", seat "b" "Bob"] } with trace := [] }
        { snapshotG1 with phase := "flop", pot := 60,
                          players := [seat "a" "Alice", seat "b" "Bob"] })
      = gatedView (renderGameState State.initial
        { snapshotG1 with phase := "flop", pot := 60,
                          players := [seat "a" "Alice", seat "b" "Bob"] }) :=
  (renderGameState_second_pass State.initial
    { snapshotG1 with phase := "flop", pot := 60,
                      players := [seat "a" "Alice", seat "b" "Bob"] }
    (by decide) (by decide) (by decide)).2

end Game

/-! ## The dismissal latch -/

namespace Game

theorem keepsLatch_refl (st : State) : KeepsLatch st st := ⟨extends_refl _ st, rfl⟩

theorem keepsLatch_trans {a b c : State} (h1 : KeepsLatch a b) (h2 : KeepsLatch b c) :
    KeepsLatch a c :=
  ⟨extends_trans h1.1 h2.1, h2.2.trans h1.2⟩

theorem frame_keepsLatch {a b : State}
    (h : Frame (fun w => w.gated = false ∧ w.createsGameOverlay = false) a b) :
    KeepsLatch a b :=
  ⟨extends_mono (fun w hw => hw.2) h.1, h.2.2.2⟩

theorem touch_keepsLatch {a b : State} (h : Touch a b) : KeepsLatch a b := ⟨h.1, h.2.2.2⟩

theorem appendPlayer_keepsLatch (st : State) (p : Player) (cur : Option String)
    (log : Option (List String)) : KeepsLatch st (appendPlayer st p cur log) := by
  refine ⟨⟨DomWrite.playerAppended st.nextId :: (createPlayerElement st.nextId p cur log).2,
    rfl, ?_⟩, rfl⟩
  intro w hw
  rcases List.mem_cons.1 hw with rfl | hw
  · rfl
  · exact updatePlayerElement_writes _ p cur log w hw

theorem patchPlayer_keepsLatch (cur : Option String) (log : Option (List String)) (st : State)
    (p : Player) : KeepsLatch st (patchPlayer cur log st p) := by
  cases hf : st.view.playersContainer.find? (fun n => n.playerId == some p.id) with
  | none =>
    have : patchPlayer cur log st p = appendPlayer st p cur log := by
      unfold patchPlayer
      rw [hf]
    rw [this]
    exact appendPlayer_keepsLatch st p cur log
  | some d =>
    rw [patchPlayer_found cur log st p d hf]
    exact ⟨⟨(updatePlayerElement d p cur log).2, rfl, updatePlayerElement_writes d p cur log⟩, rfl⟩

theorem renderPlayers_keepsLatch (st : State) (players : List Player) (cur : Option String)
    (log : Option (List String)) : KeepsLatch st (renderPlayers st players cur log) := by
  have happend : ∀ (ps : List Player) (s : State),
      KeepsLatch s (ps.foldl (fun s p => appendPlayer s p cur log) s) := by
    intro ps
    induction ps with
    | nil => intro s; exact keepsLatch_refl s
    | cons p ps ih => intro s; exact keepsLatch_trans (appendPlayer_keepsLatch s p cur log) (ih _)
  have hpatch : ∀ (ps : List Player) (s : State),
      KeepsLatch s (ps.foldl (patchPlayer cur log) s) := by
    intro ps
    induction ps with
    | nil => intro s; exact keepsLatch_refl s
    | cons p ps ih => intro s; exact keepsLatch_trans (patchPlayer_keepsLatch cur log s p) (ih _)
  unfold renderPlayers
  split
  · have hclear : KeepsLatch st
        { st with view := { st.view with playersContainer := [] },
                  trace := DomWrite.playersCleared :: st.trace } :=
      ⟨⟨[DomWrite.playersCleared], rfl, by simp [DomWrite.createsGameOverlay]⟩, rfl⟩
    exact keepsLatch_trans hclear (happend _ _)
  · exact hpatch _ _

/-- Once the latch is set, `renderGameState` creates no game overlay and keeps the latch. -/
theorem renderGameState_keepsLatch (st : State) (state : GameState)
    (h : st.hasDismissedWinnerPopup = true) : KeepsLatch st (renderGameState st state) := by
  rw [renderGameState_eq]
  have k1 : KeepsLatch st (if st.isHumanPlayer then updateHumanPlayerUI st state else st) :=
    frame_keepsLatch (humanBlock_frame st state)
  have k2 := keepsLatch_trans k1 (frame_keepsLatch (announceHandWinner_frame _ state))
  have hl2 : (announceHandWinner (if st.isHumanPlayer then updateHumanPlayerUI st state else st)
      state).hasDismissedWinnerPopup = true := k2.2.trans h
  rw [announceGameWinner_latched _ state hl2]
  have k4 := keepsLatch_trans k2 (touch_keepsLatch (renderPhase_touch _ state))
  have k5 := keepsLatch_trans k4 (touch_keepsLatch (renderPot_touch _ state))
  have k6 := keepsLatch_trans k5 (touch_keepsLatch (renderCurrentBet_touch _ state))
  have k7 := keepsLatch_trans k6 (touch_keepsLatch (renderCommunity_touch _ state))
  have k8 := keepsLatch_trans k7 (renderPlayers_keepsLatch _ state.players
    state.current_player_id state.action_log)
  have k9 := keepsLatch_trans k8 (frame_keepsLatch (renderStartBtn_frame _ state))
  have k10 := keepsLatch_trans k9 (touch_keepsLatch (renderActionLog_touch _ state))
  exact ⟨extends_of_trace_eq k10.1 rfl, k10.2⟩

theorem countdownTick_keepsLatch (st : State) (interval : Nat) :
    KeepsLatch st (countdownTick st interval) := by
  unfold countdownTick
  split
  · exact keepsLatch_refl st
  · rename_i c _
    dsimp only
    cases hel : c.countdownEl with
    | none =>
      dsimp only
      split
      · exact ⟨⟨[DomWrite.overlayRemoved c.overlay], rfl,
          by simp [DomWrite.createsGameOverlay]⟩, rfl⟩
      · exact ⟨⟨[], rfl, by simp⟩, rfl⟩
    | some el =>
      dsimp only
      split
      · exact ⟨⟨[DomWrite.overlayRemoved c.overlay, DomWrite.overlayCountdown el], rfl,
          by simp [DomWrite.createsGameOverlay]⟩, rfl⟩
      · exact ⟨⟨[DomWrite.overlayCountdown el], rfl,
          by simp [DomWrite.createsGameOverlay]⟩, rfl⟩

theorem removeGameOverlay_keepsLatch (st : State) : KeepsLatch st (removeGameOverlay st) := by
  unfold removeGameOverlay
  split
  · rename_i overlay _
    exact ⟨⟨[DomWrite.overlayRemoved overlay.node], rfl,
      by simp [DomWrite.createsGameOverlay]⟩, rfl⟩
  · exact keepsLatch_refl st

theorem dismissWinnerPopup_latch (st : State) :
    Extends (fun w => w.createsGameOverlay = false) st (dismissWinnerPopup st) ∧
    (dismissWinnerPopup st).hasDismissedWinnerPopup = true := by
  have h := (removeGameOverlay_keepsLatch st).1
  unfold dismissWinnerPopup toggleSidebar
  dsimp only
  split
  · refine ⟨extends_trans h ⟨[DomWrite.sidebar], rfl, by simp [DomWrite.createsGameOverlay]⟩, rfl⟩
  · exact ⟨extends_of_trace_eq h rfl, rfl⟩

theorem stopPolling_keepsLatch (st : State) : KeepsLatch st (stopPolling st) := by
  unfold stopPolling
  split
  · exact ⟨⟨[], rfl, by simp⟩, rfl⟩
  · exact keepsLatch_refl st

theorem updateGameState_keepsLatch (st : State) : KeepsLatch st (updateGameState st).1 := by
  unfold updateGameState
  split
  · exact keepsLatch_refl st
  · exact ⟨⟨[], rfl, by simp⟩, rfl⟩

theorem startPolling_keepsLatch (st : State) : KeepsLatch st (startPolling st) := by
  have h := keepsLatch_trans (stopPolling_keepsLatch st) (updateGameState_keepsLatch (stopPolling st))
  exact ⟨extends_of_trace_eq h.1 rfl, h.2⟩

theorem viewGame_keepsLatch (st : State) (gameId : String) :
    KeepsLatch st (viewGame st gameId) := by
  unfold viewGame
  refine keepsLatch_trans ?_ (startPolling_keepsLatch _)
  exact ⟨⟨[DomWrite.pageSection "gameInfoBar", DomWrite.pageSection "headerControls",
    DomWrite.pageSection "gameView", DomWrite.pageSection "lobby"], rfl,
    by simp [DomWrite.createsGameOverlay]⟩, rfl⟩

theorem backToLobby_keepsLatch (st : State) : KeepsLatch st (backToLobby st) := by
  have h := stopPolling_keepsLatch st
  unfold backToLobby
  obtain ⟨⟨new, hnew, hk⟩, hl⟩ := h
  refine ⟨⟨[DomWrite.pageSection "gameInfoBar", DomWrite.pageSection "headerControls",
    DomWrite.pageSection "lobby", DomWrite.pageSection "gameView",
    DomWrite.pageSection "humanPlayerControls"] ++ new, ?_, ?_⟩, hl⟩
  · show _ :: _ :: _ :: _ :: _ :: (stopPolling st).trace = _
    rw [hnew]
    rfl
  · intro w hw
    rcases List.mem_append.1 hw with hw | hw
    · simp only [List.mem_cons, List.mem_singleton, List.not_mem_nil, or_false] at hw
      rcases hw with rfl | rfl | rfl | rfl | rfl <;> rfl
    · exact hk w hw

/-- Once the latch is set, no call creates a game overlay or clears the latch. -/
theorem step_latched (st : State) (e : Event) (h : st.hasDismissedWinnerPopup = true) :
    Extends (fun w => w.createsGameOverlay = false) st (step st e) ∧
    (step st e).hasDismissedWinnerPopup = true := by
  cases e with
  | renderGameState state =>
    have k := renderGameState_keepsLatch st state h
    exact ⟨k.1, k.2.trans h⟩
  | countdownTick interval =>
    have k := countdownTick_keepsLatch st interval
    exact ⟨k.1, k.2.trans h⟩
  | dismissWinnerPopup => exact dismissWinnerPopup_latch st
  | backToLobby =>
    have k := backToLobby_keepsLatch st
    exact ⟨k.1, k.2.trans h⟩
  | viewGame gameId =>
    have k := viewGame_keepsLatch st gameId
    exact ⟨k.1, k.2.trans h⟩

theorem run_latched (events : List Event) :
    ∀ st : State, st.hasDismissedWinnerPopup = true →
      Extends (fun w => w.createsGameOverlay = false) st (run st events) ∧
      (run st events).hasDismissedWinnerPopup = true := by
  induction events with
  | nil => intro st h; exact ⟨extends_refl _ st, h⟩
  | cons e es ih =>
    intro st h
    obtain ⟨h1, h2⟩ := step_latched st e h
    obtain ⟨h3, h4⟩ := ih (step st e) h2
    exact ⟨extends_trans h1 h3, h4⟩

/-- C4. Overlay latch: once `dismissWinnerPopup` has run, for every later sequence of calls
of the same session (`renderGameState` with any snapshots, finished ones included,
countdown ticks, further dismissals; no `backToLobby` in between), the latch stays set and
no game-winner overlay is created: the writes made after the dismissal contain none. The
proof does not use the proviso on `backToLobby`, which leaves the latch as it is. -/
theorem overlay_latch (st : State) (events : List Event)
    (hsession : ∀ e ∈ events, e ≠ Event.backToLobby) :
    (run { dismissWinnerPopup st with trace := [] } events).hasDismissedWinnerPopup = true ∧
    ∀ w ∈ (run { dismissWinnerPopup st with trace := [] } events).trace,
      w.createsGameOverlay = false := by
  have hl : ({ dismissWinnerPopup st with trace := [] } : State).hasDismissedWinnerPopup = true :=
    (dismissWinnerPopup_latch st).2
  obtain ⟨⟨new, hnew, hk⟩, hlatch⟩ := run_latched events _ hl
  refine ⟨hlatch, ?_⟩
  intro w hw
  rw [hnew] at hw
  exact hk w (by simpa using hw)

/-- Witness for C4: the game overlay of `g1` is dismissed, then two more finished
snapshots arrive; the latch is still set and no overlay is in the view. -/
theorem overlay_latch_witness :
    (run { dismissWinnerPopup (run State.initial
          [Event.viewGame "g1",
           Event.renderGameState { snapshotG1 with game_finished := true }]) with trace := [] }
        [Event.renderGameState { snapshotG1 with game_finished := true },
         Event.renderGameState { snapshotG1 with game_finished := true }]).view.overlays = [] ∧
    (run { dismissWinnerPopup (run State.initial
          [Event.viewGame "g1",
           Event.renderGameState { snapshotG1 with game_finished := true }]) with trace := [] }
        [Event.renderGameState { snapshotG1 with game_finished := true },
         Event.renderGameState { snapshotG1 with game_finished := true }]).hasDismissedWinnerPopup
      = true :=
  ⟨by decide,
   (overlay_latch (run State.initial
      [Event.viewGame "g1", Event.renderGameState { snapshotG1 with game_finished := true }])
    [Event.renderGameState { snapshotG1 with game_finished := true },
     Event.renderGameState { snapshotG1 with game_finished := true }]
    (by decide)).1⟩

end Game
/-! ## Error responses and the polling scheduler -/

namespace Game

theorem updateGameState_captures (st : State) (expectedGameId : String)
    (h : (updateGameState st).2 = some expectedGameId) :
    st.currentGameId = some expectedGameId ∧ expectedGameId ≠ "" := by
  unfold updateGameState at h
  cases hc : st.currentGameId with
  | none => simp [hc, Js.truthy] at h
  | some g =>
    by_cases hg : g = ""
    · simp [hc, Js.truthy, hg] at h
    · simp [hc, Js.truthy, hg] at h
      rw [← h]
      exact ⟨rfl, hg⟩

theorem backToLobby_currentGameId (st : State) : (backToLobby st).currentGameId = none := rfl

/-- C11. `updateGameState`, for every poll answered with an error status: on status 400
`backToLobby` runs (after the log entry) if the active session id still equals the id the
request was issued for, and a later 400 for the same request id then changes nothing;
it does not run if the user has since switched session; every other error status leaves
the state as it was, and nothing is rendered. -/
theorem updateGameState_session_not_found (issuedIn arrivedIn : State)
    (expectedGameId : String) (status : Nat) (timestamp later : String)
    (hissued : (updateGameState issuedIn).2 = some expectedGameId) :
    (status = 400 → arrivedIn.currentGameId = issuedIn.currentGameId →
      updateGameStateResume arrivedIn expectedGameId (Response.error status) timestamp =
        backToLobby (addLogEntry arrivedIn timestamp "Partie terminée ou introuvable" "system") ∧
      updateGameStateResume
          (updateGameStateResume arrivedIn expectedGameId (Response.error status) timestamp)
          expectedGameId (Response.error status) later =
        updateGameStateResume arrivedIn expectedGameId (Response.error status) timestamp) ∧
    (status = 400 → arrivedIn.currentGameId ≠ issuedIn.currentGameId →
      updateGameStateResume arrivedIn expectedGameId (Response.error status) timestamp =
        arrivedIn) ∧
    (status ≠ 400 →
      updateGameStateResume arrivedIn expectedGameId (Response.error status) timestamp =
        arrivedIn) := by
  have hcur := (updateGameState_captures issuedIn expectedGameId hissued).1
  rw [hcur]
  refine ⟨?_, ?_, ?_⟩
  · intro hs h
    subst hs
    have h1 : updateGameStateResume arrivedIn expectedGameId (Response.error 400) timestamp =
        backToLobby (addLogEntry arrivedIn timestamp "Partie terminée ou introuvable" "system") := by
      unfold updateGameStateResume
      simp [h]
    refine ⟨h1, ?_⟩
    rw [h1]
    unfold updateGameStateResume
    simp [backToLobby_currentGameId]
  · intro hs h
    subst hs
    unfold updateGameStateResume
    simp [h]
  · intro hs
    unfold updateGameStateResume
    simp [hs]

/-- Witness for C11: the poll of `g1` is answered 400 while `g1` is still viewed: the
client is back in the lobby. -/
theorem updateGameState_session_not_found_witness :
    (updateGameStateResume (viewGame State.initial "g1") "g1" (Response.error 400)
      "12:00:00").view.lobbyDisplay = "block" := by
  rw [((updateGameState_session_not_found (viewGame State.initial "g1")
    (viewGame State.initial "g1") "g1" 400 "12:00:00" "12:00:02" (by decide)).1 rfl rfl).1]
  decide

theorem stopPolling_idle (st : State) (h : st.pollInterval = none) : stopPolling st = st := by
  unfold stopPolling
  rw [h]

theorem stopPolling_timers (st : State) (h : st.pollTimers = st.pollInterval.toList) :
    (stopPolling st).pollInterval = none ∧ (stopPolling st).pollTimers = [] ∧
    (stopPolling st).nextId = st.nextId := by
  unfold stopPolling
  cases hp : st.pollInterval with
  | none =>
    rw [hp] at h
    exact ⟨hp, by simpa using h, rfl⟩
  | some handle =>
    rw [hp] at h
    dsimp only
    refine ⟨rfl, ?_, rfl⟩
    rw [h]
    simp

theorem updateGameState_timers (st : State) :
    (updateGameState st).1.pollInterval = st.pollInterval ∧
    (updateGameState st).1.pollTimers = st.pollTimers ∧
    (updateGameState st).1.nextId = st.nextId := by
  unfold updateGameState
  split <;> exact ⟨rfl, rfl, rfl⟩

theorem startPolling_timers (st : State) (h : st.pollTimers = st.pollInterval.toList) :
    (startPolling st).pollInterval = some st.nextId ∧
    (startPolling st).pollTimers = [st.nextId] := by
  obtain ⟨_, h2, h3⟩ := stopPolling_timers st h
  obtain ⟨_, u2, u3⟩ := updateGameState_timers (stopPolling st)
  unfold startPolling
  dsimp only
  rw [u2, u3, h2, h3]
  exact ⟨rfl, rfl⟩

theorem pollRun_invariant (st : State) (hidle : st.pollInterval = none ∧ st.pollTimers = []) :
    ∀ calls : List PollCall,
      (pollRun st calls).pollTimers = (pollRun st calls).pollInterval.toList ∧
      ((pollRun st calls).pollInterval.isSome ↔ calls.getLast? = some PollCall.startPolling) := by
  intro calls
  induction calls using List.reverseRecOn with
  | nil =>
    simp [pollRun, hidle.1, hidle.2]
  | append_singleton calls c ih =>
    have hrun : pollRun st (calls ++ [c]) = pollStep (pollRun st calls) c := by
      simp [pollRun, List.foldl_append]
    rw [hrun]
    cases c with
    | startPolling =>
      obtain ⟨h1, h2⟩ := startPolling_timers _ ih.1
      simp [pollStep, h1, h2]
    | stopPolling =>
      obtain ⟨h1, h2, _⟩ := stopPolling_timers _ ih.1
      simp [pollStep, h1, h2]

/-- C12. Polling scheduler invariant: starting with no timer, after every sequence of
`startPolling` and `stopPolling` calls there is at most one live interval timer, there
is exactly one (the one held in `pollInterval`) iff the last call was `startPolling`, and
`stopPolling` called when not running leaves the state unchanged (calling it twice equals
calling it once). -/
theorem polling_scheduler_invariant (st : State) (calls : List PollCall)
    (hidle : st.pollInterval = none ∧ st.pollTimers = []) :
    (pollRun st calls).pollTimers.length ≤ 1 ∧
    (pollRun st calls).pollTimers = (pollRun st calls).pollInterval.toList ∧
    ((pollRun st calls).pollTimers.length = 1 ↔
      calls.getLast? = some PollCall.startPolling) ∧
    ((pollRun st calls).pollInterval = none →
      stopPolling (pollRun st calls) = pollRun st calls) ∧
    stopPolling (stopPolling (pollRun st calls)) = stopPolling (pollRun st calls) := by
  obtain ⟨hinv, hlast⟩ := pollRun_invariant st hidle calls
  refine ⟨?_, hinv, ?_, stopPolling_idle _, ?_⟩
  · rw [hinv]
    cases (pollRun st calls).pollInterval <;> simp
  · rw [← hlast, hinv]
    cases (pollRun st calls).pollInterval <;> simp
  · exact stopPolling_idle _ (stopPolling_timers _ hinv).1

/-- Witness for C12: start, start, stop, start from the initial state leaves the single
timer of the last start. -/
theorem polling_scheduler_invariant_witness :
    (pollRun State.initial [PollCall.startPolling, PollCall.startPolling,
      PollCall.stopPolling, PollCall.startPolling]).pollTimers = [3] := by
  have h := (polling_scheduler_invariant State.initial [PollCall.startPolling,
    PollCall.startPolling, PollCall.stopPolling, PollCall.startPolling] ⟨rfl, rfl⟩).2.1
  rw [h]
  decide

/-- C19 (amended). The client has no guard on requests in flight: whenever
`currentGameId` is set, `updateGameState` sends a state request for it whatever is in
flight, and so do the immediate call of `startPolling`, every tick of a live interval and
the refresh after an accepted action. -/
theorem fetch_started_whatever_in_flight (st : State) (gameId : String) (handle : Nat)
    (hcurrent : st.currentGameId = some gameId) (hid : gameId ≠ "")
    (hlive : handle ∈ st.pollTimers) :
    (updateGameState st).1.inFlight = st.inFlight ++
      [{ expectedGameId := gameId,
         playerId := if Js.truthy st.humanPlayerId then st.humanPlayerId.getD ""
                     else "spectator" }] ∧
    (pollTick st handle).inFlight = (updateGameState st).1.inFlight ∧
    (refreshAfterAction st).inFlight = (updateGameState st).1.inFlight ∧
    (startPolling st).inFlight = (updateGameState st).1.inFlight := by
  have hu : (updateGameState st).1.inFlight = st.inFlight ++
      [{ expectedGameId := gameId,
         playerId := if Js.truthy st.humanPlayerId then st.humanPlayerId.getD ""
                     else "spectator" }] := by
    unfold updateGameState
    simp [hcurrent, Js.truthy, hid]
  refine ⟨hu, ?_, rfl, ?_⟩
  · unfold pollTick
    rw [if_pos hlive]
  · rw [hu]
    unfold startPolling stopPolling updateGameState
    cases hp : st.pollInterval <;> simp [hcurrent, Js.truthy, hid]

/-- Witness for C19: while the first request for `g1` is in flight, the tick of the
interval sends a second one. -/
theorem fetch_started_whatever_in_flight_witness :
    (pollTick (viewGame State.initial "g1") 1).inFlight =
      [{ expectedGameId := "g1", playerId := "spectator" },
       { expectedGameId := "g1", playerId := "spectator" }] := by
  rw [(fetch_started_whatever_in_flight (viewGame State.initial "g1") "g1" 1 rfl (by decide)
    (by decide)).2.1,
    (fetch_started_whatever_in_flight (viewGame State.initial "g1") "g1" 1 rfl (by decide)
    (by decide)).1]
  decide

/-- C19, counterexample. After `viewGame('g1')` one request for `g1` is in flight; the
refresh that follows an accepted action starts a second request for `g1` before the first
is answered. -/
theorem overlapping_fetches :
    (viewGame State.initial "g1").inFlight =
      [{ expectedGameId := "g1", playerId := "spectator" }] ∧
    (refreshAfterAction (viewGame State.initial "g1")).inFlight =
      [{ expectedGameId := "g1", playerId := "spectator" },
       { expectedGameId := "g1", playerId := "spectator" }] := by
  decide

end Game

/-! ## The turn loop of the bots -/

theorem ite_some_ne_none {α : Type} (c : Prop) [Decidable c] (a b : α) :
    (if c then some a else some b) ≠ none := by
  split <;> simp

theorem conservative_decideAction_none_iff (playerId : Option String)
    (state : ConservativeBot.GameState) :
    ConservativeBot.decideAction playerId state = none ↔ state.valid_actions.getD [] = [] := by
  unfold ConservativeBot.decideAction
  dsimp only
  constructor
  · intro h
    by_contra hne
    have hlen : ¬ (state.valid_actions.getD []).length = 0 := fun hl =>
      hne (List.length_eq_zero.1 hl)
    rw [if_neg hlen] at h
    by_cases h1 : (state.valid_actions.getD []).contains "check" = true
    · rw [if_pos h1] at h
      cases h
    · rw [if_neg h1] at h
      exact ite_some_ne_none _ _ _ h
  · intro h
    rw [h]
    rfl

theorem aggressive_decideAction_none_iff (random : ℚ) (state : AggressiveBot.GameState) :
    AggressiveBot.decideAction random state = none ↔ state.valid_actions.getD [] = [] := by
  unfold AggressiveBot.decideAction
  dsimp only
  constructor
  · intro h
    by_contra hne
    have hlen : ¬ (state.valid_actions.getD []).length = 0 := fun hl =>
      hne (List.length_eq_zero.1 hl)
    rw [if_neg hlen] at h
    split at h
    · cases h
    · split at h
      · cases h
      · split at h <;> cases h
  · intro h
    rw [h]
    rfl

theorem toList_length_one_iff {α : Type} (o : Option α) :
    o.toList.length = 1 ↔ ¬ o = none := by
  cases o <;> simp

/-- In `AggressiveBot.play` an own turn whose snapshot lacks `valid_actions` ends at the log
line that reads it: nothing is decided or submitted and the pass waits 5000 ms. -/
theorem aggressive_play_without_valid_actions (gameId playerId : Option String)
    (state : AggressiveBot.GameState) (random : ℚ)
    (hgame : Js.truthy gameId = true) (hplayer : Js.truthy playerId = true)
    (hrunning : state.game_finished = false) (hturn : state.current_player_id = playerId)
    (habsent : state.valid_actions = none) :
    AggressiveBot.playIteration gameId playerId (Fetched.ok state) random =
      { submitted := [], sleeps := [5000], exitCode := none } := by
  unfold AggressiveBot.playIteration AggressiveBot.getGameState
  simp [hgame, hplayer, hrunning, hturn, habsent]

/-- C14 (amended). One pass through the loop of either bot, for every fetched snapshot: an
action is submitted only when `game_finished` is false and `current_player_id` equals the
bot's own player id; on such a turn of the conservative bot, and on such a turn of the
aggressive bot whose snapshot has a `valid_actions` list, the actions submitted are the one
that `decideAction` computes from that snapshot: exactly one when `valid_actions` is not
empty and none when it is empty (for the conservative bot also when it is absent), where
`decideAction` returns `null`. -/
theorem play_submits_decided_action (gameId playerId : Option String)
    (conservative : ConservativeBot.GameState) (aggressive : AggressiveBot.GameState)
    (random : ℚ) (hgame : Js.truthy gameId = true) (hplayer : Js.truthy playerId = true) :
    (ConservativeBot.playIteration gameId playerId (Fetched.ok conservative)).submitted =
      (if conservative.game_finished = false ∧ conservative.current_player_id = playerId then
        (ConservativeBot.decideAction playerId conservative).toList else []) ∧
    ((ConservativeBot.decideAction playerId conservative).toList.length = 1 ↔
      conservative.valid_actions.getD [] ≠ []) ∧
    (ConservativeBot.decideAction playerId conservative = none ↔
      conservative.valid_actions.getD [] = []) ∧
    (¬ (aggressive.game_finished = false ∧ aggressive.current_player_id = playerId) →
      (AggressiveBot.playIteration gameId playerId (Fetched.ok aggressive) random).submitted
        = []) ∧
    (∀ validActions : List String, aggressive.valid_actions = some validActions →
      (AggressiveBot.playIteration gameId playerId (Fetched.ok aggressive) random).submitted =
        (if aggressive.game_finished = false ∧ aggressive.current_player_id = playerId then
          (AggressiveBot.decideAction random aggressive).toList else []) ∧
      ((AggressiveBot.decideAction random aggressive).toList.length = 1 ↔
        validActions ≠ []) ∧
      (AggressiveBot.decideAction random aggressive = none ↔ validActions = [])) := by
  have hagg : ∀ va : Option (List String), aggressive.valid_actions = va →
      (AggressiveBot.playIteration gameId playerId (Fetched.ok aggressive) random).submitted =
        (if aggressive.game_finished = false ∧ aggressive.current_player_id = playerId then
          (AggressiveBot.decideAction random aggressive).toList else []) := by
    intro va hva
    unfold AggressiveBot.playIteration AggressiveBot.getGameState
    simp only [hgame, hplayer, Bool.not_true, Bool.or_self, Bool.false_eq_true, if_false]
    cases hf : aggressive.game_finished
    · by_cases hc : aggressive.current_player_id = playerId
      · simp only [hc, beq_self_eq_true, if_true, and_self, Bool.false_eq_true, if_false]
        cases va with
        | none =>
          have hnone : AggressiveBot.decideAction random aggressive = none :=
            (aggressive_decideAction_none_iff random aggressive).2 (by rw [hva]; rfl)
          rw [hva, hnone]
          rfl
        | some l =>
          rw [hva]
          cases AggressiveBot.decideAction random aggressive <;> rfl
      · have hb : (aggressive.current_player_id == playerId) = false := by simpa using hc
        simp [hb, hc]
    · simp
  refine ⟨?_, ?_, conservative_decideAction_none_iff playerId conservative, ?_, ?_⟩
  · unfold ConservativeBot.playIteration ConservativeBot.getGameState
    simp only [hgame, hplayer, Bool.not_true, Bool.or_self, Bool.false_eq_true, if_false]
    cases hf : conservative.game_finished
    · by_cases hc : conservative.current_player_id = playerId
      · simp only [hc, beq_self_eq_true, if_true, and_self, Bool.false_eq_true, if_false]
        cases ConservativeBot.decideAction playerId conservative <;> rfl
      · have hb : (conservative.current_player_id == playerId) = false := by simpa using hc
        simp [hb, hc]
    · simp
  · rw [toList_length_one_iff, conservative_decideAction_none_iff playerId]
  · intro hnot
    rw [hagg _ rfl, if_neg hnot]
  · intro validActions hva
    have hget : aggressive.valid_actions.getD [] = validActions := by rw [hva]; rfl
    refine ⟨hagg _ hva, ?_, ?_⟩
    · rw [toList_length_one_iff, aggressive_decideAction_none_iff random, hget]
    · rw [aggressive_decideAction_none_iff random, hget]

/-- Witness for C14: the conservative bot `me`, on its turn with check valid, submits
the check and nothing else. -/
theorem play_submits_decided_action_witness :
    (ConservativeBot.playIteration (some "g1") (some "me")
      (Fetched.ok { valid_actions := some ["fold", "check"], players := none,
                    current_bet := some 0, your_chips := some 1000,
                    current_player_id := some "me", game_finished := false })).submitted =
      [{ type := "check", amount := none }] := by
  rw [(play_submits_decided_action (some "g1") (some "me")
    { valid_actions := some ["fold", "check"], players := none, current_bet := some 0,
      your_chips := some 1000, current_player_id := some "me", game_finished := false }
    { game_id := "g1", phase := "flop", pot := 0, current_bet := 0, community_cards := [],
      current_player_id := some "me", your_player_id := "me", your_chips := 1000,
      your_cards := [], valid_actions := some [], game_finished := false }
    0 (by decide) (by decide)).1]
  decide

/-- C14, counterexample. On its own turn in a running game, with an empty list of valid
actions, neither bot submits an action. -/
theorem play_submits_nothing_without_valid_actions :
    (ConservativeBot.playIteration (some "g1") (some "me")
      (Fetched.ok { valid_actions := some [], players := none, current_bet := some 0,
                    your_chips := some 1000, current_player_id := some "me",
                    game_finished := false })).submitted = [] ∧
    (AggressiveBot.playIteration (some "g1") (some "me")
      (Fetched.ok { game_id := "g1", phase := "flop", pot := 0, current_bet := 0,
                    community_cards := [], current_player_id := some "me",
                    your_player_id := "me", your_chips := 1000, your_cards := [],
                    valid_actions := some [], game_finished := false }) 0).submitted = [] := by
  constructor
  · decide
  · rfl

/-- C17, the code at the failing input. When the state request fails because the server is
unreachable, `getGameState` returns `null` as for any other failure, and the pass of either
bot waits 2000 ms, exactly as after a rejection by the server; the process goes on. -/
theorem play_waits_2000_when_unreachable (gameId playerId : Option String) (random : ℚ)
    (message : String) :
    ConservativeBot.playIteration gameId playerId Fetched.connectionRefused =
      { submitted := [], sleeps := [2000], exitCode := none } ∧
    AggressiveBot.playIteration gameId playerId Fetched.connectionRefused random =
      { submitted := [], sleeps := [2000], exitCode := none } ∧
    ConservativeBot.playIteration gameId playerId (Fetched.rejected message) =
      ConservativeBot.playIteration gameId playerId Fetched.connectionRefused ∧
    AggressiveBot.playIteration gameId playerId (Fetched.rejected message) random =
      AggressiveBot.playIteration gameId playerId Fetched.connectionRefused random := by
  have hc : ∀ answer : Fetched ConservativeBot.GameState,
      (∀ data, answer ≠ Fetched.ok data) →
      ConservativeBot.getGameState gameId playerId answer = none := by
    intro answer h
    unfold ConservativeBot.getGameState
    split
    · rfl
    · cases answer with
      | ok data => exact absurd rfl (h data)
      | connectionRefused => rfl
      | rejected m => rfl
  have ha : ∀ answer : Fetched AggressiveBot.GameState,
      (∀ data, answer ≠ Fetched.ok data) →
      AggressiveBot.getGameState gameId playerId answer = none := by
    intro answer h
    unfold AggressiveBot.getGameState
    split
    · rfl
    · cases answer with
      | ok data => exact absurd rfl (h data)
      | connectionRefused => rfl
      | rejected m => rfl
  unfold ConservativeBot.playIteration AggressiveBot.playIteration
  rw [hc Fetched.connectionRefused (by intro d h; cases h),
    hc (Fetched.rejected message) (by intro d h; cases h),
    ha Fetched.connectionRefused (by intro d h; cases h),
    ha (Fetched.rejected message) (by intro d h; cases h)]
  exact ⟨rfl, rfl, rfl, rfl⟩

/-- C18, the code at the failing input. With `your_chips = 1000`, `current_bet = 150`, an own
committed bet of 50 and only call and fold valid, the amount to add is exactly 10% of the
chips and the bot calls: the comparison of `decideAction` is `<=`. -/
theorem conservative_calls_at_exactly_ten_percent :
    ConservativeBot.decideAction (some "me")
      { valid_actions := some ["call", "fold"],
        players := some [{ id := "me", current_bet := some 50 }],
        current_bet := some 150, your_chips := some 1000,
        current_player_id := some "me", game_finished := false } =
      some { type := "call", amount := none } ∧
    (150 - 50) * 10 = 1000 := by
  decide

/-! ## The countdown of the hand-winner overlay -/

namespace Game

theorem find?_countdown_map (interval : Nat) (value : Int) :
    ∀ (l : List Countdown) (c : Countdown),
      l.find? (fun c => c.interval = interval) = some c →
      (l.map fun d => if d.interval = interval then { d with countdown := value } else d).find?
          (fun c => c.interval = interval) = some { c with countdown := value } := by
  intro l
  induction l with
  | nil => intro c h; simp at h
  | cons d ds ih =>
    intro c h
    by_cases hd : d.interval = interval
    · rw [List.find?_cons_of_pos _ (by simpa using hd)] at h
      cases h
      rw [List.map_cons, if_pos hd]
      exact List.find?_cons_of_pos _ (by simpa using hd)
    · rw [List.find?_cons_of_neg _ (by simpa using hd)] at h
      rw [List.map_cons, if_neg hd, List.find?_cons_of_neg _ (by simpa using hd)]
      exact ih c h

theorem countdownTick_cleared (st : State) (interval : Nat)
    (h : st.countdowns.find? (fun c => c.interval = interval) = none) :
    countdownTick st interval = st := by
  unfold countdownTick
  rw [h]

/-- A tick that leaves a positive count keeps the countdown running. -/
theorem countdownTick_running (interval node : Nat) (remaining : Int) (st : State)
    (h : Ticking interval node remaining st) (hpos : 0 < remaining - 1) :
    Ticking interval node (remaining - 1) (countdownTick st interval) := by
  obtain ⟨hflag, ⟨c, hfind, hcount, hov⟩, o, ho, hnode, hkind⟩ := h
  have hmap := find?_countdown_map interval (c.countdown - 1) st.countdowns c hfind
  unfold countdownTick
  rw [hfind]
  dsimp only
  rw [if_neg (by rw [hcount]; omega)]
  cases hel : c.countdownEl with
  | none =>
    dsimp only
    exact ⟨hflag, ⟨_, hmap, by simp [hcount], hov⟩, o, ho, hnode, hkind⟩
  | some el =>
    dsimp only
    refine ⟨hflag, ⟨_, hmap, by simp [hcount], hov⟩, ?_⟩
    by_cases hoel : o.node = el
    · exact ⟨{ o with countdown := toString (c.countdown - 1) },
        List.mem_map.2 ⟨o, ho, by rw [if_pos hoel]⟩, hnode, hkind⟩
    · exact ⟨o, List.mem_map.2 ⟨o, ho, by rw [if_neg hoel]⟩, hnode, hkind⟩

/-- The tick that brings the count to zero removes the overlay, clears the flag and cancels
the timer. -/
theorem countdownTick_last (interval node : Nat) (st : State)
    (h : Ticking interval node 1 st) :
    (countdownTick st interval).isShowingWinner = false ∧
    (∀ o ∈ (countdownTick st interval).view.overlays, o.node ≠ node) ∧
    (countdownTick st interval).countdowns.find? (fun c => c.interval = interval) = none := by
  obtain ⟨hflag, ⟨c, hfind, hcount, hov⟩, _⟩ := h
  unfold countdownTick
  rw [hfind]
  dsimp only
  rw [if_pos (by rw [hcount]; omega)]
  refine ⟨rfl, ?_, ?_⟩
  · intro o ho
    have ho' := (List.mem_filter.1 ho).2
    rw [hov] at ho'
    simpa using ho'
  · rw [List.find?_eq_none]
    intro x hx
    have hx' := (List.mem_filter.1 hx).2
    simpa using hx'

theorem showHandWinner_ticking (st : State) (winnerName : Option String) (amount : Nat)
    (handDescription : Option String) (cards : Option (List String))
    (hname : Js.truthy winnerName = true) (hidle : st.isShowingWinner = false)
    (hfresh : ∀ c ∈ st.countdowns, c.interval ≠ st.nextId + 1) :
    Ticking (st.nextId + 1) st.nextId 5
      (showHandWinner st winnerName amount handDescription cards) := by
  unfold showHandWinner
  rw [if_neg (by simp [hname, hidle])]
  refine ⟨rfl, ?_, ?_⟩
  · dsimp only
    rw [List.find?_append, List.find?_eq_none.2 (by
      intro x hx
      simpa using hfresh x hx)]
    simp
  · dsimp only
    refine ⟨_, List.mem_append_right _ (List.mem_singleton_self _), ?_, ?_⟩ <;> rfl

/-- C20. Hand-winner overlay countdown: after `showHandWinner` is called with a non-empty
winner name while no overlay is showing, the overlay is present and `isShowingWinner` is
true up to the fourth 1-second tick, and at the fifth tick the overlay is removed,
`isShowingWinner` becomes false and the timer is cancelled: further ticks change nothing. -/
theorem handWinner_countdown (st : State) (winnerName : Option String) (amount : Nat)
    (handDescription : Option String) (cards : Option (List String))
    (hname : Js.truthy winnerName = true) (hidle : st.isShowingWinner = false)
    (hfresh : ∀ c ∈ st.countdowns, c.interval ≠ st.nextId + 1) :
    (∀ ticks, ticks ≤ 4 →
      (countdownTicks (showHandWinner st winnerName amount handDescription cards)
        (st.nextId + 1) ticks).isShowingWinner = true ∧
      ∃ o ∈ (countdownTicks (showHandWinner st winnerName amount handDescription cards)
        (st.nextId + 1) ticks).view.overlays, o.node = st.nextId ∧ o.kind = OverlayKind.hand) ∧
    (countdownTicks (showHandWinner st winnerName amount handDescription cards)
      (st.nextId + 1) 5).isShowingWinner = false ∧
    (∀ o ∈ (countdownTicks (showHandWinner st winnerName amount handDescription cards)
      (st.nextId + 1) 5).view.overlays, o.node ≠ st.nextId) ∧
    (∀ c ∈ (countdownTicks (showHandWinner st winnerName amount handDescription cards)
      (st.nextId + 1) 5).countdowns, c.interval ≠ st.nextId + 1) ∧
    (∀ more, countdownTicks (showHandWinner st winnerName amount handDescription cards)
        (st.nextId + 1) (5 + more) =
      countdownTicks (showHandWinner st winnerName amount handDescription cards)
        (st.nextId + 1) 5) := by
  have h0 := showHandWinner_ticking st winnerName amount handDescription cards hname hidle hfresh
  generalize showHandWinner st winnerName amount handDescription cards = shown at h0
  have hrun : ∀ ticks : Nat, ticks ≤ 4 →
      Ticking (st.nextId + 1) st.nextId (5 - (ticks : Int))
        (countdownTicks shown (st.nextId + 1) ticks) := by
    intro ticks
    induction ticks with
    | zero => intro _; simpa [countdownTicks] using h0
    | succ k ih =>
      intro hk
      have := countdownTick_running (st.nextId + 1) st.nextId (5 - (k : Int)) _
        (ih (by omega)) (by omega)
      have e : (5 : Int) - ((k + 1 : Nat) : Int) = 5 - (k : Int) - 1 := by omega
      rw [e]
      exact this
  have h4 : Ticking (st.nextId + 1) st.nextId 1 (countdownTicks shown (st.nextId + 1) 4) := by
    simpa using hrun 4 (Nat.le_refl 4)
  obtain ⟨hflag, hgone, hnone⟩ := countdownTick_last (st.nextId + 1) st.nextId _ h4
  have h5 : countdownTicks shown (st.nextId + 1) 5
      = countdownTick (countdownTicks shown (st.nextId + 1) 4) (st.nextId + 1) := rfl
  refine ⟨fun ticks hk => ⟨(hrun ticks hk).1, (hrun ticks hk).2.2⟩, ?_, ?_, ?_, ?_⟩
  · rw [h5]; exact hflag
  · rw [h5]; exact hgone
  · rw [h5]
    intro c hc
    have := List.find?_eq_none.1 hnone c hc
    simpa using this
  · intro more
    induction more with
    | zero => rfl
    | succ m ih =>
      show countdownTick (countdownTicks shown (st.nextId + 1) (5 + m)) (st.nextId + 1) = _
      rw [ih, h5]
      exact countdownTick_cleared _ _ hnone

/-- Witness for C20: the hand of Alice is announced in game `g1`; after four ticks the
overlay element 2 is in the view and the flag is set. -/
theorem handWinner_countdown_witness :
    (countdownTicks (showHandWinner (viewGame State.initial "g1") (some "Alice") 120 none none)
      3 4).isShowingWinner = true ∧
    (countdownTicks (showHandWinner (viewGame State.initial "g1") (some "Alice") 120 none none)
      3 5).isShowingWinner = false :=
  ⟨((handWinner_countdown (viewGame State.initial "g1") (some "Alice") 120 none none
      (by decide) (by decide) (by decide)).1 4 (by decide)).1,
   (handWinner_countdown (viewGame State.initial "g1") (some "Alice") 120 none none
      (by decide) (by decide) (by decide)).2.1⟩

end Game

/-! ## Change gating of the reconciler -/

namespace Game

theorem changed_iff_all {α : Type} [BEq α] [LawfulBEq α] (st : State) (next : GameState)
    (field : GameState → α) :
    st.lastGameState.all (fun last => field last != field next) = true ↔
      Changed st next field := by
  unfold Changed
  cases st.lastGameState with
  | none => simp
  | some last => simp

theorem changed_same {α : Type} (st : State) (next : GameState) (field : GameState → α)
    (base : Option GameState) (h : base = st.lastGameState) :
    Changed { st with lastGameState := base } next field ↔ Changed st next field := by
  subst h
  rfl

/-- The writes of a transition that makes none of the group `g` leave the occurrences of
the writes of that group as they were. -/
theorem mem_trace_of_extends {K : DomWrite → Prop} {a b : State} (x : DomWrite)
    (h : Extends K a b) (hk : ∀ w, K w → w ≠ x) : x ∈ b.trace ↔ x ∈ a.trace := by
  obtain ⟨new, hnew, hall⟩ := h
  rw [hnew, List.mem_append]
  constructor
  · rintro (h | h)
    · exact absurd rfl (hk x (hall x h))
    · exact h
  · exact Or.inr

theorem group_of_not_gated (w : DomWrite) (h : w.gated = false) :
    w.group ≠ WriteGroup.phase ∧ w.group ≠ WriteGroup.pot ∧
    w.group ≠ WriteGroup.currentBet ∧ w.group ≠ WriteGroup.communityCards ∧
    w.group ≠ WriteGroup.actionLog := by
  cases w <;> simp [DomWrite.gated, DomWrite.group] at h ⊢

theorem updatePlayerElement_group (d : PlayerNode) (p : Player) (cur : Option String)
    (log : Option (List String)) :
    ∀ w ∈ (updatePlayerElement d p cur log).2, w.group = WriteGroup.players := by
  unfold updatePlayerElement
  dsimp only
  split <;> simp [DomWrite.group]

/-- What `appendPlayer` and `patchPlayer` change: the player elements, the fresh identity
and the write log, by writes of the players block. -/
theorem appendPlayer_only (st : State) (p : Player) (cur : Option String)
    (log : Option (List String)) :
    Extends (fun w => w.group = WriteGroup.players) st (appendPlayer st p cur log) ∧
    (∃ c, (appendPlayer st p cur log).view = { st.view with playersContainer := c }) ∧
    (appendPlayer st p cur log).lastGameState = st.lastGameState := by
  refine ⟨⟨DomWrite.playerAppended st.nextId :: (createPlayerElement st.nextId p cur log).2,
    rfl, ?_⟩, ⟨_, rfl⟩, rfl⟩
  intro w hw
  rcases List.mem_cons.1 hw with rfl | hw
  · rfl
  · exact updatePlayerElement_group _ p cur log w hw

theorem patchPlayer_only (cur : Option String) (log : Option (List String)) (st : State)
    (p : Player) :
    Extends (fun w => w.group = WriteGroup.players) st (patchPlayer cur log st p) ∧
    (∃ c, (patchPlayer cur log st p).view = { st.view with playersContainer := c }) ∧
    (patchPlayer cur log st p).lastGameState = st.lastGameState := by
  cases hf : st.view.playersContainer.find? (fun n => n.playerId == some p.id) with
  | none =>
    have : patchPlayer cur log st p = appendPlayer st p cur log := by
      unfold patchPlayer
      rw [hf]
    rw [this]
    exact appendPlayer_only st p cur log
  | some d =>
    rw [patchPlayer_found cur log st p d hf]
    exact ⟨⟨(updatePlayerElement d p cur log).2, rfl, updatePlayerElement_group d p cur log⟩,
      ⟨_, rfl⟩, rfl⟩

theorem foldl_only (f : State → Player → State)
    (hf : ∀ s p, Extends (fun w => w.group = WriteGroup.players) s (f s p) ∧
      (∃ c, (f s p).view = { s.view with playersContainer := c }) ∧
      (f s p).lastGameState = s.lastGameState) :
    ∀ (ps : List Player) (s : State),
      Extends (fun w => w.group = WriteGroup.players) s (ps.foldl f s) ∧
      (∃ c, (ps.foldl f s).view = { s.view with playersContainer := c }) ∧
      (ps.foldl f s).lastGameState = s.lastGameState := by
  intro ps
  induction ps with
  | nil => intro s; exact ⟨extends_refl _ s, ⟨s.view.playersContainer, rfl⟩, rfl⟩
  | cons p ps ih =>
    intro s
    obtain ⟨h1, ⟨c1, hv1⟩, hb1⟩ := hf s p
    obtain ⟨h2, ⟨c2, hv2⟩, hb2⟩ := ih (f s p)
    refine ⟨extends_trans h1 h2, ⟨c2, ?_⟩, hb2.trans hb1⟩
    rw [List.foldl_cons, hv2, hv1]

/-- What `renderPlayers` changes: the player elements, the fresh identity and the write
log, by writes of the players block. -/
theorem renderPlayers_only (st : State) (players : List Player) (cur : Option String)
    (log : Option (List String)) :
    Extends (fun w => w.group = WriteGroup.players) st (renderPlayers st players cur log) ∧
    (∃ c, (renderPlayers st players cur log).view = { st.view with playersContainer := c }) ∧
    (renderPlayers st players cur log).lastGameState = st.lastGameState := by
  unfold renderPlayers
  split
  · obtain ⟨h, ⟨c, hv⟩, hb⟩ := foldl_only (fun s p => appendPlayer s p cur log)
      (fun s p => appendPlayer_only s p cur log) players
      { st with view := { st.view with playersContainer := [] },
                trace := DomWrite.playersCleared :: st.trace }
    refine ⟨extends_trans ⟨[DomWrite.playersCleared], rfl, by simp [DomWrite.group]⟩ h,
      ⟨c, ?_⟩, hb⟩
    rw [hv]
  · exact foldl_only (patchPlayer cur log) (patchPlayer_only cur log) players st

end Game

namespace Game

theorem mem_trace_of_group {G : WriteGroup} {a b : State} (x : DomWrite)
    (h : Extends (fun w => w.group = G) a b) (hx : x.group ≠ G) :
    x ∈ b.trace ↔ x ∈ a.trace :=
  mem_trace_of_extends x h (fun w hw hwx => hx (hwx ▸ hw))

theorem mem_trace_of_not_gated {a b : State} (x : DomWrite)
    (h : Extends (fun w => w.gated = false) a b) (hx : x.gated = true) :
    x ∈ b.trace ↔ x ∈ a.trace :=
  mem_trace_of_extends x h (fun w hw hwx => by rw [hwx, hx] at hw; cases hw)

theorem renderPhase_effect (s : State) (n : GameState) (x : DomWrite) :
    (x ∈ (renderPhase s n).trace ↔
      (x.group = WriteGroup.phase ∧ s.lastGameState.all (fun l => l.phase != n.phase) = true) ∨
        x ∈ s.trace) ∧
    gatedView (renderPhase s n) =
      (if s.lastGameState.all (fun l => l.phase != n.phase) = true then n.phase
        else (gatedView s).1, (gatedView s).2) := by
  unfold renderPhase
  split
  · rename_i h
    refine ⟨?_, by simp [gatedView, h]⟩
    cases x <;> simp [DomWrite.group, h]
  · rename_i h
    exact ⟨by simp [h], by simp [gatedView, h]⟩

theorem renderPot_effect (s : State) (n : GameState) (x : DomWrite) :
    (x ∈ (renderPot s n).trace ↔
      (x.group = WriteGroup.pot ∧ s.lastGameState.all (fun l => l.pot != n.pot) = true) ∨
        x ∈ s.trace) ∧
    gatedView (renderPot s n) =
      ((gatedView s).1,
       if s.lastGameState.all (fun l => l.pot != n.pot) = true then toString n.pot
        else (gatedView s).2.1,
       if s.lastGameState.all (fun l => l.pot != n.pot) = true then toString n.pot
        else (gatedView s).2.2.1,
       (gatedView s).2.2.2) := by
  unfold renderPot
  split
  · rename_i h
    refine ⟨?_, by simp [gatedView, h]⟩
    cases x <;> simp [DomWrite.group, h]
  · rename_i h
    exact ⟨by simp [h], by simp [gatedView, h]⟩

theorem renderCurrentBet_effect (s : State) (n : GameState) (x : DomWrite) :
    (x ∈ (renderCurrentBet s n).trace ↔
      (x.group = WriteGroup.currentBet ∧
        s.lastGameState.all (fun l => l.current_bet != n.current_bet) = true) ∨
        x ∈ s.trace) ∧
    gatedView (renderCurrentBet s n) =
      ((gatedView s).1, (gatedView s).2.1, (gatedView s).2.2.1,
       if s.lastGameState.all (fun l => l.current_bet != n.current_bet) = true then
          toString n.current_bet
        else (gatedView s).2.2.2.1,
       (gatedView s).2.2.2.2) := by
  unfold renderCurrentBet
  split
  · rename_i h
    refine ⟨?_, by simp [gatedView, h]⟩
    cases x <;> simp [DomWrite.group, h]
  · rename_i h
    exact ⟨by simp [h], by simp [gatedView, h]⟩

theorem renderCommunity_effect (s : State) (n : GameState) (x : DomWrite) :
    (x ∈ (renderCommunity s n).trace ↔
      (x.group = WriteGroup.communityCards ∧
        s.lastGameState.all (fun l => l.community_cards != n.community_cards) = true) ∨
        x ∈ s.trace) ∧
    gatedView (renderCommunity s n) =
      ((gatedView s).1, (gatedView s).2.1, (gatedView s).2.2.1, (gatedView s).2.2.2.1,
       if s.lastGameState.all (fun l => l.community_cards != n.community_cards) = true then
          (renderCommunityCards s n.community_cards).view.communityCards
        else (gatedView s).2.2.2.2.1,
       (gatedView s).2.2.2.2.2) := by
  unfold renderCommunity
  split
  · rename_i h
    refine ⟨?_, by simp [gatedView, h, renderCommunityCards]⟩
    cases x <;> simp [DomWrite.group, h, renderCommunityCards]
  · rename_i h
    exact ⟨by simp [h], by simp [gatedView, h]⟩

theorem renderActionLog_effect (s : State) (n : GameState) (x : DomWrite) :
    (x ∈ (renderActionLog s n).trace ↔
      (x.group = WriteGroup.actionLog ∧ nonEmptyLog n.action_log = true ∧
        s.lastGameState.all (fun l => l.action_log != n.action_log) = true) ∨
        x ∈ s.trace) ∧
    gatedView (renderActionLog s n) =
      ((gatedView s).1, (gatedView s).2.1, (gatedView s).2.2.1, (gatedView s).2.2.2.1,
       (gatedView s).2.2.2.2.1, (gatedView s).2.2.2.2.2.1,
       if nonEmptyLog n.action_log = true ∧
          s.lastGameState.all (fun l => l.action_log != n.action_log) = true then
          logEntries (n.action_log.getD [])
        else (gatedView s).2.2.2.2.2.2) := by
  unfold renderActionLog
  split
  · rename_i e es hlog
    split
    · rename_i h
      rw [hlog] at h ⊢
      refine ⟨?_, by simp [gatedView, h, nonEmptyLog, logEntries]⟩
      cases x <;> simp [DomWrite.group, h, nonEmptyLog]
    · rename_i h
      rw [hlog] at h ⊢
      exact ⟨by simp [h], by simp [gatedView, h]⟩
  · rename_i hlog
    have hne : nonEmptyLog n.action_log = false := by
      unfold nonEmptyLog
      split
      · rename_i e es heq
        exact absurd heq (hlog e es)
      · rfl
    exact ⟨by simp [hne], by simp [gatedView, hne]⟩

theorem renderPlayers_effect (s : State) (players : List Player) (cur : Option String)
    (log : Option (List String)) :
    (∀ x : DomWrite, x.group ≠ WriteGroup.players →
      (x ∈ (renderPlayers s players cur log).trace ↔ x ∈ s.trace)) ∧
    (renderPlayers s players cur log).lastGameState = s.lastGameState ∧
    ∃ c, gatedView (renderPlayers s players cur log) =
      ((gatedView s).1, (gatedView s).2.1, (gatedView s).2.2.1, (gatedView s).2.2.2.1,
       (gatedView s).2.2.2.2.1, c, (gatedView s).2.2.2.2.2.2) := by
  obtain ⟨h, ⟨c, hv⟩, hb⟩ := renderPlayers_only s players cur log
  refine ⟨fun x hx => mem_trace_of_group x h hx, hb, c, ?_⟩
  unfold gatedView
  rw [hv]

theorem renderGameState_trace (st : State) (state : GameState) :
    (renderGameState st state).trace =
      (renderActionLog (renderStartBtn (renderPlayers (renderCommunity (renderCurrentBet
          (renderPot (renderPhase (announceGameWinner (announceHandWinner
            (if st.isHumanPlayer then updateHumanPlayerUI st state else st) state) state)
              state) state) state) state) state.players state.current_player_id
                state.action_log) state) state).trace := rfl

theorem renderGameState_gated (st : State) (state : GameState) :
    gatedView (renderGameState st state) =
      gatedView (renderActionLog (renderStartBtn (renderPlayers (renderCommunity
          (renderCurrentBet (renderPot (renderPhase (announceGameWinner (announceHandWinner
            (if st.isHumanPlayer then updateHumanPlayerUI st state else st) state) state)
              state) state) state) state) state.players state.current_player_id
                state.action_log) state) state) := rfl

/-- The gated writes and the gated part of the view after `renderGameState`, block by
block, in terms of the state before. -/
theorem renderGameState_summary (st : State) (next : GameState) :
    ∃ c : List PlayerNode,
      (∀ x : DomWrite, x.gated = true → x.group ≠ WriteGroup.players →
        (x ∈ (renderGameState { st with trace := [] } next).trace ↔
          (x.group = WriteGroup.actionLog ∧ nonEmptyLog next.action_log = true ∧
            st.lastGameState.all (fun l => l.action_log != next.action_log) = true) ∨
          (x.group = WriteGroup.communityCards ∧
            st.lastGameState.all (fun l => l.community_cards != next.community_cards) = true) ∨
          (x.group = WriteGroup.currentBet ∧
            st.lastGameState.all (fun l => l.current_bet != next.current_bet) = true) ∨
          (x.group = WriteGroup.pot ∧
            st.lastGameState.all (fun l => l.pot != next.pot) = true) ∨
          (x.group = WriteGroup.phase ∧
            st.lastGameState.all (fun l => l.phase != next.phase) = true))) ∧
      gatedView (renderGameState { st with trace := [] } next) =
        (if st.lastGameState.all (fun l => l.phase != next.phase) = true then next.phase
          else st.view.gamePhase,
         if st.lastGameState.all (fun l => l.pot != next.pot) = true then toString next.pot
          else st.view.gamePot,
         if st.lastGameState.all (fun l => l.pot != next.pot) = true then toString next.pot
          else st.view.potDisplay,
         if st.lastGameState.all (fun l => l.current_bet != next.current_bet) = true then
            toString next.current_bet
          else st.view.currentBet,
         if st.lastGameState.all (fun l => l.community_cards != next.community_cards) = true then
            (renderCommunityCards st next.community_cards).view.communityCards
          else st.view.communityCards,
         c,
         if nonEmptyLog next.action_log = true ∧
            st.lastGameState.all (fun l => l.action_log != next.action_log) = true then
            logEntries (next.action_log.getD [])
          else st.view.actionLog) := by
  rw [renderGameState_trace, renderGameState_gated]
  have hplain : ∀ w : DomWrite, (w.gated = false ∧ w.createsGameOverlay = false) →
      w.gated = false := fun w h => h.1
  have hgv0 : gatedView ({ st with trace := [] } : State) = gatedView st := rfl
  have hb0 : ({ st with trace := [] } : State).lastGameState = st.lastGameState := rfl
  have htr0 : ({ st with trace := [] } : State).trace = [] := rfl
  generalize ({ st with trace := [] } : State) = t0 at hgv0 hb0 htr0
  have f3 := frame_trans (frame_trans (frame_mono hplain (humanBlock_frame t0 next))
    (frame_mono hplain (announceHandWinner_frame _ next))) (announceGameWinner_frame _ next)
  generalize (announceGameWinner (announceHandWinner
      (if t0.isHumanPlayer then updateHumanPlayerUI t0 next else t0) next) next) = s3 at f3
  have hb3 : s3.lastGameState = st.lastGameState := f3.2.2.1.trans hb0
  have hg3 : gatedView s3 = gatedView st := f3.2.1.trans hgv0
  have ht3 : ∀ x : DomWrite, x.gated = true → ¬ x ∈ s3.trace := by
    intro x hx hmem
    have := (mem_trace_of_not_gated x f3.1 hx).1 hmem
    rw [htr0] at this
    cases this
  have hb4 : (renderPhase s3 next).lastGameState = st.lastGameState :=
    (renderPhase_touch s3 next).2.2.1.trans hb3
  have hb5 : (renderPot (renderPhase s3 next) next).lastGameState = st.lastGameState :=
    (renderPot_touch _ next).2.2.1.trans hb4
  have hb6 : (renderCurrentBet (renderPot (renderPhase s3 next) next) next).lastGameState
      = st.lastGameState := (renderCurrentBet_touch _ next).2.2.1.trans hb5
  have hb7 : (renderCommunity (renderCurrentBet (renderPot (renderPhase s3 next) next) next)
      next).lastGameState = st.lastGameState := (renderCommunity_touch _ next).2.2.1.trans hb6
  obtain ⟨s7, hs7⟩ : ∃ s7, s7 = renderCommunity (renderCurrentBet (renderPot
      (renderPhase s3 next) next) next) next := ⟨_, rfl⟩
  obtain ⟨hp8, hb8, c, hg8⟩ := renderPlayers_effect s7 next.players next.current_player_id
    next.action_log
  rw [← hs7]
  obtain ⟨s8, hs8⟩ : ∃ s8, s8 = renderPlayers s7 next.players next.current_player_id
      next.action_log := ⟨_, rfl⟩
  rw [← hs8] at hp8 hb8 hg8 ⊢
  have f9 := renderStartBtn_frame s8 next
  have hb9 : (renderStartBtn s8 next).lastGameState = st.lastGameState := by
    rw [f9.2.2.1, hb8, hs7, hb7]
  refine ⟨c, ?_, ?_⟩
  · intro x hx hxp
    rw [(renderActionLog_effect _ next x).1, hb9,
      mem_trace_of_not_gated x (extends_mono hplain f9.1) hx, hp8 x hxp, hs7,
      (renderCommunity_effect _ next x).1, hb6, (renderCurrentBet_effect _ next x).1, hb5,
      (renderPot_effect _ next x).1, hb4, (renderPhase_effect _ next x).1, hb3]
    simp only [ht3 x hx, or_false]
  · rw [(renderActionLog_effect _ next DomWrite.sidebar).2, hb9, f9.2.1, hg8, hs7,
      (renderCommunity_effect _ next DomWrite.sidebar).2, hb6,
      (renderCurrentBet_effect _ next DomWrite.sidebar).2, hb5,
      (renderPot_effect _ next DomWrite.sidebar).2, hb4,
      (renderPhase_effect _ next DomWrite.sidebar).2, hb3, hg3]
    rfl

end Game
namespace Game

theorem logEntries_text (entries : List String) :
    (logEntries entries).map (fun e => e.textContent) = entries.reverse := by
  unfold logEntries
  rw [List.map_map]
  simp [Function.comp_def]

/-- C15 (amended). The action log in `renderGameState`, for every state (with or without
baseline) and every next snapshot: if `next.action_log` is a non-empty list and differs
from the baseline's (or there is no baseline), the displayed log afterwards is exactly the
reverse of `next.action_log`, replacing everything shown before; if it equals the
baseline's, or is empty or absent, the displayed log is neither written nor changed. -/
theorem renderGameState_action_log (st : State) (next : GameState) :
    (nonEmptyLog next.action_log = true → Changed st next (fun s => s.action_log) →
      (renderGameState { st with trace := [] } next).view.actionLog =
        logEntries (next.action_log.getD []) ∧
      (renderGameState { st with trace := [] } next).view.actionLog.map
        (fun e => e.textContent) = (next.action_log.getD []).reverse ∧
      DomWrite.actionLog ∈ (renderGameState { st with trace := [] } next).trace) ∧
    (nonEmptyLog next.action_log = false ∨ ¬ Changed st next (fun s => s.action_log) →
      (renderGameState { st with trace := [] } next).view.actionLog = st.view.actionLog ∧
      DomWrite.actionLog ∉ (renderGameState { st with trace := [] } next).trace) := by
  obtain ⟨c, htrace, hview⟩ := renderGameState_summary st next
  have hlog := congrArg (fun g => g.2.2.2.2.2.2) hview
  have hmem := htrace DomWrite.actionLog rfl (by decide)
  simp only [DomWrite.group, reduceCtorEq, false_and, or_false, true_and] at hmem
  simp only [gatedView] at hlog
  have e : (st.lastGameState.all (fun l => l.action_log != next.action_log) = true) ↔
      Changed st next (fun s => s.action_log) := changed_iff_all st next _
  constructor
  · intro hne hch
    have hv : (renderGameState { st with trace := [] } next).view.actionLog =
        logEntries (next.action_log.getD []) := by
      rw [hlog, if_pos ⟨hne, e.2 hch⟩]
    exact ⟨hv, by rw [hv, logEntries_text], hmem.2 ⟨hne, e.2 hch⟩⟩
  · intro h
    have hnot : ¬ (nonEmptyLog next.action_log = true ∧
        st.lastGameState.all (fun l => l.action_log != next.action_log) = true) := by
      rintro ⟨h1, h2⟩
      rcases h with h | h
      · rw [h1] at h; cases h
      · exact h (e.1 h2)
    exact ⟨by rw [hlog, if_neg hnot], fun hm => hnot (hmem.1 hm)⟩

/-- Witness for C15: the first snapshot with two log entries shows them, the most recent
first. -/
theorem renderGameState_action_log_witness :
    (renderGameState { State.initial with trace := [] }
      { snapshotG1 with action_log := some ["[preflop] Alice -> CALL (20)",
                                            "[preflop] Bob -> FOLD"] }).view.actionLog.map
      (fun e => e.textContent) = ["[preflop] Bob -> FOLD", "[preflop] Alice -> CALL (20)"] :=
  ((renderGameState_action_log State.initial
    { snapshotG1 with action_log := some ["[preflop] Alice -> CALL (20)",
                                          "[preflop] Bob -> FOLD"] }).1 rfl
    (Or.inl rfl)).2.1

/-- C15, counterexample. After a snapshot whose log has one entry, a snapshot with the
empty log differs from the baseline, and the displayed log still shows the old entry. -/
theorem renderGameState_keeps_log_on_empty :
    ((renderGameState
        (renderGameState State.initial
          { snapshotG1 with action_log := some ["[preflop] Bob -> FOLD"] })
        { snapshotG1 with action_log := some [] }).view.actionLog.map
      fun e => e.textContent) = ["[preflop] Bob -> FOLD"] := by
  decide

/-- C16. Change gating in `renderGameState`, for every state and next snapshot: each of
phase, pot and current bet is written to the view iff there is no baseline or its value
differs from the baseline's, independently of the other fields, and the community cards are
rendered again iff there is no baseline or the card sequence differs; a field that is
written shows the new value, a field that is not written keeps its content. -/
theorem renderGameState_change_gating (st : State) (next : GameState) :
    (DomWrite.gamePhase ∈ (renderGameState { st with trace := [] } next).trace ↔
      Changed st next (fun s => s.phase)) ∧
    (DomWrite.gamePot ∈ (renderGameState { st with trace := [] } next).trace ↔
      Changed st next (fun s => s.pot)) ∧
    (DomWrite.potDisplay ∈ (renderGameState { st with trace := [] } next).trace ↔
      Changed st next (fun s => s.pot)) ∧
    (DomWrite.currentBet ∈ (renderGameState { st with trace := [] } next).trace ↔
      Changed st next (fun s => s.current_bet)) ∧
    (DomWrite.communityCards ∈ (renderGameState { st with trace := [] } next).trace ↔
      Changed st next (fun s => s.community_cards)) ∧
    (Changed st next (fun s => s.phase) →
      (renderGameState { st with trace := [] } next).view.gamePhase = next.phase) ∧
    (¬ Changed st next (fun s => s.phase) →
      (renderGameState { st with trace := [] } next).view.gamePhase = st.view.gamePhase) ∧
    (Changed st next (fun s => s.pot) →
      (renderGameState { st with trace := [] } next).view.gamePot = toString next.pot ∧
      (renderGameState { st with trace := [] } next).view.potDisplay = toString next.pot) ∧
    (¬ Changed st next (fun s => s.pot) →
      (renderGameState { st with trace := [] } next).view.gamePot = st.view.gamePot ∧
      (renderGameState { st with trace := [] } next).view.potDisplay = st.view.potDisplay) ∧
    (Changed st next (fun s => s.current_bet) →
      (renderGameState { st with trace := [] } next).view.currentBet =
        toString next.current_bet) ∧
    (¬ Changed st next (fun s => s.current_bet) →
      (renderGameState { st with trace := [] } next).view.currentBet = st.view.currentBet) ∧
    (Changed st next (fun s => s.community_cards) →
      (renderGameState { st with trace := [] } next).view.communityCards =
        (renderCommunityCards st next.community_cards).view.communityCards) ∧
    (¬ Changed st next (fun s => s.community_cards) →
      (renderGameState { st with trace := [] } next).view.communityCards =
        st.view.communityCards) := by
  obtain ⟨c, htrace, hview⟩ := renderGameState_summary st next
  have h1 := htrace DomWrite.gamePhase rfl (by decide)
  have h2 := htrace DomWrite.gamePot rfl (by decide)
  have h3 := htrace DomWrite.potDisplay rfl (by decide)
  have h4 := htrace DomWrite.currentBet rfl (by decide)
  have h5 := htrace DomWrite.communityCards rfl (by decide)
  have e1 : (st.lastGameState.all (fun l => l.phase != next.phase) = true) ↔
      Changed st next (fun s => s.phase) := changed_iff_all st next _
  have e2 : (st.lastGameState.all (fun l => l.pot != next.pot) = true) ↔
      Changed st next (fun s => s.pot) := changed_iff_all st next _
  have e3 : (st.lastGameState.all (fun l => l.current_bet != next.current_bet) = true) ↔
      Changed st next (fun s => s.current_bet) := changed_iff_all st next _
  have e4 : (st.lastGameState.all (fun l => l.community_cards != next.community_cards) = true) ↔
      Changed st next (fun s => s.community_cards) := changed_iff_all st next _
  simp only [DomWrite.group, reduceCtorEq, false_and, or_false, false_or, true_and]
    at h1 h2 h3 h4 h5
  have v1 := congrArg (fun g => g.1) hview
  have v2 := congrArg (fun g => g.2.1) hview
  have v3 := congrArg (fun g => g.2.2.1) hview
  have v4 := congrArg (fun g => g.2.2.2.1) hview
  have v5 := congrArg (fun g => g.2.2.2.2.1) hview
  simp only [gatedView] at v1 v2 v3 v4 v5
  refine ⟨h1.trans e1, h2.trans e2, h3.trans e2, h4.trans e3, h5.trans e4,
    ?_, ?_, ?_, ?_, ?_, ?_, ?_, ?_⟩
  · intro h; rw [v1, if_pos (e1.2 h)]
  · intro h; rw [v1, if_neg (fun a => h (e1.1 a))]
  · intro h; rw [v2, v3, if_pos (e2.2 h), if_pos (e2.2 h)]; exact ⟨rfl, rfl⟩
  · intro h
    rw [v2, v3, if_neg (fun a => h (e2.1 a)), if_neg (fun a => h (e2.1 a))]
    exact ⟨rfl, rfl⟩
  · intro h; rw [v4, if_pos (e3.2 h)]
  · intro h; rw [v4, if_neg (fun a => h (e3.1 a))]
  · intro h; rw [v5, if_pos (e4.2 h)]
  · intro h; rw [v5, if_neg (fun a => h (e4.1 a))]

end Game

namespace Game

/-! ## The human player's controls -/

theorem showValidAction_controls (state : GameState) (st : State) (action : String) :
    (showValidAction state st action).view.checkBtnDisplay =
        (if action = "check" then "inline-block" else st.view.checkBtnDisplay) ∧
    (showValidAction state st action).view.callBtnDisplay =
        (if action = "call" then "inline-block" else st.view.callBtnDisplay) ∧
    (showValidAction state st action).view.raiseControlsDisplay =
        (if action = "raise" then "flex" else st.view.raiseControlsDisplay) ∧
    (showValidAction state st action).view.raiseAmountMin =
        (if action = "raise" then toString (if state.current_bet = 0 then 20 else state.current_bet)
         else st.view.raiseAmountMin) := by
  unfold showValidAction
  by_cases h1 : action = "check"
  · subst h1
    simp
  · by_cases h2 : action = "call"
    · subst h2
      simp
    · by_cases h3 : action = "raise"
      · subst h3
        simp
      · simp [h1, h2, h3]

theorem foldl_showValidAction_field {α : Type} (state : GameState) (p : View → α)
    (k : String) (v : α)
    (h : ∀ s a, p (showValidAction state s a).view = if a = k then v else p s.view) :
    ∀ (va : List String) (s : State),
      p (va.foldl (showValidAction state) s).view = if k ∈ va then v else p s.view
  | [], s => by simp
  | a :: va, s => by
    rw [List.foldl_cons, foldl_showValidAction_field state p k v h va, h]
    by_cases hk : k ∈ va
    · simp [hk]
    · by_cases ha : a = k
      · simp [ha]
      · have ha' : ¬ k = a := fun e => ha e.symm
        simp [hk, ha, ha']

theorem showHumanControls_keeps (st : State) :
    (showHumanControls st).humanPlayerId = st.humanPlayerId ∧
    (showHumanControls st).view.raiseAmountMin = st.view.raiseAmountMin ∧
    (showHumanControls st).view.raiseBtnInActionButtons = st.view.raiseBtnInActionButtons ∧
    (showHumanControls st).view.foldBtnInActionButtons = st.view.foldBtnInActionButtons ∧
    (showHumanControls st).view.checkBtnInActionButtons = st.view.checkBtnInActionButtons ∧
    (showHumanControls st).view.callBtnInActionButtons = st.view.callBtnInActionButtons ∧
    (showHumanControls st).view.allinBtnInActionButtons = st.view.allinBtnInActionButtons := by
  unfold showHumanControls
  split <;> exact ⟨rfl, rfl, rfl, rfl, rfl, rfl, rfl⟩

theorem showHumanCards_keeps (st : State) (state : GameState) :
    (showHumanCards st state).humanPlayerId = st.humanPlayerId ∧
    (showHumanCards st state).view.raiseAmountMin = st.view.raiseAmountMin ∧
    (showHumanCards st state).view.raiseBtnInActionButtons =
      st.view.raiseBtnInActionButtons ∧
    (showHumanCards st state).view.foldBtnInActionButtons = st.view.foldBtnInActionButtons ∧
    (showHumanCards st state).view.checkBtnInActionButtons =
      st.view.checkBtnInActionButtons ∧
    (showHumanCards st state).view.callBtnInActionButtons = st.view.callBtnInActionButtons ∧
    (showHumanCards st state).view.allinBtnInActionButtons =
      st.view.allinBtnInActionButtons := by
  unfold showHumanCards
  split
  · dsimp only
    split <;> exact ⟨rfl, rfl, rfl, rfl, rfl, rfl, rfl⟩
  · exact ⟨rfl, rfl, rfl, rfl, rfl, rfl, rfl⟩

theorem humanHeader_keeps (st : State) (state : GameState) :
    (showHumanChips (showHumanCards (showHumanControls st) state) state).humanPlayerId =
        st.humanPlayerId ∧
    (showHumanChips (showHumanCards (showHumanControls st) state) state).view.raiseAmountMin =
        st.view.raiseAmountMin ∧
    (showHumanChips (showHumanCards (showHumanControls st)
        state) state).view.raiseBtnInActionButtons = st.view.raiseBtnInActionButtons ∧
    (showHumanChips (showHumanCards (showHumanControls st)
        state) state).view.foldBtnInActionButtons = st.view.foldBtnInActionButtons ∧
    (showHumanChips (showHumanCards (showHumanControls st)
        state) state).view.checkBtnInActionButtons = st.view.checkBtnInActionButtons ∧
    (showHumanChips (showHumanCards (showHumanControls st)
        state) state).view.callBtnInActionButtons = st.view.callBtnInActionButtons ∧
    (showHumanChips (showHumanCards (showHumanControls st)
        state) state).view.allinBtnInActionButtons = st.view.allinBtnInActionButtons := by
  obtain ⟨a1, a2, a3, a4, a5, a6, a7⟩ := showHumanControls_keeps st
  obtain ⟨b1, b2, b3, b4, b5, b6, b7⟩ := showHumanCards_keeps (showHumanControls st) state
  exact ⟨b1.trans a1, b2.trans a2, b3.trans a3, b4.trans a4, b5.trans a5, b6.trans a6,
    b7.trans a7⟩

theorem disableActionButtons_reached (st : State) :
    (st.view.foldBtnInActionButtons = true →
      (disableActionButtons st).view.foldBtnDisabled = true) ∧
    (st.view.checkBtnInActionButtons = true →
      (disableActionButtons st).view.checkBtnDisabled = true) ∧
    (st.view.callBtnInActionButtons = true →
      (disableActionButtons st).view.callBtnDisabled = true) ∧
    (st.view.raiseBtnInActionButtons = true →
      (disableActionButtons st).view.raiseBtnDisabled = true) ∧
    (st.view.allinBtnInActionButtons = true →
      (disableActionButtons st).view.allinBtnDisabled = true) := by
  refine ⟨?_, ?_, ?_, ?_, ?_⟩ <;>
  · intro h
    unfold disableActionButtons
    simp [h]

/-- C13 (amended). The controls after `updateHumanPlayerUI`, for every state and snapshot.
When `current_player_id` equals the human's id and `valid_actions` is present: the check
button is shown iff check is valid, the call button iff call is valid, the raise controls
iff raise is valid, fold and all-in are enabled, and the raise input minimum is set only
when raise is valid, to `current_bet` if non-zero and 20 otherwise (when raise is not valid
it is left as it was). When it is not the human's turn, each of the fold, check, call,
raise and all-in buttons that lies inside an `.action-buttons` element is disabled. -/
theorem updateHumanPlayerUI_controls (st : State) (state : GameState) :
    (∀ va : List String, state.current_player_id = st.humanPlayerId →
      state.valid_actions = some va →
      (updateHumanPlayerUI st state).view.checkBtnDisplay =
          (if "check" ∈ va then "inline-block" else "none") ∧
      (updateHumanPlayerUI st state).view.callBtnDisplay =
          (if "call" ∈ va then "inline-block" else "none") ∧
      (updateHumanPlayerUI st state).view.raiseControlsDisplay =
          (if "raise" ∈ va then "flex" else "none") ∧
      (updateHumanPlayerUI st state).view.foldBtnDisabled = false ∧
      (updateHumanPlayerUI st state).view.allinBtnDisabled = false ∧
      (updateHumanPlayerUI st state).view.raiseAmountMin =
          (if "raise" ∈ va then
            toString (if state.current_bet = 0 then 20 else state.current_bet)
           else st.view.raiseAmountMin)) ∧
    (state.current_player_id ≠ st.humanPlayerId →
      (st.view.foldBtnInActionButtons = true →
        (updateHumanPlayerUI st state).view.foldBtnDisabled = true) ∧
      (st.view.checkBtnInActionButtons = true →
        (updateHumanPlayerUI st state).view.checkBtnDisabled = true) ∧
      (st.view.callBtnInActionButtons = true →
        (updateHumanPlayerUI st state).view.callBtnDisabled = true) ∧
      (st.view.raiseBtnInActionButtons = true →
        (updateHumanPlayerUI st state).view.raiseBtnDisabled = true) ∧
      (st.view.allinBtnInActionButtons = true →
        (updateHumanPlayerUI st state).view.allinBtnDisabled = true)) := by
  obtain ⟨hid, hmin, hraise, hfold, hcheck, hcall, hallin⟩ := humanHeader_keeps st state
  constructor
  · intro va hturn hva
    have hupd : updateHumanPlayerUI st state =
        enableFoldAllin (va.foldl (showValidAction state)
          (announceTurn (showHumanChips (showHumanCards (showHumanControls st) state) state))) := by
      unfold updateHumanPlayerUI updateActionButtons
      simp only [hid, hva, hturn, beq_self_eq_true]
    rw [hupd]
    have c1 := foldl_showValidAction_field state (fun v => v.checkBtnDisplay) "check"
      "inline-block" (fun s a => (showValidAction_controls state s a).1) va
      (announceTurn (showHumanChips (showHumanCards (showHumanControls st) state) state))
    have c2 := foldl_showValidAction_field state (fun v => v.callBtnDisplay) "call"
      "inline-block" (fun s a => (showValidAction_controls state s a).2.1) va
      (announceTurn (showHumanChips (showHumanCards (showHumanControls st) state) state))
    have c3 := foldl_showValidAction_field state (fun v => v.raiseControlsDisplay) "raise"
      "flex" (fun s a => (showValidAction_controls state s a).2.2.1) va
      (announceTurn (showHumanChips (showHumanCards (showHumanControls st) state) state))
    have c4 := foldl_showValidAction_field state (fun v => v.raiseAmountMin) "raise"
      (toString (if state.current_bet = 0 then 20 else state.current_bet))
      (fun s a => (showValidAction_controls state s a).2.2.2) va
      (announceTurn (showHumanChips (showHumanCards (showHumanControls st) state) state))
    refine ⟨c1, c2, c3, rfl, rfl, ?_⟩
    exact c4.trans (by
      show (if "raise" ∈ va then _ else
        (showHumanChips (showHumanCards (showHumanControls st) state) state).view.raiseAmountMin)
        = _
      rw [hmin])
  · intro hturn
    have hupd : updateHumanPlayerUI st state =
        disableActionButtons
          (showHumanChips (showHumanCards (showHumanControls st) state) state) := by
      unfold updateHumanPlayerUI updateActionButtons
      have hf : (state.current_player_id ==
          (showHumanChips (showHumanCards (showHumanControls st) state) state).humanPlayerId)
          = false := by
        rw [hid]
        exact beq_false_of_ne hturn
      simp only [hf]
    rw [hupd]
    obtain ⟨d1, d2, d3, d4, d5⟩ := disableActionButtons_reached
      (showHumanChips (showHumanCards (showHumanControls st) state) state)
    rw [hfold] at d1
    rw [hcheck] at d2
    rw [hcall] at d3
    rw [hraise] at d4
    rw [hallin] at d5
    exact ⟨d1, d2, d3, d4, d5⟩

/-- Witness for C13: the human `me` to act with fold, call and raise valid and no bet yet
sees the call button and the raise controls, not the check button, with fold and all-in
enabled and a raise minimum of 20. -/
theorem updateHumanPlayerUI_controls_witness :
    (updateHumanPlayerUI { State.initial with humanPlayerId := some "me", isHumanPlayer := true }
        { snapshotG1 with current_player_id := some "me",
                          valid_actions := some ["fold", "call", "raise"] }).view.checkBtnDisplay
      = (if "check" ∈ ["fold", "call", "raise"] then "inline-block" else "none") ∧
    (updateHumanPlayerUI { State.initial with humanPlayerId := some "me", isHumanPlayer := true }
        { snapshotG1 with current_player_id := some "me",
                          valid_actions := some ["fold", "call", "raise"] }).view.raiseAmountMin
      = "20" :=
  ⟨((updateHumanPlayerUI_controls
      { State.initial with humanPlayerId := some "me", isHumanPlayer := true }
      { snapshotG1 with current_player_id := some "me",
                        valid_actions := some ["fold", "call", "raise"] }).1
      ["fold", "call", "raise"] rfl rfl).1,
   by decide⟩

/-- C13, counterexample. The human `me` to act with only fold and check valid and a current
bet of 50: the raise input minimum is not 50, it is still the empty initial value. And on a
page whose raise button lies outside `.action-buttons`, when it is the turn of `bob` the
raise button of `me` is not disabled. -/
theorem updateHumanPlayerUI_min_unset_without_raise :
    (updateHumanPlayerUI { State.initial with humanPlayerId := some "me", isHumanPlayer := true }
        { snapshotG1 with current_player_id := some "me", current_bet := 50,
                          valid_actions := some ["fold", "check"] }).view.raiseAmountMin = "" ∧
    (updateHumanPlayerUI { State.initial with humanPlayerId := some "me", isHumanPlayer := true }
        { snapshotG1 with current_player_id := some "me", current_bet := 50,
                          valid_actions := some ["fold", "check"] }).view.raiseAmountMin
      ≠ toString (50 : Nat) ∧
    (updateHumanPlayerUI { State.initial with humanPlayerId := some "me", isHumanPlayer := true }
        { snapshotG1 with current_player_id := some "bob" }).view.raiseBtnDisabled = false := by
  decide

end Game

namespace Game

/-! ## The bound on the displayed log -/

theorem take_dropLast_of_lt {α : Type} (l : List α) (n : Nat) (h : n < l.length) :
    l.dropLast.take n = l.take n := by
  rw [List.dropLast_eq_take, List.take_take]
  congr 1
  omega

theorem trimLog_eq_take : ∀ (fuel : Nat) (entries : List LogEntry),
    entries.length - 50 ≤ fuel → trimLog fuel entries = entries.take 50
  | 0, entries, h => by
    unfold trimLog
    rw [List.take_of_length_le (by omega)]
  | fuel + 1, entries, h => by
    unfold trimLog
    by_cases hlen : entries.length > 50
    · rw [if_pos hlen, trimLog_eq_take fuel entries.dropLast (by
        rw [List.length_dropLast]; omega)]
      exact take_dropLast_of_lt entries 50 hlen
    · rw [if_neg hlen, List.take_of_length_le (by omega)]

/-- C21. `addLogEntry` keeps only the 50 most recent entries: for every displayed log and
message, afterwards the display is the first 50 elements of the new entry followed by the
old display, so the new entry is first, the older entries follow in their order, and the
length is at most 50; the trimming loop ends after at most `length + 1 - 50` removals, and
any larger number of allowed iterations gives the same list. -/
theorem addLogEntry_keeps_fifty (st : State) (timestamp message type : String) :
    (addLogEntry st timestamp message type).view.actionLog =
      (({ className := "log-entry " ++ type,
          textContent := "[" ++ timestamp ++ "] " ++ message } : LogEntry) ::
        st.view.actionLog).take 50 ∧
    (addLogEntry st timestamp message type).view.actionLog.head? =
      some { className := "log-entry " ++ type,
             textContent := "[" ++ timestamp ++ "] " ++ message } ∧
    (addLogEntry st timestamp message type).view.actionLog.tail = st.view.actionLog.take 49 ∧
    (addLogEntry st timestamp message type).view.actionLog.length ≤ 50 ∧
    (∀ extra : Nat,
      trimLog (st.view.actionLog.length + 1 - 50 + extra)
        (({ className := "log-entry " ++ type,
            textContent := "[" ++ timestamp ++ "] " ++ message } : LogEntry) ::
          st.view.actionLog) =
      (({ className := "log-entry " ++ type,
          textContent := "[" ++ timestamp ++ "] " ++ message } : LogEntry) ::
        st.view.actionLog).take 50) := by
  have hmain : (addLogEntry st timestamp message type).view.actionLog =
      (({ className := "log-entry " ++ type,
          textContent := "[" ++ timestamp ++ "] " ++ message } : LogEntry) ::
        st.view.actionLog).take 50 := by
    show trimLog _ _ = _
    exact trimLog_eq_take _ _ (by omega)
  refine ⟨hmain, ?_, ?_, ?_, ?_⟩
  · rw [hmain]; rfl
  · rw [hmain]; rfl
  · rw [hmain, List.length_take]
    exact Nat.min_le_left _ _
  · intro extra
    exact trimLog_eq_take _ _ (by rw [List.length_cons]; omega)

end Game

/-! ## The action returned by the bots -/

/-- C22 (amended). For every snapshot with non-empty `valid_actions` and every random
draw, `AggressiveBot.decideAction` and `ConservativeBot.decideAction` return an action whose
type is a member of that snapshot's `valid_actions` or is `fold`, the default of last
resort; when `fold` is valid the type is a member of `valid_actions`. -/
theorem decideAction_type_valid_or_fold (random : ℚ) (playerId : Option String)
    (aggressive : AggressiveBot.GameState) (conservative : ConservativeBot.GameState) :
    (aggressive.valid_actions.getD [] ≠ [] →
      ∃ action, AggressiveBot.decideAction random aggressive = some action ∧
        (action.type ∈ aggressive.valid_actions.getD [] ∨ action.type = "fold") ∧
        ("fold" ∈ aggressive.valid_actions.getD [] →
          action.type ∈ aggressive.valid_actions.getD [])) ∧
    (conservative.valid_actions.getD [] ≠ [] →
      ∃ action, ConservativeBot.decideAction playerId conservative = some action ∧
        (action.type ∈ conservative.valid_actions.getD [] ∨ action.type = "fold") ∧
        ("fold" ∈ conservative.valid_actions.getD [] →
          action.type ∈ conservative.valid_actions.getD [])) := by
  constructor
  · intro hvalid
    have hlen : ¬ (aggressive.valid_actions.getD []).length = 0 := fun h =>
      hvalid (List.length_eq_zero.1 h)
    unfold AggressiveBot.decideAction
    simp only [hlen, if_false, List.contains, List.elem_eq_mem, Bool.and_eq_true,
      decide_eq_true_eq]
    by_cases hr : "raise" ∈ aggressive.valid_actions.getD [] ∧ random < double_0_6
    · rw [if_pos hr]
      exact ⟨_, rfl, Or.inl hr.1, fun _ => hr.1⟩
    · rw [if_neg hr]
      by_cases hk : "check" ∈ aggressive.valid_actions.getD []
      · rw [if_pos hk]
        exact ⟨_, rfl, Or.inl hk, fun _ => hk⟩
      · rw [if_neg hk]
        by_cases hc : "call" ∈ aggressive.valid_actions.getD []
        · rw [if_pos hc]
          exact ⟨_, rfl, Or.inl hc, fun _ => hc⟩
        · rw [if_neg hc]
          exact ⟨_, rfl, Or.inr rfl, fun h => h⟩
  · intro hvalid
    have hlen : ¬ (conservative.valid_actions.getD []).length = 0 := fun h =>
      hvalid (List.length_eq_zero.1 h)
    unfold ConservativeBot.decideAction
    simp only [hlen, if_false, List.contains, List.elem_eq_mem, decide_eq_true_eq]
    by_cases hk : "check" ∈ conservative.valid_actions.getD []
    · rw [if_pos hk]
      exact ⟨_, rfl, Or.inl hk, fun _ => hk⟩
    · rw [if_neg hk]
      by_cases hc : "call" ∈ conservative.valid_actions.getD []
      · simp only [if_pos hc]
        split
        · exact ⟨_, rfl, Or.inl hc, fun _ => hc⟩
        · exact ⟨_, rfl, Or.inr rfl, fun h => h⟩
      · simp only [if_neg hc, Bool.false_eq_true, if_false]
        exact ⟨_, rfl, Or.inr rfl, fun h => h⟩

/-- Witness for C22: with call and fold valid and a call of 500 on a stack of 1000, the
conservative bot returns an action whose type is one of the two. -/
theorem decideAction_type_valid_or_fold_witness :
    ∃ action,
      ConservativeBot.decideAction (some "me")
        { valid_actions := some ["call", "fold"], players := none, current_bet := some 500,
          your_chips := some 1000, current_player_id := some "me",
          game_finished := false } = some action ∧
      action.type ∈ ["call", "fold"] :=
  have h := (decideAction_type_valid_or_fold 0 (some "me")
    { game_id := "g1", phase := "flop", pot := 0, current_bet := 0, community_cards := [],
      current_player_id := some "me", your_player_id := "me", your_chips := 1000,
      your_cards := [], valid_actions := some ["fold"], game_finished := false }
    { valid_actions := some ["call", "fold"], players := none, current_bet := some 500,
      your_chips := some 1000, current_player_id := some "me",
      game_finished := false }).2 (by decide)
  h.elim fun action ha => ⟨action, ha.1, ha.2.2 (by decide)⟩

/-- C22, counterexample. With `raise` and `allin` the only valid actions, the conservative
bot returns fold, and so does the aggressive bot on a draw of 0.7; fold is not among the
valid actions. -/
theorem decideAction_folds_when_fold_not_valid :
    ConservativeBot.decideAction (some "me")
      { valid_actions := some ["raise", "allin"], players := none, current_bet := some 100,
        your_chips := some 1000, current_player_id := some "me", game_finished := false } =
      some { type := "fold", amount := none } ∧
    AggressiveBot.decideAction (7 / 10)
      { game_id := "g1", phase := "flop", pot := 300, current_bet := 100,
        community_cards := [], current_player_id := some "me", your_player_id := "me",
        your_chips := 1000, your_cards := [], valid_actions := some ["raise", "allin"],
        game_finished := false } =
      some { type := "fold", amount := none } ∧
    "fold" ∉ ["raise", "allin"] := by
  refine ⟨by decide, ?_, by decide⟩
  unfold AggressiveBot.decideAction
  have hr : ¬ ((7 : ℚ) / 10 < double_0_6) := by norm_num [double_0_6]
  simp [hr]

/-- C24. The raise of the aggressive policy is not capped by the stack: with
`your_chips = 10`, `current_bet = 100`, raise valid and a draw of 0 (below 0.6),
`AggressiveBot.decideAction` returns a raise of 120, more than the 10 chips of the bot; and
for every snapshot and draw for which it returns a raise, the amount is at least
`current_bet + 20`. -/
theorem aggressive_raise_not_capped :
    (AggressiveBot.decideAction 0
        { game_id := "g1", phase := "flop", pot := 300, current_bet := 100,
          community_cards := [], current_player_id := some "me", your_player_id := "me",
          your_chips := 10, your_cards := [], valid_actions := some ["fold", "call", "raise"],
          game_finished := false } =
      some { type := "raise", amount := some 120 } ∧ 10 < 120 ∧ (0 : ℚ) < double_0_6) ∧
    (∀ (random : ℚ) (state : AggressiveBot.GameState) (action : Action),
      AggressiveBot.decideAction random state = some action → action.type = "raise" →
      ∃ amount, action.amount = some amount ∧ state.current_bet + 20 ≤ amount) := by
  constructor
  · refine ⟨?_, by decide, by norm_num [double_0_6]⟩
    unfold AggressiveBot.decideAction
    have hr : ((0 : ℚ) < double_0_6) := by norm_num [double_0_6]
    simp only [hr]
    decide
  · intro random state action h htype
    unfold AggressiveBot.decideAction at h
    by_cases hlen : (state.valid_actions.getD []).length = 0
    · rw [if_pos hlen] at h
      cases h
    · rw [if_neg hlen] at h
      by_cases hr : ((state.valid_actions.getD []).contains "raise" &&
          decide (random < double_0_6)) = true
      · rw [if_pos hr] at h
        cases h
        exact ⟨_, rfl, le_max_left _ _⟩
      · rw [if_neg hr] at h
        by_cases hk : (state.valid_actions.getD []).contains "check" = true
        · rw [if_pos hk] at h
          cases h
          exact absurd htype (by decide)
        · rw [if_neg hk] at h
          by_cases hc : (state.valid_actions.getD []).contains "call" = true
          · rw [if_pos hc] at h
            cases h
            exact absurd htype (by decide)
          · rw [if_neg hc] at h
            cases h
            exact absurd htype (by decide)

/-- Witness for C24: on 1000 chips with a bet of 100 and the draw 1/2 the bot raises to
150, which is at least 120. -/
theorem aggressive_raise_not_capped_witness :
    ∃ amount, (some 150 : Option Nat) = some amount ∧ 100 + 20 ≤ amount :=
  aggressive_raise_not_capped.2 (1 / 2)
    { game_id := "g", phase := "flop", pot := 300, current_bet := 100,
      community_cards := [], current_player_id := some "me", your_player_id := "me",
      your_chips := 1000, your_cards := [], valid_actions := some ["fold", "call", "raise"],
      game_finished := false }
    { type := "raise", amount := some 150 }
    (by
      unfold AggressiveBot.decideAction
      have hr : ((1 : ℚ) / 2 < double_0_6) := by norm_num [double_0_6]
      simp only [hr]
      decide)
    rfl

namespace Game

/-! ## The stale element of `renderPlayers` -/

theorem mem_updateFirst_of_not (p : PlayerNode → Bool) (f : PlayerNode → PlayerNode)
    (n : PlayerNode) (hn : p n = false) :
    ∀ l : List PlayerNode, n ∈ l → n ∈ updateFirst p f l
  | [], h => h
  | m :: ms, h => by
    unfold updateFirst
    by_cases hm : p m = true
    · rw [if_pos hm]
      rcases List.mem_cons.1 h with h | h
      · subst h
        rw [hn] at hm
        cases hm
      · exact List.mem_cons_of_mem _ h
    · rw [if_neg hm]
      rcases List.mem_cons.1 h with h | h
      · subst h
        exact List.mem_cons_self _ _
      · exact List.mem_cons_of_mem _ (mem_updateFirst_of_not p f n hn ms h)

theorem patchPlayer_keeps_other (currentPlayerId : Option String)
    (actionLog : Option (List String)) (st : State) (player : Player) (n : PlayerNode)
    (hn : n ∈ st.view.playersContainer) (hid : n.playerId ≠ some player.id) :
    n ∈ (patchPlayer currentPlayerId actionLog st player).view.playersContainer := by
  unfold patchPlayer
  split
  · exact List.mem_append_left _ hn
  · exact mem_updateFirst_of_not _ _ n
      (show (n.playerId == some player.id) = false from beq_false_of_ne hid) _ hn

theorem foldl_patchPlayer_keeps_other (currentPlayerId : Option String)
    (actionLog : Option (List String)) (n : PlayerNode) :
    ∀ (players : List Player) (st : State), n ∈ st.view.playersContainer →
      (∀ p ∈ players, n.playerId ≠ some p.id) →
      n ∈ (players.foldl (patchPlayer currentPlayerId actionLog) st).view.playersContainer
  | [], st, hn, _ => hn
  | p :: ps, st, hn, hid => by
    rw [List.foldl_cons]
    exact foldl_patchPlayer_keeps_other currentPlayerId actionLog n ps _
      (patchPlayer_keeps_other currentPlayerId actionLog st p n hn
        (hid p (List.mem_cons_self _ _)))
      (fun q hq => hid q (List.mem_cons_of_mem _ hq))

/-- An element whose player is not in the incoming list stays in the container when the
incoming list has as many players as the container has elements. -/
theorem renderPlayers_stale_node_stays (st : State) (players : List Player)
    (currentPlayerId : Option String) (actionLog : Option (List String)) (n : PlayerNode)
    (hlen : st.view.playersContainer.length = players.length)
    (hn : n ∈ st.view.playersContainer) (hid : ∀ p ∈ players, n.playerId ≠ some p.id) :
    n ∈ (renderPlayers st players currentPlayerId actionLog).view.playersContainer := by
  unfold renderPlayers
  rw [if_neg (by rw [hlen]; exact fun h => h rfl)]
  exact foldl_patchPlayer_keeps_other currentPlayerId actionLog n players st hn hid

set_option maxRecDepth 20000

/-- C23, the code at the failing input. The container shows Alice (`a`) and Bob (`b`);
`renderPlayers` then receives Alice and Carol (`c`): the count is the same, so nothing is
cleared, Carol is appended and the element of Bob stays: three elements for two players,
one of them for an id that is absent from the incoming list. -/
theorem renderPlayers_keeps_stale_node :
    ((renderPlayers
        (renderPlayers State.initial [seat "a" "Alice", seat "b" "Bob"] none none)
        [seat "a" "Alice", seat "c" "Carol"] none none).view.playersContainer.map
      fun n => n.playerId) = [some "a", some "b", some "c"] ∧
    "b" ∉ ([seat "a" "Alice", seat "c" "Carol"].map fun p => p.id) :=
  ⟨by decide, by decide⟩

/-- C8, the code at the failing input. The lists Alice, Bob and then Alice, Carol have been
rendered, so the container holds the elements 1, 2, 3 for `a`, `b`, `c`; `renderPlayers` on
the permutation Carol, Alice of the last list finds three elements for two players, clears
the container and creates the elements 4 and 5: the elements of Alice and Carol are not the
ones that were there before. -/
theorem renderPlayers_permutation_recreates_nodes :
    ((renderPlayers
        (renderPlayers State.initial [seat "a" "Alice", seat "b" "Bob"] none none)
        [seat "a" "Alice", seat "c" "Carol"] none none).view.playersContainer.map
      fun n => (n.node, n.playerId)) = [(1, some "a"), (2, some "b"), (3, some "c")] ∧
    ((renderPlayers
        (renderPlayers
          (renderPlayers State.initial [seat "a" "Alice", seat "b" "Bob"] none none)
          [seat "a" "Alice", seat "c" "Carol"] none none)
        [seat "c" "Carol", seat "a" "Alice"] none none).view.playersContainer.map
      fun n => (n.node, n.playerId)) = [(4, some "c"), (5, some "a")] ∧
    [seat "c" "Carol", seat "a" "Alice"].Perm [seat "a" "Alice", seat "c" "Carol"] :=
  ⟨by decide, by decide, List.Perm.swap _ _ _⟩

/-- C7, counterexample. The human player Alice on the flop, rendered twice: the second pass
assigns the start button, the class name of her element and her controls again, so its
write log is not empty. -/
theorem renderGameState_second_pass_writes :
    (renderGameState
        { renderGameState
            { State.initial with humanPlayerId := some "a", isHumanPlayer := true }
            { snapshotG1 with phase := "flop", players := [seat "a" "Alice"] }
          with trace := [] }
        { snapshotG1 with phase := "flop", players := [seat "a" "Alice"] }).trace =
      [DomWrite.startBtn, DomWrite.playerClass 1, DomWrite.humanControls "actionButtons",
       DomWrite.humanControls "actionMessage", DomWrite.humanControls "humanPlayerChips",
       DomWrite.humanControls "humanPlayerCards"] := by
  decide

end Game

end Poker
